import Mathlib

/-!
EZFS: extent manager, directory engine and namespace operations

A shallow embedding of `fileStorage.c` (the kernel side of EZFS) and of the
image laid down by `format_disk_as_ezfs.c`.

Conventions of the embedding.

* C `int`, `uint64_t` and `sector_t` values are `Int` or `Nat`; every quantity
  is a block or slot number bounded by the size of the volume
  (`s_maxbytes = EZFS_BLOCK_SIZE * EZFS_MAX_DATA_BLKS`), far below `2^31`, so
  no wrap-around is modelled.
* A bitmap is a function from bit index to bit.  The bits of the data-block
  bitmap proper are the indices `0 .. EZFS_MAX_DATA_BLKS - 1`; an access
  outside that range touches a bit that is no part of the bitmap and never
  changes a bit inside it.
* The buffer cache is a function from physical block number to block
  contents; fallible host calls (`sb_bread`, `sb_getblk`, `find_get_page`)
  are oracles collected in `Host`.
* Loops are recursive functions whose fuel is the loop's own bound.
* Where the order of the stores matters, an operation is also given as the
  list of what it does in program order: the steps of a relocation
  (`relocation_trace`), the mutex and mutation events of the mutating
  operations (`LockEvent`), the filename bytes that a lookup reads
  (`lookup_reads`).
-/

namespace Ezfs

/-! ## Constants of the missing header -/

/-- Constants declared by the header `fileStorage.h`, which the sources include
but which is absent; every definition takes them as a parameter. -/
structure Consts where
  EZFS_BLOCK_SIZE : Nat
  EZFS_ROOT_INODE_NUMBER : Int
  EZFS_ROOT_DATABLOCK_NUMBER : Int
  EZFS_MAX_INODES : Nat
  EZFS_MAX_DATA_BLKS : Nat
  EZFS_MAX_CHILDREN : Nat
  EZFS_MAX_FILENAME_LENGTH : Nat

/-- Linux errno `ENOENT`. -/
def ENOENT : Int := 2
/-- Linux errno for a failed block read or buffer acquisition (errno 5). -/
def EIO_errno : Int := 5
/-- Linux errno `ENOSPC`. -/
def ENOSPC : Int := 28
/-- Linux errno `ENAMETOOLONG`. -/
def ENAMETOOLONG : Int := 36
/-- Linux errno `ENOTEMPTY`. -/
def ENOTEMPTY : Int := 39

/-! ## Bitmaps -/

/-- A bit array, indexed by bit number. -/
abbrev Bitmap := Int → Bool

/-- Kernel `test_bit(nr, addr)`. -/
def test_bit (nr : Int) (addr : Bitmap) : Bool := addr nr

/-- Kernel `set_bit(nr, addr)`. -/
def set_bit (nr : Int) (addr : Bitmap) : Bitmap :=
  fun j => if j = nr then true else addr j

/-- Kernel `clear_bit(nr, addr)`. -/
def clear_bit (nr : Int) (addr : Bitmap) : Bitmap :=
  fun j => if j = nr then false else addr j

/-- Kernel `find_first_zero_bit(addr, size)`: the lowest index below `size`
whose bit is clear, or `size` when every bit below `size` is set. -/
def find_first_zero_bit (addr : Bitmap) : Nat → Nat
  | 0 => 0
  | n + 1 =>
    let r := find_first_zero_bit addr n
    if r < n then r else if addr (n : Int) then n + 1 else n

/-- Modelled from the spec: the macro `IS_SET(bitmap, i)` of the absent header
`fileStorage.h`, the `is_set(i)` of the bitmap allocator: the bit test. -/
def IS_SET (bitmap : Bitmap) (i : Int) : Bool := bitmap i

/-- Modelled from the spec: the macro `SETBIT(bitmap, i)` of the absent header
`fileStorage.h`, the `set(i)` of the bitmap allocator: bit `i` becomes set. -/
def SETBIT (bitmap : Bitmap) (i : Int) : Bitmap := fun j => if j = i then true else bitmap j

/-- Modelled from the spec: the macro `CLEARBIT(bitmap, i)` of the absent header
`fileStorage.h`, the `clear(i)` of the bitmap allocator: bit `i` becomes
clear. -/
def CLEARBIT (bitmap : Bitmap) (i : Int) : Bitmap := fun j => if j = i then false else bitmap j

/-! ## Buffer cache and host oracles -/

/-- Contents of one block (its bytes). -/
abbrev BlockData := List Nat

/-- The buffer cache: physical block number to contents. -/
abbrev Disk := Int → BlockData

/-- Writing a whole block through its buffer head. -/
def Disk.write (d : Disk) (blk : Int) (data : BlockData) : Disk :=
  fun b => if b = blk then data else d b

/-- Host calls used by `ezfs_move_block`: whether `sb_getblk` and `sb_bread`
return a buffer for a block number, and the page `find_get_page` finds in
the file's mapping at a page index (if any). -/
structure Host where
  sb_getblk : Int → Bool
  sb_bread : Int → Bool
  find_get_page : Int → Option BlockData

/-! ## Extent manager: `ezfs_move_block` and `ezfs_get_block` -/

/-- Source `ezfs_move_block`: returns the status and the buffer cache. -/
def ezfs_move_block (c : Consts) (h : Host) (base_offset src_offset dest_offset : Int)
    (disk : Disk) : Int × Disk :=
  let src_offset := src_offset + c.EZFS_ROOT_DATABLOCK_NUMBER
  let dest_offset := dest_offset + c.EZFS_ROOT_DATABLOCK_NUMBER
  if !h.sb_getblk dest_offset then (-EIO_errno, disk)
  else
    match h.find_get_page (src_offset - base_offset) with
    | some src_data => (0, disk.write dest_offset src_data)
    | none =>
      if !h.sb_bread src_offset then (-EIO_errno, disk)
      else (0, disk.write dest_offset (disk src_offset))

/-- The free-run search loop of `ezfs_get_block` (lines 363-372): loop state is
`(idx, searching_block)`; the first argument bounds the number of iterations. -/
def scan_loop (c : Consts) (bitmap : Bitmap) (current_block_no total_blocks : Int) :
    Nat → Int → Int → Int × Int
  | 0, idx, searching_block => (idx, searching_block)
  | fuel + 1, idx, searching_block =>
    if searching_block < total_blocks + 1 ∧ idx < (c.EZFS_MAX_DATA_BLKS : Int) then
      let block_idx := idx + c.EZFS_ROOT_DATABLOCK_NUMBER
      let searching_block :=
        if test_bit idx bitmap ∧
            (current_block_no > block_idx ∨ current_block_no + total_blocks - 1 < block_idx)
        then -1 else searching_block
      scan_loop c bitmap current_block_no total_blocks fuel (idx + 1) (searching_block + 1)
    else (idx, searching_block)

/-- The copy loop of `ezfs_get_block` (lines 382-386), iterations `0 .. n-1` in
order: move block `start_index + i` to `new_start_index + i`, then clear the
old bit.  The status of `ezfs_move_block` is discarded, as in the source. -/
def move_loop (c : Consts) (h : Host) (start_index new_start_index : Int) :
    Nat → Bitmap × Disk → Bitmap × Disk
  | 0, s => s
  | i + 1, s =>
    let s1 := move_loop c h start_index new_start_index i s
    let r := ezfs_move_block c h start_index (start_index + i) (new_start_index + i) s1.2
    (clear_bit (start_index + i) s1.1, r.2)

/-- The marking loop of `ezfs_get_block` (lines 387-388), iterations `0 .. n-1`. -/
def mark_loop (new_start_index : Int) : Nat → Bitmap → Bitmap
  | 0, bitmap => bitmap
  | i + 1, bitmap => set_bit (new_start_index + i) (mark_loop new_start_index i bitmap)

/-- What `ezfs_get_block` leaves behind: its return value, the block number
given to `map_bh` (if it was called), the data-block bitmap, the inode
record's `dbn`, and the buffer cache. -/
structure GetBlockResult where
  status : Int
  mapped : Option Int
  bitmap : Bitmap
  dbn : Int
  disk : Disk

/-- Label `allocation_success` of `ezfs_get_block`. -/
def allocation_success (c : Consts) (physical_addr : Int) (bitmap : Bitmap) (dbn : Int)
    (disk : Disk) : GetBlockResult :=
  { status := 0
    mapped := some physical_addr
    bitmap := set_bit (physical_addr - c.EZFS_ROOT_DATABLOCK_NUMBER) bitmap
    dbn := dbn
    disk := disk }

/-- Source `ezfs_get_block(inode, block, bh_result, create)`, on the inode's
`dbn` and `i_blocks`, the data-block bitmap and the buffer cache.  Lines
329-340 repeat lines 315-327 on the same values and are modelled in place. -/
def ezfs_get_block (c : Consts) (h : Host) (bitmap : Bitmap) (dbn : Int) (i_blocks : Nat)
    (disk : Disk) (block : Nat) (create : Bool) : GetBlockResult :=
  let current_block_no : Int := dbn
  let total_blocks : Int := ((i_blocks / 8 : Nat) : Int)
  let physical_addr : Int := if total_blocks ≠ 0 then current_block_no + block else 0
  if total_blocks ≠ 0 ∧ (block : Int) < total_blocks then
    { status := 0, mapped := some physical_addr, bitmap := bitmap, dbn := dbn, disk := disk }
  else if !create then
    { status := 0, mapped := none, bitmap := bitmap, dbn := dbn, disk := disk }
  else
  let current_block_no : Int := dbn
  let total_blocks : Int := ((i_blocks / 8 : Nat) : Int)
  let physical_addr : Int := if total_blocks ≠ 0 then current_block_no + block else physical_addr
  if total_blocks ≠ 0 ∧ (block : Int) < total_blocks then
    { status := 0, mapped := some physical_addr, bitmap := bitmap, dbn := dbn, disk := disk }
  else if !create then
    { status := 0, mapped := none, bitmap := bitmap, dbn := dbn, disk := disk }
  else if physical_addr ≥ c.EZFS_ROOT_DATABLOCK_NUMBER + c.EZFS_MAX_DATA_BLKS then
    { status := -ENOSPC, mapped := none, bitmap := bitmap, dbn := dbn, disk := disk }
  else
    let idx : Int := find_first_zero_bit bitmap c.EZFS_MAX_DATA_BLKS
    if idx = c.EZFS_MAX_DATA_BLKS then
      { status := -ENOSPC, mapped := none, bitmap := bitmap, dbn := dbn, disk := disk }
    else if total_blocks = 0 then
      let physical_addr := idx + c.EZFS_ROOT_DATABLOCK_NUMBER
      allocation_success c physical_addr bitmap physical_addr disk
    else if !test_bit (physical_addr - c.EZFS_ROOT_DATABLOCK_NUMBER) bitmap then
      allocation_success c physical_addr bitmap dbn disk
    else
      let expanded_block_count := total_blocks + 1
      let scan := scan_loop c bitmap current_block_no total_blocks c.EZFS_MAX_DATA_BLKS 0 0
      let idx := scan.1
      let searching_block := scan.2
      if searching_block < expanded_block_count then
        { status := -ENOSPC, mapped := none, bitmap := bitmap, dbn := dbn, disk := disk }
      else
        let new_start_index := idx - expanded_block_count
        let physical_addr := idx - 1 + c.EZFS_ROOT_DATABLOCK_NUMBER
        let start_index := current_block_no - c.EZFS_ROOT_DATABLOCK_NUMBER
        let moved := move_loop c h start_index new_start_index (i_blocks / 8) (bitmap, disk)
        let bitmap := mark_loop new_start_index (i_blocks / 8) moved.1
        allocation_success c physical_addr bitmap
          (new_start_index + c.EZFS_ROOT_DATABLOCK_NUMBER) moved.2

/-! ## Records: on-disk inode, in-memory inode, directory entry -/

/-- File-type bit `S_IFDIR` of a mode. -/
def S_IFDIR : Nat := 0o040000
/-- File-type bits `S_IFREG` of a mode. -/
def S_IFREG : Nat := 0o100000

/-- Modelled from the spec: the on-disk inode record `struct ezfs_inode`, which
the absent header `fileStorage.h` declares, with the fields the sources read
and write; a time stamp is an abstract number. -/
structure ezfs_inode where
  mode : Nat
  uid : Nat
  gid : Nat
  nlink : Nat
  file_size : Nat
  i_atime : Nat
  i_mtime : Nat
  i_ctime : Nat
  dbn : Int
  nblocks : Nat
deriving DecidableEq

/-- The fields of the host's in-memory `struct inode` that the sources use.
Its `i_private` points at record `i_ino - EZFS_ROOT_INODE_NUMBER` of the
inode store. -/
structure inode where
  i_ino : Int
  i_mode : Nat
  i_uid : Nat
  i_gid : Nat
  i_nlink : Nat
  i_size : Nat
  i_blocks : Nat
  i_atime : Nat
  i_mtime : Nat
  i_ctime : Nat
deriving DecidableEq

/-- Modelled from the spec: the directory slot `struct ezfs_dir_entry`, which
the absent header `fileStorage.h` declares: an active flag, the filename
buffer of `EZFS_MAX_FILENAME_LENGTH + 1` bytes and the inode number. -/
structure ezfs_dir_entry where
  inode_no : Int
  active : Nat
  filename : List Nat
deriving DecidableEq

/-- The slots of one directory block, by slot index; the block holds the
slots `0 .. EZFS_MAX_CHILDREN - 1`. -/
abbrev DirBlock := Nat → ezfs_dir_entry

/-- A slot after `memset(&slot, 0, sizeof(struct ezfs_dir_entry))`. -/
def zero_dir_entry (c : Consts) : ezfs_dir_entry :=
  { inode_no := 0, active := 0, filename := List.replicate (c.EZFS_MAX_FILENAME_LENGTH + 1) 0 }

/-- A directory block after `memset(b_data, 0, EZFS_BLOCK_SIZE)`. -/
def zero_dir_block (c : Consts) : DirBlock := fun _ => zero_dir_entry c

/-- Storing a slot of a directory block. -/
def DirBlock.store (blk : DirBlock) (i : Nat) (e : ezfs_dir_entry) : DirBlock :=
  fun k => if k = i then e else blk k

/-- The mounted volume: both bitmaps of the superblock, the inode store by
table index, and the directory view of every block, by block number. -/
structure FsState where
  free_inodes : Bitmap
  free_data_blocks : Bitmap
  inode_store : Int → ezfs_inode
  blocks : Int → DirBlock

/-- Host services of the namespace operations: whether `sb_bread` returns a
buffer for a block, `current_time`, and the owner and mode that
`inode_init_owner(new_inode, dir, mode)` assigns, as `(uid, gid, mode)`. -/
structure NsHost where
  sb_bread : Int → Bool
  current_time : Nat
  inode_init_owner : inode → Nat → Nat × Nat × Nat

/-! ## C strings -/

/-- C `strlen` of a name given by its bytes (the terminating NUL follows the
last byte). -/
def strlen (s : List Nat) : Nat := (s.takeWhile (fun b => b ≠ 0)).length

/-- C `strnlen(s, maxlen)`. -/
def strnlen (s : List Nat) (maxlen : Nat) : Nat := min (strlen s) maxlen

/-- Byte `k` of a name: its bytes, then the terminating NUL. -/
def name_byte (s : List Nat) (k : Nat) : Nat := s.getD k 0

/-- C `strncpy(dst, src, n)` into a byte buffer: the first `n` bytes of `dst`
become the bytes of `src` up to its NUL, padded with NUL when `src` is
shorter than `n`; the other bytes of `dst` stay. -/
def strncpy (dst src : List Nat) (n : Nat) : List Nat :=
  ((src.takeWhile (fun b => b ≠ 0)).take n ++ List.replicate (n - strlen src) 0) ++ dst.drop n

/-- C `strncmp(s1, s2, n) == 0` from byte index `k` on, for a byte buffer `s1`
and a name `s2`: `none` when the comparison reads past the end of the
buffer `s1`. -/
def strncmp_eq (s1 s2 : List Nat) : Nat → Nat → Option Bool
  | 0, _ => some true
  | n + 1, k =>
    match s1.get? k with
    | none => none
    | some c1 =>
      if c1 ≠ name_byte s2 k then some false
      else if c1 = 0 then some true
      else strncmp_eq s1 s2 n (k + 1)

/-- C `strcmp(s1, s2) == 0`: the comparison ends at the latest on the NUL that
terminates `s2`, that is within `length s2 + 1` bytes. -/
def strcmp_eq (s1 s2 : List Nat) : Option Bool := strncmp_eq s1 s2 (s2.length + 1) 0

/-! ## Inode engine -/

/-- Source `write_inode_helper` (and `ezfs_update_inode_from_vfs`, which has the
same body): copy the in-memory fields into the record; `dbn` is not
touched. -/
def write_inode_helper (i : inode) (rec : ezfs_inode) : ezfs_inode :=
  { rec with
    mode := i.i_mode, file_size := i.i_size, nlink := i.i_nlink, i_atime := i.i_atime,
    i_mtime := i.i_mtime, i_ctime := i.i_ctime, uid := i.i_uid, gid := i.i_gid,
    nblocks := i.i_blocks / 8 }

/-- Source `ezfs_iget` for an inode that is not cached (`I_NEW`): the in-memory
inode filled from record `inode_number - EZFS_ROOT_INODE_NUMBER`. -/
def ezfs_iget (c : Consts) (st : FsState) (inode_number : Int) : inode :=
  let internal_inode := st.inode_store (inode_number - c.EZFS_ROOT_INODE_NUMBER)
  { i_ino := inode_number
    i_mode := internal_inode.mode
    i_size := internal_inode.file_size
    i_blocks := internal_inode.nblocks * 8
    i_nlink := internal_inode.nlink
    i_atime := internal_inode.i_atime
    i_mtime := internal_inode.i_mtime
    i_ctime := internal_inode.i_ctime
    i_uid := internal_inode.uid
    i_gid := internal_inode.gid }

/-- Kernel `inc_nlink` on the 32-bit link count. -/
def inc_nlink (i : inode) : inode := { i with i_nlink := (i.i_nlink + 1) % 2 ^ 32 }

/-- Kernel `drop_nlink` on the 32-bit link count. -/
def drop_nlink (i : inode) : inode := { i with i_nlink := (i.i_nlink + 2 ^ 32 - 1) % 2 ^ 32 }

/-- Source `ezfs_update_inode_from_vfs(ez_inode, vfs_inode)`: the return value
(always 0) and the record. -/
def ezfs_update_inode_from_vfs (ez_inode : ezfs_inode) (vfs_inode : inode) :
    Int × ezfs_inode :=
  (0,
    { ez_inode with
      mode := vfs_inode.i_mode, file_size := vfs_inode.i_size, nlink := vfs_inode.i_nlink,
      i_atime := vfs_inode.i_atime, i_mtime := vfs_inode.i_mtime,
      i_ctime := vfs_inode.i_ctime, uid := vfs_inode.i_uid, gid := vfs_inode.i_gid,
      nblocks := vfs_inode.i_blocks / 8 })

/-- Source `ezfs_sync_inode_to_disk(i_bh, wbc)`: `sync_all` is
`wbc->sync_mode == WB_SYNC_ALL`, `not_uptodate` is the host's
`buffer_req(i_bh) && !buffer_uptodate(i_bh)` after `sync_dirty_buffer`. -/
def ezfs_sync_inode_to_disk (sync_all not_uptodate : Bool) : Int :=
  if sync_all ∧ not_uptodate then -EIO_errno else 0

/-- Source `ezfs_write_inode(inode, wbc)`: the return value and the volume; the
record of the inode is record `i_ino - EZFS_ROOT_INODE_NUMBER` of the inode
store. -/
def ezfs_write_inode (c : Consts) (st : FsState) (i : inode) (sync_all not_uptodate : Bool) :
    Int × FsState :=
  let upd := ezfs_update_inode_from_vfs (st.inode_store (i.i_ino - c.EZFS_ROOT_INODE_NUMBER)) i
  let st : FsState :=
    { st with
      inode_store := fun k =>
        if k = i.i_ino - c.EZFS_ROOT_INODE_NUMBER then upd.2 else st.inode_store k }
  if upd.1 ≠ 0 then (upd.1, st)
  else (ezfs_sync_inode_to_disk sync_all not_uptodate, st)

/-- Source `release_inode_resources(ezfs_sb, ezfs_inode, blocks)`: the loop over
`i = 0 .. blocks - 1` on the data-block bitmap; `data_blk_num` is the
record's `dbn`. -/
def release_inode_resources (c : Consts) (free_data_blocks : Bitmap) (data_blk_num : Int) :
    Nat → Bitmap
  | 0 => free_data_blocks
  | i + 1 =>
    CLEARBIT (release_inode_resources c free_data_blocks data_blk_num i)
      (data_blk_num - c.EZFS_ROOT_DATABLOCK_NUMBER + i)

/-- Source `ezfs_evict_inode(inode)`: the volume it leaves behind.  Dropping the
page cache and the in-memory inode is the host's work. -/
def ezfs_evict_inode (c : Consts) (st : FsState) (i : inode) : FsState :=
  let ezfs_inode := st.inode_store (i.i_ino - c.EZFS_ROOT_INODE_NUMBER)
  let blocks := i.i_blocks / 8
  if i.i_nlink = 0 then
    { st with
      free_inodes := CLEARBIT st.free_inodes (i.i_ino - c.EZFS_ROOT_INODE_NUMBER)
      free_data_blocks := release_inode_resources c st.free_data_blocks ezfs_inode.dbn blocks }
  else st

/-- The volume after `ezfs_write_inode` stored the inode and the inode was then
evicted. -/
def written_and_evicted (c : Consts) (st : FsState) (i : inode)
    (sync_all not_uptodate : Bool) : FsState :=
  ezfs_evict_inode c (ezfs_write_inode c st i sync_all not_uptodate).2 i

/-- The in-memory inode that `ezfs_iget` materialises again after the inode was
written and evicted. -/
def rematerialised (c : Consts) (st : FsState) (i : inode) (sync_all not_uptodate : Bool) :
    inode :=
  ezfs_iget c (written_and_evicted c st i sync_all not_uptodate) i.i_ino

/-! ## Directory engine and namespace operations -/

/-- The loop of `find_free_index` (lines 42-45) from `idx` on. -/
def find_free_index_from (bitmap : Bitmap) (max : Nat) : Nat → Nat → Int
  | 0, _ => -ENOSPC
  | fuel + 1, idx =>
    if idx < max then
      if !IS_SET bitmap idx then (idx : Int)
      else find_free_index_from bitmap max fuel (idx + 1)
    else -ENOSPC

/-- Source `find_free_index(bitmap, max, error_msg)`: the first index below
`max` whose bit is clear, or `-ENOSPC`. -/
def find_free_index (bitmap : Bitmap) (max : Nat) : Int :=
  find_free_index_from bitmap max max 0

/-- The slot search of `create_inode_helper` (lines 558-560) from slot `i` on:
the first slot that is not active, or `EZFS_MAX_CHILDREN`. -/
def first_inactive_slot (c : Consts) (blk : DirBlock) : Nat → Nat → Nat
  | 0, i => i
  | fuel + 1, i =>
    if i < c.EZFS_MAX_CHILDREN ∧ (blk i).active ≠ 0 then first_inactive_slot c blk fuel (i + 1)
    else i

/-- What `create_inode_helper` leaves behind: the error it returns (0 for the
`NULL` of the success path), the volume, the parent's in-memory inode and
the new in-memory inode, if one was set up. -/
structure CreateResult where
  ret : Int
  st : FsState
  dir : inode
  new_inode : Option inode

/-- The part of `create_inode_helper` after every check has passed (lines
596-652): zero the new directory's block, set up the new in-memory inode and
its record, write the directory slot `i`, stamp the parent and bump its link
count for a directory, set the bitmap bits.  `mode` already carries `S_IFDIR`
for a directory; `i_idx` and `d_idx` are the free indices found. -/
def create_commit (c : Consts) (h : NsHost) (st : FsState) (dir : inode) (name : List Nat)
    (mode : Nat) (i : Nat) (i_idx d_idx : Int) : CreateResult :=
  let dir_blk_num := (st.inode_store (dir.i_ino - c.EZFS_ROOT_INODE_NUMBER)).dbn
  let i_num := i_idx + c.EZFS_ROOT_INODE_NUMBER
  let d_num := d_idx + c.EZFS_ROOT_DATABLOCK_NUMBER
  -- memset(new_dir_bh->b_data, 0, EZFS_BLOCK_SIZE)
  let blocks : Int → DirBlock :=
    if mode &&& S_IFDIR ≠ 0 then
      fun b => if b = d_num then zero_dir_block c else st.blocks b
    else st.blocks
  let owner := h.inode_init_owner dir mode
  let new_inode : inode :=
    { i_ino := i_num
      i_mode := owner.2.2
      i_uid := owner.1
      i_gid := owner.2.1
      i_nlink := if mode &&& S_IFDIR ≠ 0 then 2 else 1
      i_size := if mode &&& S_IFDIR ≠ 0 then c.EZFS_BLOCK_SIZE else 0
      i_blocks := if mode &&& S_IFDIR ≠ 0 then 8 else 0
      i_atime := h.current_time
      i_mtime := h.current_time
      i_ctime := h.current_time }
  let new_ezfs_inode : ezfs_inode :=
    write_inode_helper new_inode
      { st.inode_store i_idx with dbn := if mode &&& S_IFDIR ≠ 0 then d_num else -1 }
  let inode_store : Int → ezfs_inode :=
    fun k => if k = i_idx then new_ezfs_inode else st.inode_store k
  -- the directory slot found by the search, in the buffer of block `dir_blk_num`
  let ezfs_dentry := blocks dir_blk_num i
  let ezfs_dentry : ezfs_dir_entry :=
    { filename := strncpy ezfs_dentry.filename name (strlen name)
      active := 1
      inode_no := i_num }
  let blocks : Int → DirBlock :=
    fun b => if b = dir_blk_num then (blocks dir_blk_num).store i ezfs_dentry else blocks b
  let dir := { dir with i_mtime := h.current_time, i_ctime := h.current_time }
  let dir := if mode &&& S_IFDIR ≠ 0 then inc_nlink dir else dir
  let free_inodes := SETBIT st.free_inodes i_idx
  let free_data_blocks :=
    if mode &&& S_IFDIR ≠ 0 then SETBIT st.free_data_blocks d_idx
    else st.free_data_blocks
  { ret := 0
    st := { free_inodes := free_inodes, free_data_blocks := free_data_blocks,
            inode_store := inode_store, blocks := blocks }
    dir := dir
    new_inode := some new_inode }

/-- Source `create_inode_helper(dir, dentry, mode, isdir)`; `name` is
`dentry->d_name.name`.  `iget_locked` never returns an error pointer, so the
`IS_ERR(new_inode)` branch is not taken.  A free data block is looked for
only when the mode carries `S_IFDIR`. -/
def create_inode_helper (c : Consts) (h : NsHost) (st : FsState) (dir : inode)
    (name : List Nat) (mode : Nat) (isdir : Bool) : CreateResult :=
  let dir_blk_num := (st.inode_store (dir.i_ino - c.EZFS_ROOT_INODE_NUMBER)).dbn
  if strnlen name (c.EZFS_MAX_FILENAME_LENGTH + 1) > c.EZFS_MAX_FILENAME_LENGTH then
    { ret := -ENAMETOOLONG, st := st, dir := dir, new_inode := none }
  else if !h.sb_bread dir_blk_num then
    { ret := -EIO_errno, st := st, dir := dir, new_inode := none }
  else
    let i := first_inactive_slot c (st.blocks dir_blk_num) c.EZFS_MAX_CHILDREN 0
    if i = c.EZFS_MAX_CHILDREN then
      { ret := -ENOSPC, st := st, dir := dir, new_inode := none }
    else
      let i_idx := find_free_index st.free_inodes c.EZFS_MAX_INODES
      if i_idx < 0 then
        { ret := i_idx, st := st, dir := dir, new_inode := none }
      else
        let mode := if isdir then mode ||| S_IFDIR else mode
        let d_idx := find_free_index st.free_data_blocks c.EZFS_MAX_DATA_BLKS
        let d_num := d_idx + c.EZFS_ROOT_DATABLOCK_NUMBER
        if mode &&& S_IFDIR ≠ 0 ∧ d_idx < 0 then
          { ret := d_idx, st := st, dir := dir, new_inode := none }
        else if mode &&& S_IFDIR ≠ 0 ∧ !h.sb_bread d_num then
          { ret := -EIO_errno, st := st, dir := dir, new_inode := none }
        else create_commit c h st dir name mode i i_idx d_idx

/-- Source `ezfs_create(dir, dentry, mode, excl)`: the error of
`create_inode_helper`, or 0. -/
def ezfs_create (c : Consts) (h : NsHost) (st : FsState) (dir : inode) (name : List Nat)
    (mode : Nat) (_excl : Bool) : CreateResult :=
  create_inode_helper c h st dir name mode false

/-- Source `ezfs_mkdir(dir, dentry, mode)`. -/
def ezfs_mkdir (c : Consts) (h : NsHost) (st : FsState) (dir : inode) (name : List Nat)
    (mode : Nat) : CreateResult :=
  ezfs_create c h st dir name (mode ||| S_IFDIR) true

/-- Outcome of `ezfs_lookup`: an error pointer, a negative dentry (no inode),
or the inode that `ezfs_iget` returned. -/
inductive LookupResult where
  | error (e : Int)
  | negative
  | found (i : inode)
deriving DecidableEq

/-- The scan of `ezfs_lookup` (lines 519-528) from slot `index` on: the inode
number of the first slot that is active, agrees with `name` on its first
`len` bytes and has NUL at byte `len`; `some none` when no slot matches;
`none` when a comparison reads past the end of a filename buffer. -/
def lookup_scan (c : Consts) (blk : DirBlock) (name : List Nat) :
    Nat → Nat → Option (Option Int)
  | 0, _ => some none
  | fuel + 1, index =>
    if index < c.EZFS_MAX_CHILDREN then
      if (blk index).active ≠ 0 then
        match strncmp_eq (blk index).filename name name.length 0 with
        | none => none
        | some false => lookup_scan c blk name fuel (index + 1)
        | some true =>
          match (blk index).filename.get? name.length with
          | none => none
          | some b =>
            if b = 0 then some (some (blk index).inode_no)
            else lookup_scan c blk name fuel (index + 1)
      else lookup_scan c blk name fuel (index + 1)
    else some none

/-- Source `ezfs_lookup(directory, child_entry, flags)`; `name` is
`child_entry->d_name.name` and `d_name.len` its length.  `none` when a
comparison reads past the end of a filename buffer. -/
def ezfs_lookup (c : Consts) (h : NsHost) (st : FsState) (directory : inode)
    (name : List Nat) : Option LookupResult :=
  let directory_block := (st.inode_store (directory.i_ino - c.EZFS_ROOT_INODE_NUMBER)).dbn
  if !h.sb_bread directory_block then some (LookupResult.error (-EIO_errno))
  else
    match lookup_scan c (st.blocks directory_block) name c.EZFS_MAX_CHILDREN 0 with
    | none => none
    | some none => some LookupResult.negative
    | some (some inode_no) => some (LookupResult.found (ezfs_iget c st inode_no))

/-- Source `deactivate_dir_entry(bh, filename)` from slot `i` on: the return
value and the block; `none` when a comparison reads past the end of a
filename buffer. -/
def deactivate_dir_entry_from (c : Consts) (filename : List Nat) :
    Nat → Nat → DirBlock → Option (Int × DirBlock)
  | 0, _, blk => some (0, blk)
  | fuel + 1, i, blk =>
    if i < c.EZFS_MAX_CHILDREN then
      if (blk i).active ≠ 0 then
        match strcmp_eq (blk i).filename filename with
        | none => none
        | some true => some (1, blk.store i (zero_dir_entry c))
        | some false => deactivate_dir_entry_from c filename fuel (i + 1) blk
      else deactivate_dir_entry_from c filename fuel (i + 1) blk
    else some (0, blk)

/-- Source `deactivate_dir_entry(bh, filename)`. -/
def deactivate_dir_entry (c : Consts) (blk : DirBlock) (filename : List Nat) :
    Option (Int × DirBlock) :=
  deactivate_dir_entry_from c filename c.EZFS_MAX_CHILDREN 0 blk

/-- Source `update_inode_metadata(inode, dir)`. -/
def update_inode_metadata (h : NsHost) (i dir : inode) : inode × inode :=
  (drop_nlink { i with i_ctime := h.current_time },
    { dir with i_ctime := h.current_time, i_mtime := h.current_time })

/-- What `ezfs_unlink` leaves behind: its return value, the volume, the
parent's in-memory inode and the in-memory inode of the entry. -/
structure UnlinkResult where
  ret : Int
  st : FsState
  dir : inode
  target : inode

/-- Source `ezfs_unlink(dir, dentry)`; `name` is `dentry->d_name.name` and
`target` is `d_inode(dentry)`.  `none` when a comparison reads past the end
of a filename buffer. -/
def ezfs_unlink (c : Consts) (h : NsHost) (st : FsState) (dir : inode) (name : List Nat)
    (target : inode) : Option UnlinkResult :=
  let dir_blk_num := (st.inode_store (dir.i_ino - c.EZFS_ROOT_INODE_NUMBER)).dbn
  if !h.sb_bread dir_blk_num then
    some { ret := -EIO_errno, st := st, dir := dir, target := target }
  else
    match deactivate_dir_entry c (st.blocks dir_blk_num) name with
    | none => none
    | some (result, blk) =>
      let st := { st with blocks := fun b => if b = dir_blk_num then blk else st.blocks b }
      if result ≠ 0 then
        let upd := update_inode_metadata h target dir
        some { ret := 0, st := st, dir := upd.2, target := upd.1 }
      else
        some { ret := -ENOENT, st := st, dir := dir, target := target }

/-- The loop of `ezfs_dir_empty` (lines 726-729) from slot `i` on: 0 at the first
active slot, 1 when there is none. -/
def ezfs_dir_empty_from (c : Consts) (blk : DirBlock) : Nat → Nat → Int
  | 0, _ => 1
  | fuel + 1, i =>
    if i < c.EZFS_MAX_CHILDREN then
      if (blk i).active ≠ 0 then 0
      else ezfs_dir_empty_from c blk fuel (i + 1)
    else 1

/-- Source `ezfs_dir_empty(bh)`. -/
def ezfs_dir_empty (c : Consts) (blk : DirBlock) : Int :=
  ezfs_dir_empty_from c blk c.EZFS_MAX_CHILDREN 0

/-- What `ezfs_rmdir` leaves behind: its return value, the volume, the parent's
in-memory inode and the in-memory inode of the directory removed. -/
structure RmdirResult where
  ret : Int
  st : FsState
  dir : inode
  target : inode

/-- Source `ezfs_rmdir(dir, dentry)`; `name` is `dentry->d_name.name` and
`dentry_inode` is `d_inode(dentry)`.  `none` when a comparison reads past the
end of a filename buffer. -/
def ezfs_rmdir (c : Consts) (h : NsHost) (st : FsState) (dir : inode) (name : List Nat)
    (dentry_inode : inode) : Option RmdirResult :=
  let dir_blk_num := (st.inode_store (dentry_inode.i_ino - c.EZFS_ROOT_INODE_NUMBER)).dbn
  if !h.sb_bread dir_blk_num then
    some { ret := -EIO_errno, st := st, dir := dir, target := dentry_inode }
  else if ezfs_dir_empty c (st.blocks dir_blk_num) = 0 then
    some { ret := -ENOTEMPTY, st := st, dir := dir, target := dentry_inode }
  else
    match ezfs_unlink c h st dir name dentry_inode with
    | none => none
    | some u =>
      if u.ret ≠ 0 then some { ret := u.ret, st := u.st, dir := u.dir, target := u.target }
      else some { ret := 0, st := u.st, dir := drop_nlink u.dir, target := drop_nlink u.target }

/-! ## Directory iteration -/

/-- What `dir_emit` is handed for one entry: the name bytes and the inode
number. -/
structure DirItem where
  name : List Nat
  ino : Int
deriving DecidableEq

/-- The C string `strlen` measures in a byte buffer, that is the bytes before
the first NUL: `none` when the buffer holds no NUL and `strlen` reads past
its end. -/
def c_string (buf : List Nat) : Option (List Nat) :=
  if 0 ∈ buf then some (buf.takeWhile (fun b => b ≠ 0)) else none

/-- What `dir_emit` receives for a slot whose filename holds a NUL. -/
def slot_item (e : ezfs_dir_entry) : DirItem :=
  { name := e.filename.takeWhile (fun b => b ≠ 0), ino := e.inode_no }

/-- Kernel `dir_emit_dots(file, ctx)` on a host whose `dir_emit` accepts `room`
more entries before it reports a full buffer: whether it succeeded, the
cursor, the room left and the entries emitted (`.` for the directory, `..`
for its parent). -/
def dir_emit_dots (ino parent_ino : Int) (pos room : Nat) : Bool × Nat × Nat × List DirItem :=
  if pos = 0 then
    match room with
    | 0 => (false, 0, 0, [])
    | 1 => (false, 1, 0, [{ name := [46], ino := ino }])
    | room + 2 =>
      (true, 2, room, [{ name := [46], ino := ino }, { name := [46, 46], ino := parent_ino }])
  else if pos = 1 then
    match room with
    | 0 => (false, 1, 0, [])
    | room + 1 => (true, 2, room, [{ name := [46, 46], ino := parent_ino }])
  else (true, pos, room, [])

/-- The loop of `ezfs_iterate` (lines 426-436) at cursor `pos >= 2`, on a host
whose `dir_emit` accepts `room` more entries: the final cursor and the
entries emitted.  `entry_index` is `pos - 2` throughout.  `none` when
`strlen` reads past the end of a filename buffer. -/
def iterate_loop (c : Consts) (blk : DirBlock) : Nat → Nat → Nat → Option (Nat × List DirItem)
  | 0, pos, _ => some (pos, [])
  | fuel + 1, pos, room =>
    if pos - 2 < c.EZFS_MAX_CHILDREN then
      if (blk (pos - 2)).active ≠ 0 then
        match c_string (blk (pos - 2)).filename with
        | none => none
        | some name =>
          match room with
          | 0 => some (pos, [])
          | room + 1 =>
            match iterate_loop c blk fuel (pos + 1) room with
            | none => none
            | some r => some (r.1, { name := name, ino := (blk (pos - 2)).inode_no } :: r.2)
      else iterate_loop c blk fuel (pos + 1) room
    else some (pos, [])

/-- What `ezfs_iterate` leaves behind: its return value, the cursor
`context->pos` and the entries handed to the host, in order. -/
structure IterateResult where
  ret : Int
  pos : Nat
  emitted : List DirItem

/-- Source `ezfs_iterate(file, context)` at cursor `pos`, for the directory
`inode` whose parent has inode number `parent_ino`, on a host whose
`dir_emit` accepts `room` more entries.  `none` when `strlen` reads past the
end of a filename buffer. -/
def ezfs_iterate (c : Consts) (h : NsHost) (st : FsState) (i : inode) (parent_ino : Int)
    (pos room : Nat) : Option IterateResult :=
  let block_number := (st.inode_store (i.i_ino - c.EZFS_ROOT_INODE_NUMBER)).dbn
  let dots := dir_emit_dots i.i_ino parent_ino pos room
  if !dots.1 then some { ret := 0, pos := dots.2.1, emitted := dots.2.2.2 }
  else if !h.sb_bread block_number then
    some { ret := -EIO_errno, pos := dots.2.1, emitted := dots.2.2.2 }
  else
    match iterate_loop c (st.blocks block_number) c.EZFS_MAX_CHILDREN dots.2.1 dots.2.2.1 with
    | none => none
    | some r => some { ret := 0, pos := r.1, emitted := dots.2.2.2 ++ r.2 }

/-- The active entries of the slots `first, first + 1, ..` of a directory block,
in physical slot order, as `dir_emit` receives them. -/
def active_items (c : Consts) (blk : DirBlock) (first : Nat) : List DirItem :=
  ((List.range' first (c.EZFS_MAX_CHILDREN - first)).filter
    (fun k => decide ((blk k).active ≠ 0))).map (fun k => slot_item (blk k))

/-! ## `ezfs_write_end` -/

/-- What `ezfs_write_end` leaves behind: the inode's size and `i_blocks` and the
data-block bitmap. -/
structure WriteEndResult where
  i_size : Nat
  i_blocks : Nat
  bitmap : Bitmap

/-- The release loop of `ezfs_write_end` (lines 490-495), iterations
`idx = new_block_count .. new_block_count + n - 1`. -/
def write_end_release (c : Consts) (data_block_no : Int) (new_block_count : Nat) :
    Nat → Bitmap → Bitmap
  | 0, bitmap => bitmap
  | n + 1, bitmap =>
    CLEARBIT (write_end_release c data_block_no new_block_count n bitmap)
      (data_block_no + ((new_block_count + n : Nat) : Int) - c.EZFS_ROOT_DATABLOCK_NUMBER)

/-- Source `ezfs_write_end(file, space, start_pos, length, written_len, page,
fs_data)`.  The host's `generic_write_end` raises `i_size` to
`start_pos + written_len` when the written range ends past it. -/
def ezfs_write_end (c : Consts) (bitmap : Bitmap) (dbn : Int) (i_size i_blocks : Nat)
    (start_pos written_len : Nat) : WriteEndResult :=
  let prev_size := i_size
  let i_size := if start_pos + written_len > i_size then start_pos + written_len else i_size
  if prev_size ≠ i_size then
    let old_block_count := (prev_size + c.EZFS_BLOCK_SIZE - 1) / c.EZFS_BLOCK_SIZE
    let new_block_count := (i_size + c.EZFS_BLOCK_SIZE - 1) / c.EZFS_BLOCK_SIZE
    let i_blocks := new_block_count * 8
    if old_block_count > new_block_count then
      { i_size := i_size, i_blocks := i_blocks,
        bitmap := write_end_release c dbn new_block_count (old_block_count - new_block_count)
          bitmap }
    else { i_size := i_size, i_blocks := i_blocks, bitmap := bitmap }
  else { i_size := i_size, i_blocks := i_blocks, bitmap := bitmap }

/-! ## The formatter's image (`format_disk_as_ezfs.c`, `main`) -/

/-- The loops `for (i = 0; i < n; ++i) SETBIT(bitmap, i)` of the formatter. -/
def setbit_loop : Nat → Bitmap → Bitmap
  | 0, bitmap => bitmap
  | i + 1, bitmap => SETBIT (setbit_loop i bitmap) (i : Int)

/-- Source `inode_reset`: a zeroed record owned by uid and gid 1000, stamped
with the current time. -/
def inode_reset (now : Nat) : ezfs_inode :=
  { mode := 0, uid := 1000, gid := 1000, nlink := 0, file_size := 0, i_atime := now,
    i_mtime := now, i_ctime := now, dbn := 0, nblocks := 0 }

/-- The six inode records `main` writes, by table index (later records of the
inode-store block are not written; they read as zero).  `pret` and `bret`
are the byte counts read from the two big files. -/
def format_inode_store (c : Consts) (now pret bret : Nat) : Int → ezfs_inode := fun k =>
  if k = 0 then
    { (inode_reset now) with
      mode := S_IFDIR ||| 0o777, nlink := 3,
      dbn := c.EZFS_ROOT_DATABLOCK_NUMBER, file_size := c.EZFS_BLOCK_SIZE, nblocks := 1 }
  else if k = 1 then
    { (inode_reset now) with
      nlink := 1, mode := S_IFREG ||| 0o666,
      dbn := c.EZFS_ROOT_DATABLOCK_NUMBER + 1, file_size := 13, nblocks := 1 }
  else if k = 2 then
    { (inode_reset now) with
      mode := S_IFDIR ||| 0o777, nlink := 2,
      dbn := c.EZFS_ROOT_DATABLOCK_NUMBER + 2, file_size := c.EZFS_BLOCK_SIZE, nblocks := 1 }
  else if k = 3 then
    { (inode_reset now) with
      nlink := 1, mode := S_IFREG ||| 0o666,
      dbn := c.EZFS_ROOT_DATABLOCK_NUMBER + 3, file_size := 23, nblocks := 1 }
  else if k = 4 then
    { (inode_reset now) with
      nlink := 1, mode := S_IFREG ||| 0o666,
      dbn := c.EZFS_ROOT_DATABLOCK_NUMBER + 4, file_size := pret, nblocks := 8 }
  else if k = 5 then
    { (inode_reset now) with
      nlink := 1, mode := S_IFREG ||| 0o666,
      dbn := c.EZFS_ROOT_DATABLOCK_NUMBER + 4 + 8, file_size := bret, nblocks := 2 }
  else
    { mode := 0, uid := 0, gid := 0, nlink := 0, file_size := 0, i_atime := 0, i_mtime := 0,
      i_ctime := 0, dbn := 0, nblocks := 0 }

/-- A slot as `main` writes it: `dentry_reset`, then `strncpy` of the name over
the whole filename buffer, `active = 1` and the inode number. -/
def format_dentry (c : Consts) (name : List Nat) (inode_no : Int) : ezfs_dir_entry :=
  { filename := strncpy (zero_dir_entry c).filename name (c.EZFS_MAX_FILENAME_LENGTH + 1)
    active := 1
    inode_no := inode_no }

/-- The directory blocks `main` writes: the root directory (`hello.txt`,
`subdir`) and `subdir` (`names.txt`, `big_img.jpeg`, `big_txt.txt`), each
padded with zeroes. -/
def format_blocks (c : Consts) : Int → DirBlock := fun b =>
  if b = c.EZFS_ROOT_DATABLOCK_NUMBER then
    ((zero_dir_block c).store 0
        (format_dentry c [104, 101, 108, 108, 111, 46, 116, 120, 116]
          (c.EZFS_ROOT_INODE_NUMBER + 1))).store 1
      (format_dentry c [115, 117, 98, 100, 105, 114] (c.EZFS_ROOT_INODE_NUMBER + 2))
  else if b = c.EZFS_ROOT_DATABLOCK_NUMBER + 2 then
    (((zero_dir_block c).store 0
        (format_dentry c [110, 97, 109, 101, 115, 46, 116, 120, 116]
          (c.EZFS_ROOT_INODE_NUMBER + 3))).store 1
      (format_dentry c [98, 105, 103, 95, 105, 109, 103, 46, 106, 112, 101, 103]
        (c.EZFS_ROOT_INODE_NUMBER + 4))).store 2
      (format_dentry c [98, 105, 103, 95, 116, 120, 116, 46, 116, 120, 116]
        (c.EZFS_ROOT_INODE_NUMBER + 5))
  else zero_dir_block c

/-- The image `main` lays down: the first 6 inode bits and the first 14
data-block bits set, the six inode records, and the two directory blocks. -/
def format_image (c : Consts) (now pret bret : Nat) : FsState :=
  { free_inodes := setbit_loop 6 (fun _ => false)
    free_data_blocks := setbit_loop 14 (fun _ => false)
    inode_store := format_inode_store c now pret bret
    blocks := format_blocks c }

/-! ## Concrete inputs -/

/-- An instance of the header's constants: the block size and the root inode
and root data-block numbers of the formatter's layout (superblock in block
0, inode store in block 1, root directory in block 2), with small tables. -/
def sampleConsts : Consts :=
  { EZFS_BLOCK_SIZE := 4096, EZFS_ROOT_INODE_NUMBER := 1, EZFS_ROOT_DATABLOCK_NUMBER := 2,
    EZFS_MAX_INODES := 16, EZFS_MAX_DATA_BLKS := 16, EZFS_MAX_CHILDREN := 4,
    EZFS_MAX_FILENAME_LENGTH := 15 }

/-- A host on which every buffer is obtained, every block is read and no page
of the file is cached. -/
def okHost : Host := ⟨fun _ => true, fun _ => true, fun _ => none⟩

/-- A buffer cache in which every block holds its own number. -/
def idDisk : Disk := fun b => [b.toNat]

/-- Bits 0 and 1 set: two one-block files next to each other. -/
def twoFiles : Bitmap := fun j => decide (j = 0 ∨ j = 1)

/-- Bits 1, 2 and 3 set: a two-block file at bit indices 1 and 2, followed by
an occupied block, with bit 0 free. -/
def fileAfterGap : Bitmap := fun j => decide (j = 1 ∨ j = 2 ∨ j = 3)

/-- Every bit set except bit 1: a full data area with one free block just
before a one-block file at bit index 2. -/
def allButSecond : Bitmap := fun j => decide (j ≠ 1)

/-- Bits 0 and 15 set: the root directory and one file in the last block of the
sample data area. -/
def firstAndLast : Bitmap := fun j => decide (j = 0 ∨ j = 15)

/-- A run of `len` clear bits starting at bit index `r`, inside the bitmap. -/
def FreeRun (c : Consts) (bitmap : Bitmap) (len r : Int) : Prop :=
  0 ≤ r ∧ r + len ≤ c.EZFS_MAX_DATA_BLKS ∧ ∀ j : Int, r ≤ j → j < r + len → bitmap j = false

/-- The formatter's image for the sample constants, both big files full. -/
def sampleImage : FsState := format_image sampleConsts 0 (8 * 4096) (2 * 4096)

/-- The in-memory inode of `big_txt.txt` (inode number 6) on the sample image. -/
def bigTxtInode : inode := ezfs_iget sampleConsts sampleImage 6

/-- The call of `ezfs_get_block` for a write into logical block 3 of
`big_txt.txt`, which has 2 blocks, on the sample image. -/
def sparseWriteBlock : GetBlockResult :=
  ezfs_get_block sampleConsts okHost sampleImage.free_data_blocks (sampleImage.inode_store 5).dbn
    bigTxtInode.i_blocks idDisk 3 true

/-- The call of `ezfs_write_end` after one byte was written at offset
`3 * 4096` of `big_txt.txt`. -/
def sparseWriteEnd : WriteEndResult :=
  ezfs_write_end sampleConsts sparseWriteBlock.bitmap sparseWriteBlock.dbn bigTxtInode.i_size
    bigTxtInode.i_blocks (3 * 4096) 1

/-- A namespace host on which every block is read. -/
def okNsHost : NsHost :=
  { sb_bread := fun _ => true, current_time := 1, inode_init_owner := fun _ mode => (0, 0, mode) }

/-- The in-memory root inode (inode number 1) on the sample image. -/
def rootInode : inode := ezfs_iget sampleConsts sampleImage 1

/-- The sample image with the inactive slot 2 of the root directory holding the
bytes of an old name `old` and an old inode number. -/
def staleSlotImage : FsState :=
  { sampleImage with
    blocks := fun b =>
      if b = 2 then
        (sampleImage.blocks 2).store 2
          { inode_no := 9, active := 0,
            filename := strncpy (zero_dir_entry sampleConsts).filename [111, 108, 100] 16 }
      else sampleImage.blocks b }

/-- The sample image with every data-block bit set. -/
def fullImage : FsState := { sampleImage with free_data_blocks := fun _ => true }

/-- The sample image with a root directory whose slots 0 and 1 are both active
under the name `a`. -/
def duplicateNameImage : FsState :=
  { sampleImage with
    blocks := fun b =>
      if b = 2 then
        ((zero_dir_block sampleConsts).store 0 (format_dentry sampleConsts [97] 2)).store 1
          (format_dentry sampleConsts [97] 4)
      else sampleImage.blocks b }

/-- Two calls of `ezfs_unlink` for the same name, the second on what the first
left behind: both return values. -/
def unlink_twice (c : Consts) (h : NsHost) (st : FsState) (dir : inode) (name : List Nat)
    (target : inode) : Option (Int × Int) :=
  match ezfs_unlink c h st dir name target with
  | none => none
  | some r1 =>
    match ezfs_unlink c h r1.st r1.dir name r1.target with
    | none => none
    | some r2 => some (r1.ret, r2.ret)

/-- At most one active slot of the block carries `name`: whenever an active
slot compares equal to `name`, every other active slot compares unequal. -/
def UniqueName (c : Consts) (blk : DirBlock) (name : List Nat) : Prop :=
  ∀ i, i < c.EZFS_MAX_CHILDREN → ∀ j, j < c.EZFS_MAX_CHILDREN →
    (blk i).active ≠ 0 → strcmp_eq (blk i).filename name = some true →
    (blk j).active ≠ 0 → i ≠ j → strcmp_eq (blk j).filename name = some false

/-- A host on which no buffer is obtained and no block is read. -/
def failingHost : Host := ⟨fun _ => false, fun _ => false, fun _ => none⟩

/-- An in-memory inode of a two-block regular file with one link, inode
number 6. -/
def sampleFileInode : inode :=
  { i_ino := 6, i_mode := S_IFREG ||| 0o644, i_uid := 1000, i_gid := 1000, i_nlink := 1,
    i_size := 5000, i_blocks := 16, i_atime := 7, i_mtime := 8, i_ctime := 9 }

/-- Data-block bit index `j` lies in the extent `[dbn, dbn + nblocks)` of an
inode record. -/
def InRecordExtent (c : Consts) (r : ezfs_inode) (j : Int) : Prop :=
  r.dbn - c.EZFS_ROOT_DATABLOCK_NUMBER ≤ j ∧
    j < r.dbn - c.EZFS_ROOT_DATABLOCK_NUMBER + (r.nblocks : Int)

/-- Slot `k` of a directory block is an active entry whose inode record is a
directory. -/
def IsSubdirSlot (c : Consts) (st : FsState) (blk : DirBlock) (k : Nat) : Prop :=
  (blk k).active ≠ 0 ∧
    (st.inode_store ((blk k).inode_no - c.EZFS_ROOT_INODE_NUMBER)).mode &&& S_IFDIR ≠ 0

/-- Slot `k` of the block is active and its filename compares equal to `name`
(`strcmp` returns 0). -/
def NameAt (c : Consts) (blk : DirBlock) (name : List Nat) (k : Nat) : Prop :=
  k < c.EZFS_MAX_CHILDREN ∧ (blk k).active ≠ 0 ∧ strcmp_eq (blk k).filename name = some true

instance (c : Consts) (blk : DirBlock) (name : List Nat) (k : Nat) :
    Decidable (NameAt c blk name k) := by
  unfold NameAt; infer_instance

/-- Every comparison of `name` with the filename of an active slot ends inside
the filename buffer, as it does when the stored names are NUL-terminated. -/
def ComparesInside (c : Consts) (blk : DirBlock) (name : List Nat) : Prop :=
  ∀ m, m < c.EZFS_MAX_CHILDREN → (blk m).active ≠ 0 →
    strcmp_eq (blk m).filename name ≠ none

/-- The sample image after `mkdir(root, "d")`: the new directory is inode 7 and
its block is empty. -/
def afterMkdir : CreateResult := ezfs_mkdir sampleConsts okNsHost sampleImage rootInode [100] 0o755

/-- Slot `k` of the block is active, its stored filename matches `name` on the
first `len(name)` bytes and has NUL at byte `len(name)`. -/
def SlotMatches (c : Consts) (blk : DirBlock) (name : List Nat) (k : Nat) : Prop :=
  k < c.EZFS_MAX_CHILDREN ∧ (blk k).active ≠ 0 ∧
    (∀ i, i < name.length → (blk k).filename.get? i = some (name_byte name i)) ∧
    (blk k).filename.get? name.length = some 0

instance (c : Consts) (blk : DirBlock) (name : List Nat) (k : Nat) :
    Decidable (SlotMatches c blk name k) := by
  unfold SlotMatches; infer_instance

/-- The scan of `ezfs_lookup` passes over a slot with this filename: the slot is
inactive, or `strncmp` finds a difference, or the byte after the compared
ones is not NUL. -/
def SlotSkipped (e : ezfs_dir_entry) (name : List Nat) : Prop :=
  e.active = 0 ∨ strncmp_eq e.filename name name.length 0 = some false ∨
    (strncmp_eq e.filename name name.length 0 = some true ∧
      ∃ b, e.filename.get? name.length = some b ∧ b ≠ 0)

/-- Every active slot's filename contains a NUL inside its buffer. -/
def NulTerminated (c : Consts) (blk : DirBlock) : Prop :=
  ∀ m, m < c.EZFS_MAX_CHILDREN → (blk m).active ≠ 0 → 0 ∈ (blk m).filename

/-- The sample image with a root directory that holds `a` in slot 0 and `c` in
slot 2, slot 1 being inactive. -/
def iterImage : FsState :=
  { sampleImage with
    blocks := fun b =>
      if b = 2 then
        ((zero_dir_block sampleConsts).store 0 (format_dentry sampleConsts [97] 2)).store 2
          (format_dentry sampleConsts [99] 4)
      else sampleImage.blocks b }

/-! ## Live inodes and their extents -/

/-- The inode-side state the extent invariants speak about, by inode bitmap
index: the inode bitmap (`free_inodes`), each record's `dbn` and each inode's
`i_blocks`. -/
structure Extents where
  free_inodes : Bitmap
  dbn : Int → Int
  i_blocks : Int → Nat

/-- Inode index `k` is live: its bit is set in the inode bitmap. -/
def Live (c : Consts) (x : Extents) (k : Int) : Prop :=
  0 ≤ k ∧ k < c.EZFS_MAX_INODES ∧ x.free_inodes k = true

instance (c : Consts) (x : Extents) (k : Int) : Decidable (Live c x k) := by
  unfold Live; infer_instance

/-- Data-block bit index `j` lies in the extent `[dbn, dbn + nblocks)` of inode
index `k`. -/
def InExtent (c : Consts) (x : Extents) (k : Int) (j : Int) : Prop :=
  x.dbn k - c.EZFS_ROOT_DATABLOCK_NUMBER ≤ j ∧
    j < x.dbn k - c.EZFS_ROOT_DATABLOCK_NUMBER + ((x.i_blocks k / 8 : Nat) : Int)

instance (c : Consts) (x : Extents) (k j : Int) : Decidable (InExtent c x k j) := by
  unfold InExtent; infer_instance

/-- Every live inode's extent bits are bits of the data-block bitmap and set. -/
def ExtentBitsSet (c : Consts) (x : Extents) (bitmap : Bitmap) : Prop :=
  ∀ k j : Int, Live c x k → InExtent c x k j →
    0 ≤ j ∧ j < c.EZFS_MAX_DATA_BLKS ∧ bitmap j = true

/-- The extents of distinct live inodes are disjoint. -/
def ExtentsDisjoint (c : Consts) (x : Extents) : Prop :=
  ∀ k l j : Int, Live c x k → Live c x l → k ≠ l → ¬ (InExtent c x k j ∧ InExtent c x l j)

/-- Every set bit of the data-block bitmap lies in exactly one live inode's
extent. -/
def SetBitsOwned (c : Consts) (x : Extents) (bitmap : Bitmap) : Prop :=
  ∀ j : Int, 0 ≤ j → j < c.EZFS_MAX_DATA_BLKS → bitmap j = true →
    ∃! k : Int, Live c x k ∧ InExtent c x k j

/-- The extents after inode index `k` got a new `dbn` and `i_blocks`. -/
def Extents.update (x : Extents) (k : Int) (dbn : Int) (i_blocks : Nat) : Extents :=
  { free_inodes := x.free_inodes
    dbn := fun l => if l = k then dbn else x.dbn l
    i_blocks := fun l => if l = k then i_blocks else x.i_blocks l }

/-- Two live one-block files at bit indices 0 and 1 (inode indices 0 and 1). -/
def twoFileExtents : Extents :=
  { free_inodes := fun k => decide (k = 0 ∨ k = 1)
    dbn := fun k => k + 2
    i_blocks := fun k => if k = 0 ∨ k = 1 then 8 else 0 }

/-! ## Predicates used to state the properties of the free-run search -/

/-- A block index is usable by the free-run search when its bit is clear or it
lies inside the file's own extent (the loop's test, negated). -/
def OkBlock (c : Consts) (bitmap : Bitmap) (current_block_no total_blocks : Int) (j : Int) :
    Prop :=
  ¬ (test_bit j bitmap = true ∧
      (current_block_no > j + c.EZFS_ROOT_DATABLOCK_NUMBER ∨
        current_block_no + total_blocks - 1 < j + c.EZFS_ROOT_DATABLOCK_NUMBER))

instance (c : Consts) (bitmap : Bitmap) (cur n j : Int) : Decidable (OkBlock c bitmap cur n j) := by
  unfold OkBlock; infer_instance

/-- A window of `total_blocks + 1` usable blocks ending just before `e`, inside
the bitmap. -/
def OkWindow (c : Consts) (bitmap : Bitmap) (current_block_no total_blocks : Int) (e : Int) :
    Prop :=
  total_blocks + 1 ≤ e ∧ e ≤ c.EZFS_MAX_DATA_BLKS ∧
    ∀ j : Int, e - (total_blocks + 1) ≤ j → j < e → OkBlock c bitmap current_block_no total_blocks j

/-- Loop invariant of the free-run search at state `(idx, s)`. -/
structure ScanInv (c : Consts) (bitmap : Bitmap) (cur n : Int) (idx s : Int) : Prop where
  s_nonneg : 0 ≤ s
  s_le : s ≤ n + 1
  s_le_idx : s ≤ idx
  idx_le : idx ≤ c.EZFS_MAX_DATA_BLKS
  run_ok : ∀ j : Int, idx - s ≤ j → j < idx → OkBlock c bitmap cur n j
  run_max : s < n + 1 → idx - s = 0 ∨ ¬ OkBlock c bitmap cur n (idx - s - 1)
  no_earlier : ∀ e : Int, e ≤ idx → OkWindow c bitmap cur n e → s = n + 1 ∧ e = idx

/-! ## The relocation of `ezfs_get_block`, step by step -/

/-- One step of the relocation (lines 382-394 of `ezfs_get_block`), on bit
indices: a call of `ezfs_move_block`, a `clear_bit`, or a `set_bit`. -/
inductive RelocStep where
  | move (src dest : Int)
  | clear (idx : Int)
  | mark (idx : Int)
deriving DecidableEq

/-- The bit indices a step reads or writes (for a move: the indices of the
source and of the destination block). -/
def RelocStep.indices : RelocStep → List Int
  | RelocStep.move src dest => [src, dest]
  | RelocStep.clear idx => [idx]
  | RelocStep.mark idx => [idx]

/-- The steps of the copy loop (lines 382-386), iterations `0 .. n-1` in order:
`ezfs_move_block(start_index, start_index + i, new_start_index + i, ..)`, then
`clear_bit(start_index + i, bitmap)`. -/
def move_steps (start_index new_start_index : Int) : Nat → List RelocStep
  | 0 => []
  | i + 1 =>
    move_steps start_index new_start_index i ++
      [RelocStep.move (start_index + i) (new_start_index + i), RelocStep.clear (start_index + i)]

/-- The steps of the marking loop (lines 387-388), iterations `0 .. n-1` in
order: `set_bit(new_start_index + i, bitmap)`. -/
def mark_steps (new_start_index : Int) : Nat → List RelocStep
  | 0 => []
  | i + 1 => mark_steps new_start_index i ++ [RelocStep.mark (new_start_index + i)]

/-- The steps that `ezfs_get_block` performs on the bitmap and the buffer cache
once its free-run search has succeeded (lines 379-394), in program order: the
copy loop, the marking loop, and the `set_bit` of label `allocation_success`. -/
def relocation_trace (c : Consts) (bitmap : Bitmap) (dbn : Int) (i_blocks : Nat) :
    List RelocStep :=
  let current_block_no : Int := dbn
  let total_blocks : Int := ((i_blocks / 8 : Nat) : Int)
  let expanded_block_count := total_blocks + 1
  let idx := (scan_loop c bitmap current_block_no total_blocks c.EZFS_MAX_DATA_BLKS 0 0).1
  let new_start_index := idx - expanded_block_count
  let physical_addr := idx - 1 + c.EZFS_ROOT_DATABLOCK_NUMBER
  let start_index := current_block_no - c.EZFS_ROOT_DATABLOCK_NUMBER
  move_steps start_index new_start_index (i_blocks / 8) ++
    mark_steps new_start_index (i_blocks / 8) ++
    [RelocStep.mark (physical_addr - c.EZFS_ROOT_DATABLOCK_NUMBER)]

/-- Bits 0, 1 and 2 set: a two-block file at bit indices 0 and 1, followed by
an occupied block. -/
def twoBlockFile : Bitmap := fun j => decide (j = 0 ∨ j = 1 ∨ j = 2)

/-! ## The filename bytes that `ezfs_lookup` reads -/

/-- The byte indices of `s1` that `strncmp(s1, s2, n)` reads from index `k` on:
the comparison of `strncmp_eq`, recording each index fetched from `s1`. -/
def strncmp_reads (s1 s2 : List Nat) : Nat → Nat → List Nat
  | 0, _ => []
  | n + 1, k =>
    k ::
      match s1.get? k with
      | none => []
      | some c1 =>
        if c1 ≠ name_byte s2 k then []
        else if c1 = 0 then []
        else strncmp_reads s1 s2 n (k + 1)

/-- The filename bytes that the scan of `ezfs_lookup` (lines 519-528) reads from
slot `index` on, as pairs (slot, byte index), in program order: the bytes
fetched by `strncmp`, then `filename[d_name.len]` when `strncmp` returned 0.
The control flow is that of `lookup_scan`. -/
def lookup_reads (c : Consts) (blk : DirBlock) (name : List Nat) :
    Nat → Nat → List (Nat × Nat)
  | 0, _ => []
  | fuel + 1, index =>
    if index < c.EZFS_MAX_CHILDREN then
      if (blk index).active ≠ 0 then
        (strncmp_reads (blk index).filename name name.length 0).map (fun k => (index, k)) ++
          match strncmp_eq (blk index).filename name name.length 0 with
          | none => []
          | some false => lookup_reads c blk name fuel (index + 1)
          | some true =>
            (index, name.length) ::
              match (blk index).filename.get? name.length with
              | none => []
              | some b =>
                if b = 0 then []
                else lookup_reads c blk name fuel (index + 1)
      else lookup_reads c blk name fuel (index + 1)
    else []

/-- The filename bytes that `ezfs_lookup(directory, child_entry, flags)` reads. -/
def ezfs_lookup_reads (c : Consts) (h : NsHost) (st : FsState) (directory : inode)
    (name : List Nat) : List (Nat × Nat) :=
  let directory_block := (st.inode_store (directory.i_ino - c.EZFS_ROOT_INODE_NUMBER)).dbn
  if !h.sb_bread directory_block then []
  else lookup_reads c (st.blocks directory_block) name c.EZFS_MAX_CHILDREN 0

/-! ## Hosts with a cached page -/

/-- A host whose buffer operations succeed and whose page cache holds the
file's page for logical block 0, with contents `[99]`, and no other page. -/
def pageZeroHost : Host :=
  ⟨fun _ => true, fun _ => true, fun p => if p = 0 then some [99] else none⟩

/-- A host whose buffer operations succeed and whose page cache holds the
file's page for logical block 2, with contents `[77]`, and no other page. -/
def pageTwoHost : Host :=
  ⟨fun _ => true, fun _ => true, fun p => if p = 2 then some [77] else none⟩

/-! ## Mutex and mutation events of the mutating operations -/

/-- What an operation does to the mount mutex and to the structures the mutex
guards, one event per source statement: `mutex_lock`, `mutex_unlock`, a
store into a bitmap (`SETBIT`, `CLEARBIT`, `set_bit`, `clear_bit`), a store
into an inode record of the inode table, a store into a directory block. -/
inductive LockEvent where
  | mutex_lock
  | mutex_unlock
  | bitmap_write
  | inode_write
  | dir_write
deriving DecidableEq

/-- Whether every mutation of a sequence of events happens after a `mutex_lock`
and before any `mutex_unlock`; `locked` and `unlocked` tell whether a lock and
an unlock came earlier. -/
def holds_mutex_from : Bool → Bool → List LockEvent → Bool
  | _, _, [] => true
  | _, unlocked, LockEvent.mutex_lock :: t => holds_mutex_from true unlocked t
  | locked, _, LockEvent.mutex_unlock :: t => holds_mutex_from locked true t
  | locked, unlocked, _ :: t => locked && !unlocked && holds_mutex_from locked unlocked t

/-- The mutex is acquired before the first mutation and released only after the
last. -/
def holds_mutex (events : List LockEvent) : Bool := holds_mutex_from false false events

/-- Events of `create_inode_helper(dir, dentry, mode, isdir)`, along the control
flow of `create_inode_helper`: the returns of lines 549-564 come before
`mutex_lock` (line 567); every later exit goes through label `out` and its
`mutex_unlock` (line 656).  On success: `memset` of the new directory block
(line 596), the stores into the new inode record (lines 616/622 and 630),
the three stores into the directory slot (lines 637-640), `SETBIT` on the
inode bitmap and, for a directory, on the data-block bitmap (lines 648-650). -/
def create_inode_helper_events (c : Consts) (h : NsHost) (st : FsState) (dir : inode)
    (name : List Nat) (mode : Nat) (isdir : Bool) : List LockEvent :=
  let dir_blk_num := (st.inode_store (dir.i_ino - c.EZFS_ROOT_INODE_NUMBER)).dbn
  if strnlen name (c.EZFS_MAX_FILENAME_LENGTH + 1) > c.EZFS_MAX_FILENAME_LENGTH then []
  else if !h.sb_bread dir_blk_num then []
  else
    let i := first_inactive_slot c (st.blocks dir_blk_num) c.EZFS_MAX_CHILDREN 0
    if i = c.EZFS_MAX_CHILDREN then []
    else
      let i_idx := find_free_index st.free_inodes c.EZFS_MAX_INODES
      if i_idx < 0 then [LockEvent.mutex_lock, LockEvent.mutex_unlock]
      else
        let mode := if isdir then mode ||| S_IFDIR else mode
        let d_idx := find_free_index st.free_data_blocks c.EZFS_MAX_DATA_BLKS
        let d_num := d_idx + c.EZFS_ROOT_DATABLOCK_NUMBER
        if mode &&& S_IFDIR ≠ 0 ∧ d_idx < 0 then [LockEvent.mutex_lock, LockEvent.mutex_unlock]
        else if mode &&& S_IFDIR ≠ 0 ∧ !h.sb_bread d_num then
          [LockEvent.mutex_lock, LockEvent.mutex_unlock]
        else
          [LockEvent.mutex_lock] ++
            (if mode &&& S_IFDIR ≠ 0 then [LockEvent.dir_write] else []) ++
            [LockEvent.inode_write, LockEvent.inode_write,
              LockEvent.dir_write, LockEvent.dir_write, LockEvent.dir_write,
              LockEvent.bitmap_write] ++
            (if mode &&& S_IFDIR ≠ 0 then [LockEvent.bitmap_write] else []) ++
            [LockEvent.mutex_unlock]

/-- Events of `ezfs_get_block(inode, block, bh_result, create)`, along the
control flow of `ezfs_get_block`: the returns of lines 323-343 come before
`mutex_lock` (line 345).  First allocation: the store of `dbn` and `set_bit`.
Extension in place: `set_bit`.  Relocation: `clear_bit` in each iteration of
the copy loop (which otherwise writes data blocks only), `set_bit` in each
iteration of the marking loop, the store of `dbn`, and `set_bit`. -/
def ezfs_get_block_events (c : Consts) (bitmap : Bitmap) (dbn : Int) (i_blocks : Nat)
    (block : Nat) (create : Bool) : List LockEvent :=
  let current_block_no : Int := dbn
  let total_blocks : Int := ((i_blocks / 8 : Nat) : Int)
  let physical_addr : Int := if total_blocks ≠ 0 then current_block_no + block else 0
  if total_blocks ≠ 0 ∧ (block : Int) < total_blocks then []
  else if !create then []
  else if physical_addr ≥ c.EZFS_ROOT_DATABLOCK_NUMBER + c.EZFS_MAX_DATA_BLKS then []
  else
    let idx : Int := find_first_zero_bit bitmap c.EZFS_MAX_DATA_BLKS
    if idx = c.EZFS_MAX_DATA_BLKS then [LockEvent.mutex_lock, LockEvent.mutex_unlock]
    else if total_blocks = 0 then
      [LockEvent.mutex_lock, LockEvent.inode_write, LockEvent.bitmap_write,
        LockEvent.mutex_unlock]
    else if !test_bit (physical_addr - c.EZFS_ROOT_DATABLOCK_NUMBER) bitmap then
      [LockEvent.mutex_lock, LockEvent.bitmap_write, LockEvent.mutex_unlock]
    else
      let expanded_block_count := total_blocks + 1
      let scan := scan_loop c bitmap current_block_no total_blocks c.EZFS_MAX_DATA_BLKS 0 0
      if scan.2 < expanded_block_count then [LockEvent.mutex_lock, LockEvent.mutex_unlock]
      else
        [LockEvent.mutex_lock] ++
          List.replicate (i_blocks / 8) LockEvent.bitmap_write ++
          List.replicate (i_blocks / 8) LockEvent.bitmap_write ++
          [LockEvent.inode_write, LockEvent.bitmap_write, LockEvent.mutex_unlock]

/-- Events of `ezfs_unlink(dir, dentry)` (lines 693-709), along the control flow
of `ezfs_unlink`: the function and its callees `deactivate_dir_entry` and
`update_inode_metadata` never touch the mutex; on a hit `deactivate_dir_entry`
zeroes the slot with `memset` (line 683).  `none` when a comparison reads past
the end of a filename buffer. -/
def ezfs_unlink_events (c : Consts) (h : NsHost) (st : FsState) (dir : inode)
    (name : List Nat) : Option (List LockEvent) :=
  let dir_blk_num := (st.inode_store (dir.i_ino - c.EZFS_ROOT_INODE_NUMBER)).dbn
  if !h.sb_bread dir_blk_num then some []
  else
    match deactivate_dir_entry c (st.blocks dir_blk_num) name with
    | none => none
    | some (result, _) => if result ≠ 0 then some [LockEvent.dir_write] else some []

/-- Events of `ezfs_rmdir(dir, dentry)` (lines 735-760), along the control flow
of `ezfs_rmdir`: those of the `ezfs_unlink` it calls; the function itself
never touches the mutex. -/
def ezfs_rmdir_events (c : Consts) (h : NsHost) (st : FsState) (dir : inode)
    (name : List Nat) (dentry_inode : inode) : Option (List LockEvent) :=
  let dir_blk_num := (st.inode_store (dentry_inode.i_ino - c.EZFS_ROOT_INODE_NUMBER)).dbn
  if !h.sb_bread dir_blk_num then some []
  else if ezfs_dir_empty c (st.blocks dir_blk_num) = 0 then some []
  else ezfs_unlink_events c h st dir name

/-- Events of `ezfs_evict_inode(inode)` (lines 182-201): `CLEARBIT` on the inode
bitmap, then one `CLEARBIT` on the data-block bitmap per iteration of the
loop of `release_inode_resources`; neither function touches the mutex. -/
def ezfs_evict_inode_events (i : inode) : List LockEvent :=
  let blocks := i.i_blocks / 8
  if i.i_nlink = 0 then LockEvent.bitmap_write :: List.replicate blocks LockEvent.bitmap_write
  else []

/-- Events of the shrink branch of `ezfs_write_end` (lines 488-496): one
`CLEARBIT` per released block, between `mutex_lock` and `mutex_unlock`. -/
def write_end_release_events (old_block_count new_block_count : Nat) : List LockEvent :=
  [LockEvent.mutex_lock] ++
    List.replicate (old_block_count - new_block_count) LockEvent.bitmap_write ++
    [LockEvent.mutex_unlock]

/-! ## Lemmas on the bitmap primitives and the loops of `ezfs_get_block` -/

theorem find_first_zero_bit_le (addr : Bitmap) (n : Nat) : find_first_zero_bit addr n ≤ n := by
  induction n with
  | zero => simp [find_first_zero_bit]
  | succ n ih =>
    simp only [find_first_zero_bit]
    split
    · omega
    · split <;> omega

theorem find_first_zero_bit_below (addr : Bitmap) (n : Nat) (j : Nat)
    (hj : j < find_first_zero_bit addr n) : addr (j : Int) = true := by
  induction n with
  | zero => simp [find_first_zero_bit] at hj
  | succ n ih =>
    simp only [find_first_zero_bit] at hj
    have hle := find_first_zero_bit_le addr n
    split at hj
    · exact ih hj
    · have hr : find_first_zero_bit addr n = n := by omega
      split at hj
      · rename_i hbit
        by_cases hjn : j = n
        · subst hjn; exact hbit
        · exact ih (by omega)
      · exact ih (by omega)

theorem find_first_zero_bit_clear (addr : Bitmap) (n : Nat)
    (hlt : find_first_zero_bit addr n < n) :
    addr ((find_first_zero_bit addr n : Nat) : Int) = false := by
  induction n with
  | zero => simp at hlt
  | succ n ih =>
    simp only [find_first_zero_bit] at hlt ⊢
    have hle := find_first_zero_bit_le addr n
    split
    · rename_i h1; exact ih h1
    · split
      · rename_i h1 h2
        simp [h1, h2] at hlt
      · rename_i h1 h2
        simpa using h2

theorem scanInv_init (c : Consts) (bitmap : Bitmap) (cur n : Int) (hn : 0 ≤ n) :
    ScanInv c bitmap cur n 0 0 where
  s_nonneg := le_refl _
  s_le := by omega
  s_le_idx := le_refl _
  idx_le := by omega
  run_ok := by intro j h1 h2; omega
  run_max := by intro _; left; omega
  no_earlier := by
    intro e he hw
    have := hw.1
    omega

theorem scanInv_step (c : Consts) (bitmap : Bitmap) (cur n idx s : Int)
    (inv : ScanInv c bitmap cur n idx s) (hs : s < n + 1)
    (hidx : idx < (c.EZFS_MAX_DATA_BLKS : Int)) :
    ScanInv c bitmap cur n (idx + 1)
      ((if test_bit idx bitmap ∧
            (cur > idx + c.EZFS_ROOT_DATABLOCK_NUMBER ∨
              cur + n - 1 < idx + c.EZFS_ROOT_DATABLOCK_NUMBER)
        then -1 else s) + 1) := by
  have h1 := inv.s_nonneg
  have h3 := inv.s_le_idx
  by_cases hbad : test_bit idx bitmap = true ∧
      (cur > idx + c.EZFS_ROOT_DATABLOCK_NUMBER ∨ cur + n - 1 < idx + c.EZFS_ROOT_DATABLOCK_NUMBER)
  · have hnok : ¬ OkBlock c bitmap cur n idx := fun hok => hok hbad
    rw [if_pos hbad]
    refine ⟨by omega, by omega, by omega, by omega, ?_, ?_, ?_⟩
    · intro j hj1 hj2; omega
    · intro _
      right
      have : idx + 1 - (-1 + 1) - 1 = idx := by omega
      rw [this]; exact hnok
    · intro e he hw
      exfalso
      by_cases hee : e ≤ idx
      · have := inv.no_earlier e hee hw
        omega
      · have he1 : e = idx + 1 := by omega
        exact hnok (hw.2.2 idx (by omega) (by omega))
  · have hok : OkBlock c bitmap cur n idx := hbad
    rw [if_neg hbad]
    refine ⟨by omega, by omega, by omega, by omega, ?_, ?_, ?_⟩
    · intro j hj1 hj2
      by_cases hji : j = idx
      · subst hji; exact hok
      · exact inv.run_ok j (by omega) (by omega)
    · intro hlt
      rcases inv.run_max hs with h0 | hb
      · left; omega
      · right
        have : idx + 1 - (s + 1) - 1 = idx - s - 1 := by omega
        rw [this]; exact hb
    · intro e he hw
      by_cases hee : e ≤ idx
      · have := inv.no_earlier e hee hw
        omega
      · have he1 : e = idx + 1 := by omega
        refine ⟨?_, he1⟩
        by_contra hne
        have hw1 := hw.1
        rcases inv.run_max hs with h0 | hb
        · omega
        · exact hb (hw.2.2 (idx - s - 1) (by omega) (by omega))

/-- The free-run search ends on its own condition (the fuel
`EZFS_MAX_DATA_BLKS` is never exhausted early) and its final state satisfies
the loop invariant. -/
theorem scan_loop_spec (c : Consts) (bitmap : Bitmap) (cur n : Int) (fuel : Nat) :
    ∀ idx s : Int, ScanInv c bitmap cur n idx s →
      (c.EZFS_MAX_DATA_BLKS : Int) ≤ idx + fuel →
      ScanInv c bitmap cur n (scan_loop c bitmap cur n fuel idx s).1
          (scan_loop c bitmap cur n fuel idx s).2 ∧
        ¬ ((scan_loop c bitmap cur n fuel idx s).2 < n + 1 ∧
            (scan_loop c bitmap cur n fuel idx s).1 < (c.EZFS_MAX_DATA_BLKS : Int)) := by
  induction fuel with
  | zero =>
    intro idx s inv hf
    simp only [scan_loop]
    refine ⟨inv, ?_⟩
    have := inv.idx_le
    omega
  | succ fuel ih =>
    intro idx s inv hf
    simp only [scan_loop]
    split
    · rename_i hcond
      exact ih _ _ (scanInv_step c bitmap cur n idx s inv hcond.1 hcond.2) (by push_cast at hf ⊢; omega)
    · rename_i hcond
      exact ⟨inv, hcond⟩

/-- The search from `(0, 0)` succeeds exactly on a window of usable blocks, and
then ends at the lowest window end. -/
theorem scan_loop_success (c : Consts) (bitmap : Bitmap) (cur n : Int) (hn : 0 ≤ n)
    (hs : ¬ (scan_loop c bitmap cur n c.EZFS_MAX_DATA_BLKS 0 0).2 < n + 1) :
    (scan_loop c bitmap cur n c.EZFS_MAX_DATA_BLKS 0 0).2 = n + 1 ∧
      OkWindow c bitmap cur n (scan_loop c bitmap cur n c.EZFS_MAX_DATA_BLKS 0 0).1 ∧
      ∀ e : Int, OkWindow c bitmap cur n e →
        (scan_loop c bitmap cur n c.EZFS_MAX_DATA_BLKS 0 0).1 ≤ e := by
  obtain ⟨inv, _⟩ := scan_loop_spec c bitmap cur n c.EZFS_MAX_DATA_BLKS 0 0
    (scanInv_init c bitmap cur n hn) (by omega)
  have h1 := inv.s_le
  have h2 := inv.s_le_idx
  have hs1 : (scan_loop c bitmap cur n c.EZFS_MAX_DATA_BLKS 0 0).2 = n + 1 := by omega
  refine ⟨hs1, ⟨by omega, inv.idx_le, ?_⟩, ?_⟩
  · intro j hj1 hj2
    exact inv.run_ok j (by omega) hj2
  · intro e hw
    by_contra hlt
    have := inv.no_earlier e (by omega) hw
    omega

theorem scan_loop_failure (c : Consts) (bitmap : Bitmap) (cur n : Int) (hn : 0 ≤ n)
    (hs : (scan_loop c bitmap cur n c.EZFS_MAX_DATA_BLKS 0 0).2 < n + 1) :
    ∀ e : Int, ¬ OkWindow c bitmap cur n e := by
  obtain ⟨inv, hend⟩ := scan_loop_spec c bitmap cur n c.EZFS_MAX_DATA_BLKS 0 0
    (scanInv_init c bitmap cur n hn) (by omega)
  intro e hw
  have hidx := inv.idx_le
  have := inv.no_earlier e (by have := hw.2.1; omega) hw
  omega

theorem set_bit_apply (nr : Int) (addr : Bitmap) (j : Int) :
    set_bit nr addr j = if j = nr then true else addr j := rfl

theorem clear_bit_apply (nr : Int) (addr : Bitmap) (j : Int) :
    clear_bit nr addr j = if j = nr then false else addr j := rfl

theorem mark_loop_apply (r : Int) (n : Nat) (bitmap : Bitmap) (j : Int) :
    mark_loop r n bitmap j = if r ≤ j ∧ j < r + n then true else bitmap j := by
  induction n with
  | zero =>
    simp only [mark_loop]
    rw [if_neg]; push_cast; omega
  | succ n ih =>
    simp only [mark_loop, set_bit_apply, ih]
    push_cast
    by_cases h1 : j = r + n
    · rw [if_pos h1, if_pos (by omega)]
    · rw [if_neg h1]
      by_cases h2 : r ≤ j ∧ j < r + n
      · rw [if_pos h2, if_pos (by omega)]
      · rw [if_neg h2, if_neg (by omega)]

theorem move_loop_bitmap (c : Consts) (h : Host) (start r : Int) (n : Nat) (bitmap : Bitmap)
    (disk : Disk) (j : Int) :
    (move_loop c h start r n (bitmap, disk)).1 j =
      if start ≤ j ∧ j < start + n then false else bitmap j := by
  induction n with
  | zero =>
    simp only [move_loop]
    rw [if_neg]; push_cast; omega
  | succ n ih =>
    simp only [move_loop, clear_bit_apply, ih]
    push_cast
    by_cases h1 : j = start + n
    · rw [if_pos h1, if_pos (by omega)]
    · rw [if_neg h1]
      by_cases h2 : start ≤ j ∧ j < start + n
      · rw [if_pos h2, if_pos (by omega)]
      · rw [if_neg h2, if_neg (by omega)]

/-- When no page is cached, every destination buffer is obtained and every
source block is read, `ezfs_move_block` copies the source block over the
destination block. -/
theorem ezfs_move_block_disk (c : Consts) (h : Host) (base src dest : Int) (disk : Disk)
    (hpage : ∀ p, h.find_get_page p = none) (hget : ∀ b, h.sb_getblk b = true)
    (hread : ∀ b, h.sb_bread b = true) :
    (ezfs_move_block c h base src dest disk).2 =
      disk.write (dest + c.EZFS_ROOT_DATABLOCK_NUMBER) (disk (src + c.EZFS_ROOT_DATABLOCK_NUMBER)) := by
  simp [ezfs_move_block, hpage, hget, hread]

/-- Buffer cache after `k` iterations of the copy loop, copying from disk, when
the destination run starts at or below the old extent or past its end. -/
theorem move_loop_disk (c : Consts) (h : Host) (start r : Int) (n : Nat) (bitmap : Bitmap)
    (disk : Disk) (hpage : ∀ p, h.find_get_page p = none) (hget : ∀ b, h.sb_getblk b = true)
    (hread : ∀ b, h.sb_bread b = true) (hpos : r ≤ start ∨ start + n ≤ r) (k : Nat)
    (hk : k ≤ n) (b : Int) :
    (move_loop c h start r k (bitmap, disk)).2 b =
      if r + c.EZFS_ROOT_DATABLOCK_NUMBER ≤ b ∧ b < r + c.EZFS_ROOT_DATABLOCK_NUMBER + k
      then disk (b - r + start) else disk b := by
  induction k generalizing b with
  | zero =>
    simp only [move_loop]
    rw [if_neg]; push_cast; omega
  | succ k ih =>
    simp only [move_loop]
    rw [ezfs_move_block_disk c h _ _ _ _ hpage hget hread]
    simp only [Disk.write]
    push_cast
    by_cases h1 : b = r + k + c.EZFS_ROOT_DATABLOCK_NUMBER
    · rw [if_pos h1, if_pos (by omega), ih (by omega), if_neg (by omega)]
      congr 1; omega
    · rw [if_neg h1, ih (by omega)]
      by_cases h2 : r + c.EZFS_ROOT_DATABLOCK_NUMBER ≤ b ∧ b < r + c.EZFS_ROOT_DATABLOCK_NUMBER + k
      · rw [if_pos h2, if_pos (by omega)]
      · rw [if_neg h2, if_neg (by omega)]

/-- A window of usable blocks contains a clear bit, so the bitmap is not full. -/
theorem find_first_zero_bit_lt_of_window (c : Consts) (bitmap : Bitmap) (cur n e : Int)
    (hn : 0 ≤ n) (hw : OkWindow c bitmap cur n e) :
    find_first_zero_bit bitmap c.EZFS_MAX_DATA_BLKS < c.EZFS_MAX_DATA_BLKS := by
  by_contra hge
  have hle := find_first_zero_bit_le bitmap c.EZFS_MAX_DATA_BLKS
  have heq : find_first_zero_bit bitmap c.EZFS_MAX_DATA_BLKS = c.EZFS_MAX_DATA_BLKS := by omega
  have hall : ∀ j : Int, 0 ≤ j → j < c.EZFS_MAX_DATA_BLKS → bitmap j = true := by
    intro j h0 h1
    have := find_first_zero_bit_below bitmap c.EZFS_MAX_DATA_BLKS j.toNat (by omega)
    rwa [Int.toNat_of_nonneg h0] at this
  obtain ⟨h1, h2, h3⟩ := hw
  have ha := h3 (e - (n + 1)) (by omega) (by omega)
  have hb := h3 (e - 1) (by omega) (by omega)
  have hsa := hall (e - (n + 1)) (by omega) (by omega)
  have hsb := hall (e - 1) (by omega) (by omega)
  simp only [OkBlock, test_bit, hsa, hsb, true_and] at ha hb
  omega

/-- The relocation path of `ezfs_get_block`, as an equation. -/
theorem ezfs_get_block_relocate (c : Consts) (h : Host) (bitmap : Bitmap) (dbn : Int)
    (i_blocks : Nat) (disk : Disk) (block : Nat)
    (hn : 0 < i_blocks / 8) (hb : i_blocks / 8 ≤ block)
    (hguard : dbn + block < c.EZFS_ROOT_DATABLOCK_NUMBER + c.EZFS_MAX_DATA_BLKS)
    (hbit : test_bit (dbn + block - c.EZFS_ROOT_DATABLOCK_NUMBER) bitmap = true)
    (hscan : ¬ (scan_loop c bitmap dbn ((i_blocks / 8 : Nat) : Int) c.EZFS_MAX_DATA_BLKS 0 0).2
        < ((i_blocks / 8 : Nat) : Int) + 1) :
    ezfs_get_block c h bitmap dbn i_blocks disk block true =
      allocation_success c
        ((scan_loop c bitmap dbn ((i_blocks / 8 : Nat) : Int) c.EZFS_MAX_DATA_BLKS 0 0).1 - 1 +
          c.EZFS_ROOT_DATABLOCK_NUMBER)
        (mark_loop
          ((scan_loop c bitmap dbn ((i_blocks / 8 : Nat) : Int) c.EZFS_MAX_DATA_BLKS 0 0).1 -
            (((i_blocks / 8 : Nat) : Int) + 1))
          (i_blocks / 8)
          (move_loop c h (dbn - c.EZFS_ROOT_DATABLOCK_NUMBER)
            ((scan_loop c bitmap dbn ((i_blocks / 8 : Nat) : Int) c.EZFS_MAX_DATA_BLKS 0 0).1 -
              (((i_blocks / 8 : Nat) : Int) + 1))
            (i_blocks / 8) (bitmap, disk)).1)
        ((scan_loop c bitmap dbn ((i_blocks / 8 : Nat) : Int) c.EZFS_MAX_DATA_BLKS 0 0).1 -
            (((i_blocks / 8 : Nat) : Int) + 1) + c.EZFS_ROOT_DATABLOCK_NUMBER)
        (move_loop c h (dbn - c.EZFS_ROOT_DATABLOCK_NUMBER)
          ((scan_loop c bitmap dbn ((i_blocks / 8 : Nat) : Int) c.EZFS_MAX_DATA_BLKS 0 0).1 -
            (((i_blocks / 8 : Nat) : Int) + 1))
          (i_blocks / 8) (bitmap, disk)).2 := by
  have hw := (scan_loop_success c bitmap dbn ((i_blocks / 8 : Nat) : Int) (by omega) hscan).2.1
  have hffz := find_first_zero_bit_lt_of_window c bitmap dbn _ _ (by omega) hw
  unfold ezfs_get_block
  generalize i_blocks / 8 = n at *
  have h0 : (n : Int) ≠ 0 := by omega
  have h1 : ¬ ((block : Int) < (n : Int)) := by omega
  have h2 : ¬ (c.EZFS_ROOT_DATABLOCK_NUMBER + (c.EZFS_MAX_DATA_BLKS : Int) ≤ dbn + block) := by
    omega
  have h3 : find_first_zero_bit bitmap c.EZFS_MAX_DATA_BLKS ≠ c.EZFS_MAX_DATA_BLKS := by omega
  simp [h0, h1, h2, h3, hbit, hscan]

/-- Return value of `ezfs_get_block` on the extension path of a non-empty file. -/
theorem ezfs_get_block_extend_status (c : Consts) (h : Host) (bitmap : Bitmap) (dbn : Int)
    (i_blocks : Nat) (disk : Disk) (block : Nat)
    (hn : 0 < i_blocks / 8) (hb : i_blocks / 8 ≤ block) :
    ((ezfs_get_block c h bitmap dbn i_blocks disk block true).status = -ENOSPC ↔
      (c.EZFS_ROOT_DATABLOCK_NUMBER + (c.EZFS_MAX_DATA_BLKS : Int) ≤ dbn + block ∨
        find_first_zero_bit bitmap c.EZFS_MAX_DATA_BLKS = c.EZFS_MAX_DATA_BLKS ∨
        (test_bit (dbn + block - c.EZFS_ROOT_DATABLOCK_NUMBER) bitmap = true ∧
          (scan_loop c bitmap dbn ((i_blocks / 8 : Nat) : Int) c.EZFS_MAX_DATA_BLKS 0 0).2
            < ((i_blocks / 8 : Nat) : Int) + 1))) ∧
    ((ezfs_get_block c h bitmap dbn i_blocks disk block true).status = 0 ∨
      (ezfs_get_block c h bitmap dbn i_blocks disk block true).status = -ENOSPC) := by
  unfold ezfs_get_block
  generalize i_blocks / 8 = n at *
  have h0 : (n : Int) ≠ 0 := by omega
  have h1 : ¬ ((block : Int) < (n : Int)) := by omega
  by_cases hg : c.EZFS_ROOT_DATABLOCK_NUMBER + (c.EZFS_MAX_DATA_BLKS : Int) ≤ dbn + block
  · simp [h0, h1, hg]
  · by_cases hf : find_first_zero_bit bitmap c.EZFS_MAX_DATA_BLKS = c.EZFS_MAX_DATA_BLKS
    · simp [h0, h1, hg, hf]
    · by_cases hbit : test_bit (dbn + block - c.EZFS_ROOT_DATABLOCK_NUMBER) bitmap = true
      · by_cases hs : (scan_loop c bitmap dbn (n : Int) c.EZFS_MAX_DATA_BLKS 0 0).2 < (n : Int) + 1
        · simp [h0, h1, hg, hf, hbit, hs]
        · simp [h0, h1, hg, hf, hbit, hs, allocation_success, ENOSPC]
      · simp [h0, h1, hg, hf, hbit, allocation_success, ENOSPC]

/-- The first-allocation path of `ezfs_get_block`, as an equation. -/
theorem ezfs_get_block_first (c : Consts) (h : Host) (bitmap : Bitmap) (dbn : Int)
    (i_blocks : Nat) (disk : Disk) (block : Nat) (hn : i_blocks / 8 = 0)
    (hguard : 0 < c.EZFS_ROOT_DATABLOCK_NUMBER + (c.EZFS_MAX_DATA_BLKS : Int))
    (hffz : find_first_zero_bit bitmap c.EZFS_MAX_DATA_BLKS ≠ c.EZFS_MAX_DATA_BLKS) :
    ezfs_get_block c h bitmap dbn i_blocks disk block true =
      allocation_success c
        ((find_first_zero_bit bitmap c.EZFS_MAX_DATA_BLKS : Int) + c.EZFS_ROOT_DATABLOCK_NUMBER)
        bitmap
        ((find_first_zero_bit bitmap c.EZFS_MAX_DATA_BLKS : Int) + c.EZFS_ROOT_DATABLOCK_NUMBER)
        disk := by
  unfold ezfs_get_block
  rw [hn]
  have h2 : ¬ (c.EZFS_ROOT_DATABLOCK_NUMBER + (c.EZFS_MAX_DATA_BLKS : Int) ≤ 0) := by omega
  simp [h2, hffz]

/-- Return value of `ezfs_get_block` on the first-allocation path. -/
theorem ezfs_get_block_first_status (c : Consts) (h : Host) (bitmap : Bitmap) (dbn : Int)
    (i_blocks : Nat) (disk : Disk) (block : Nat) (hn : i_blocks / 8 = 0) :
    ((ezfs_get_block c h bitmap dbn i_blocks disk block true).status = -ENOSPC ↔
      (c.EZFS_ROOT_DATABLOCK_NUMBER + (c.EZFS_MAX_DATA_BLKS : Int) ≤ 0 ∨
        find_first_zero_bit bitmap c.EZFS_MAX_DATA_BLKS = c.EZFS_MAX_DATA_BLKS)) ∧
    ((ezfs_get_block c h bitmap dbn i_blocks disk block true).status = 0 ∨
      (ezfs_get_block c h bitmap dbn i_blocks disk block true).status = -ENOSPC) := by
  unfold ezfs_get_block
  rw [hn]
  by_cases hg : c.EZFS_ROOT_DATABLOCK_NUMBER + (c.EZFS_MAX_DATA_BLKS : Int) ≤ 0
  · simp [hg]
  · by_cases hf : find_first_zero_bit bitmap c.EZFS_MAX_DATA_BLKS = c.EZFS_MAX_DATA_BLKS
    · simp [hg, hf]
    · simp [hg, hf, allocation_success, ENOSPC]

/-- The in-place extension path of `ezfs_get_block`, as an equation. -/
theorem ezfs_get_block_inplace (c : Consts) (h : Host) (bitmap : Bitmap) (dbn : Int)
    (i_blocks : Nat) (disk : Disk) (block : Nat)
    (hn : 0 < i_blocks / 8) (hb : i_blocks / 8 ≤ block)
    (hguard : dbn + block < c.EZFS_ROOT_DATABLOCK_NUMBER + c.EZFS_MAX_DATA_BLKS)
    (hffz : find_first_zero_bit bitmap c.EZFS_MAX_DATA_BLKS ≠ c.EZFS_MAX_DATA_BLKS)
    (hbit : test_bit (dbn + block - c.EZFS_ROOT_DATABLOCK_NUMBER) bitmap = false) :
    ezfs_get_block c h bitmap dbn i_blocks disk block true =
      allocation_success c (dbn + block) bitmap dbn disk := by
  unfold ezfs_get_block
  generalize i_blocks / 8 = n at *
  have h0 : (n : Int) ≠ 0 := by omega
  have h1 : ¬ ((block : Int) < (n : Int)) := by omega
  have h2 : ¬ (c.EZFS_ROOT_DATABLOCK_NUMBER + (c.EZFS_MAX_DATA_BLKS : Int) ≤ dbn + block) := by
    omega
  simp [h0, h1, h2, hffz, hbit]

/-- Shape of every successful one-block extension (`block = nblocks`): the new
extent is a window `[r, r + nblocks + 1)` of blocks that were free or the
file's own, its bits are set, the old extent's other bits are clear and the
rest of the bitmap is unchanged. -/
theorem get_block_extend_shape (c : Consts) (h : Host) (bitmap : Bitmap) (dbn : Int)
    (i_blocks : Nat) (disk : Disk)
    (hdbn : 0 < i_blocks / 8 → c.EZFS_ROOT_DATABLOCK_NUMBER ≤ dbn)
    (hset : ∀ j : Int, dbn - c.EZFS_ROOT_DATABLOCK_NUMBER ≤ j →
      j < dbn - c.EZFS_ROOT_DATABLOCK_NUMBER + ((i_blocks / 8 : Nat) : Int) → bitmap j = true)
    (hok : (ezfs_get_block c h bitmap dbn i_blocks disk (i_blocks / 8) true).status = 0) :
    ∃ r : Int,
      OkWindow c bitmap dbn ((i_blocks / 8 : Nat) : Int) (r + ((i_blocks / 8 : Nat) : Int) + 1) ∧
      (ezfs_get_block c h bitmap dbn i_blocks disk (i_blocks / 8) true).dbn =
        r + c.EZFS_ROOT_DATABLOCK_NUMBER ∧
      (ezfs_get_block c h bitmap dbn i_blocks disk (i_blocks / 8) true).mapped =
        some (r + c.EZFS_ROOT_DATABLOCK_NUMBER + ((i_blocks / 8 : Nat) : Int)) ∧
      ∀ j : Int,
        (ezfs_get_block c h bitmap dbn i_blocks disk (i_blocks / 8) true).bitmap j =
          if r ≤ j ∧ j < r + ((i_blocks / 8 : Nat) : Int) + 1 then true
          else if dbn - c.EZFS_ROOT_DATABLOCK_NUMBER ≤ j ∧
              j < dbn - c.EZFS_ROOT_DATABLOCK_NUMBER + ((i_blocks / 8 : Nat) : Int) then false
          else bitmap j := by
  have hne : (ezfs_get_block c h bitmap dbn i_blocks disk (i_blocks / 8) true).status ≠ -ENOSPC := by
    rw [hok]; simp [ENOSPC]
  by_cases hn : i_blocks / 8 = 0
  · obtain ⟨hiff, _⟩ := ezfs_get_block_first_status c h bitmap dbn i_blocks disk (i_blocks / 8) hn
    have hnot := mt hiff.mpr hne
    have hguard : 0 < c.EZFS_ROOT_DATABLOCK_NUMBER + (c.EZFS_MAX_DATA_BLKS : Int) := by
      by_contra hc; exact hnot (Or.inl (by omega))
    have hffz : find_first_zero_bit bitmap c.EZFS_MAX_DATA_BLKS ≠ c.EZFS_MAX_DATA_BLKS :=
      fun hc => hnot (Or.inr hc)
    have hle := find_first_zero_bit_le bitmap c.EZFS_MAX_DATA_BLKS
    have hclear := find_first_zero_bit_clear bitmap c.EZFS_MAX_DATA_BLKS (by omega)
    rw [ezfs_get_block_first c h bitmap dbn i_blocks disk (i_blocks / 8) hn hguard hffz, hn]
    refine ⟨(find_first_zero_bit bitmap c.EZFS_MAX_DATA_BLKS : Int), ⟨by omega, by omega, ?_⟩,
      by simp [allocation_success], by simp [allocation_success], ?_⟩
    · intro j hj1 hj2 hbad
      have hj : j = (find_first_zero_bit bitmap c.EZFS_MAX_DATA_BLKS : Int) := by omega
      rw [hj, test_bit, hclear] at hbad
      exact Bool.false_ne_true hbad.1
    · intro j
      simp only [allocation_success, set_bit_apply]
      split_ifs <;> first | rfl | (exfalso; omega)
  · have hn0 : 0 < i_blocks / 8 := Nat.pos_of_ne_zero hn
    have hroot := hdbn hn0
    obtain ⟨hiff, _⟩ := ezfs_get_block_extend_status c h bitmap dbn i_blocks disk (i_blocks / 8)
      hn0 (le_refl _)
    have hnot := mt hiff.mpr hne
    have hguard : dbn + ((i_blocks / 8 : Nat) : Int) <
        c.EZFS_ROOT_DATABLOCK_NUMBER + c.EZFS_MAX_DATA_BLKS := by
      by_contra hc; exact hnot (Or.inl (by omega))
    have hffz : find_first_zero_bit bitmap c.EZFS_MAX_DATA_BLKS ≠ c.EZFS_MAX_DATA_BLKS :=
      fun hc => hnot (Or.inr (Or.inl hc))
    by_cases hbit : test_bit (dbn + ((i_blocks / 8 : Nat) : Int) - c.EZFS_ROOT_DATABLOCK_NUMBER)
        bitmap = true
    · have hscan : ¬ (scan_loop c bitmap dbn ((i_blocks / 8 : Nat) : Int) c.EZFS_MAX_DATA_BLKS
          0 0).2 < ((i_blocks / 8 : Nat) : Int) + 1 := fun hc => hnot (Or.inr (Or.inr ⟨hbit, hc⟩))
      obtain ⟨_, hw, _⟩ :=
        scan_loop_success c bitmap dbn ((i_blocks / 8 : Nat) : Int) (by omega) hscan
      rw [ezfs_get_block_relocate c h bitmap dbn i_blocks disk (i_blocks / 8) hn0 (le_refl _)
        hguard hbit hscan]
      generalize (scan_loop c bitmap dbn ((i_blocks / 8 : Nat) : Int) c.EZFS_MAX_DATA_BLKS
        0 0).1 = e at hw ⊢
      generalize i_blocks / 8 = n at *
      refine ⟨e - ((n : Int) + 1), ?_, by simp [allocation_success], ?_, ?_⟩
      · have : e - ((n : Int) + 1) + n + 1 = e := by omega
        rw [this]; exact hw
      · simp only [allocation_success, Option.some.injEq]; omega
      · intro j
        simp only [allocation_success, set_bit_apply, mark_loop_apply, move_loop_bitmap]
        split_ifs <;> first | rfl | (exfalso; omega)
    · have hbit0 : test_bit (dbn + ((i_blocks / 8 : Nat) : Int) - c.EZFS_ROOT_DATABLOCK_NUMBER)
          bitmap = false := by simpa using hbit
      rw [ezfs_get_block_inplace c h bitmap dbn i_blocks disk (i_blocks / 8) hn0 (le_refl _)
        hguard hffz hbit0]
      generalize i_blocks / 8 = n at *
      refine ⟨dbn - c.EZFS_ROOT_DATABLOCK_NUMBER, ⟨by omega, by omega, ?_⟩,
        by simp [allocation_success], by simp [allocation_success], ?_⟩
      · intro j hj1 hj2 hbad
        by_cases hlast : j = dbn + (n : Int) - c.EZFS_ROOT_DATABLOCK_NUMBER
        · rw [hlast, hbit0] at hbad
          exact Bool.false_ne_true hbad.1
        · have := hbad.2
          omega
      · intro j
        simp only [allocation_success, set_bit_apply]
        have hj := hset j
        split_ifs <;> first | rfl | (exfalso; omega) | exact hj (by omega) (by omega)

theorem inExtent_update_self (c : Consts) (x : Extents) (k j d : Int) (ib : Nat) :
    InExtent c (x.update k d ib) k j ↔
      d - c.EZFS_ROOT_DATABLOCK_NUMBER ≤ j ∧
        j < d - c.EZFS_ROOT_DATABLOCK_NUMBER + ((ib / 8 : Nat) : Int) := by
  simp [InExtent, Extents.update]

theorem inExtent_update_other (c : Consts) (x : Extents) (k l j d : Int) (ib : Nat)
    (hl : l ≠ k) : InExtent c (x.update k d ib) l j ↔ InExtent c x l j := by
  simp [InExtent, Extents.update, hl]

theorem live_update (c : Consts) (x : Extents) (k l d : Int) (ib : Nat) :
    Live c (x.update k d ib) l ↔ Live c x l := Iff.rfl

theorem twoFileExtents_live (k : Int) (hk : Live sampleConsts twoFileExtents k) :
    k = 0 ∨ k = 1 := by
  have := hk.2.2
  simpa [twoFileExtents] using this

theorem twoFileExtents_inExtent (k j : Int) (hk : k = 0 ∨ k = 1)
    (hj : InExtent sampleConsts twoFileExtents k j) : j = k := by
  unfold InExtent at hj
  rcases hk with rfl | rfl <;> simp [twoFileExtents, sampleConsts] at hj <;> omega

theorem twoFileExtents_bitsSet : ExtentBitsSet sampleConsts twoFileExtents twoFiles := by
  intro k j hk hj
  have hk01 := twoFileExtents_live k hk
  have hjk := twoFileExtents_inExtent k j hk01 hj
  subst hjk
  rcases hk01 with rfl | rfl <;> decide

theorem twoFileExtents_disjoint : ExtentsDisjoint sampleConsts twoFileExtents := by
  intro k l j hk hl hkl hboth
  have h1 := twoFileExtents_inExtent k j (twoFileExtents_live k hk) hboth.1
  have h2 := twoFileExtents_inExtent l j (twoFileExtents_live l hl) hboth.2
  omega

theorem twoFileExtents_owned : SetBitsOwned sampleConsts twoFileExtents twoFiles := by
  intro j _ _ hb
  have hj : j = 0 ∨ j = 1 := by simpa [twoFiles] using hb
  refine ⟨j, ⟨?_, ?_⟩, ?_⟩
  · rcases hj with rfl | rfl <;> decide
  · rcases hj with rfl | rfl <;> simp [InExtent, twoFileExtents, sampleConsts]
  · rintro m ⟨hm, hmin⟩
    exact (twoFileExtents_inExtent m j (twoFileExtents_live m hm) hmin).symm

/-- A hit of `deactivate_dir_entry`: the first active slot from `i` on that
compares equal is zeroed, every earlier slot was inactive or compared
unequal. -/
theorem deactivate_from_hit (c : Consts) (name : List Nat) :
    ∀ (fuel i : Nat) (blk b' : DirBlock) (r : Int),
      deactivate_dir_entry_from c name fuel i blk = some (r, b') → r ≠ 0 →
      ∃ k, i ≤ k ∧ k < c.EZFS_MAX_CHILDREN ∧ (blk k).active ≠ 0 ∧
        strcmp_eq (blk k).filename name = some true ∧ r = 1 ∧
        b' = blk.store k (zero_dir_entry c) ∧
        ∀ m, i ≤ m → m < k →
          ((blk m).active = 0 ∨ strcmp_eq (blk m).filename name = some false) := by
  intro fuel
  induction fuel with
  | zero =>
    intro i blk b' r hres hr
    simp only [deactivate_dir_entry_from, Option.some.injEq, Prod.mk.injEq] at hres
    exact absurd hres.1.symm hr
  | succ fuel ih =>
    intro i blk b' r hres hr
    simp only [deactivate_dir_entry_from] at hres
    by_cases hi : i < c.EZFS_MAX_CHILDREN
    · rw [if_pos hi] at hres
      by_cases hact : (blk i).active ≠ 0
      · rw [if_pos hact] at hres
        cases hcmp : strcmp_eq (blk i).filename name with
        | none => rw [hcmp] at hres; simp at hres
        | some b =>
          rw [hcmp] at hres
          cases b with
          | true =>
            simp only [Option.some.injEq, Prod.mk.injEq] at hres
            refine ⟨i, le_refl _, hi, hact, hcmp, hres.1.symm, hres.2.symm, ?_⟩
            intro m hm1 hm2; omega
          | false =>
            simp only at hres
            obtain ⟨k, hk1, hk2, hk3, hk4, hk5, hk6, hk7⟩ := ih (i + 1) blk b' r hres hr
            refine ⟨k, by omega, hk2, hk3, hk4, hk5, hk6, ?_⟩
            intro m hm1 hm2
            by_cases hmi : m = i
            · subst hmi; exact Or.inr hcmp
            · exact hk7 m (by omega) hm2
      · rw [if_neg hact] at hres
        obtain ⟨k, hk1, hk2, hk3, hk4, hk5, hk6, hk7⟩ := ih (i + 1) blk b' r hres hr
        refine ⟨k, by omega, hk2, hk3, hk4, hk5, hk6, ?_⟩
        intro m hm1 hm2
        by_cases hmi : m = i
        · subst hmi; exact Or.inl (by simpa using hact)
        · exact hk7 m (by omega) hm2
    · rw [if_neg hi] at hres
      simp only [Option.some.injEq, Prod.mk.injEq] at hres
      exact absurd hres.1.symm hr

/-- A miss of `deactivate_dir_entry`: when every slot from `i` on is inactive or
compares unequal, the scan returns 0 and leaves the block as it is. -/
theorem deactivate_from_miss (c : Consts) (name : List Nat) :
    ∀ (fuel i : Nat) (blk : DirBlock),
      (∀ m, i ≤ m → m < c.EZFS_MAX_CHILDREN →
        ((blk m).active = 0 ∨ strcmp_eq (blk m).filename name = some false)) →
      deactivate_dir_entry_from c name fuel i blk = some (0, blk) := by
  intro fuel
  induction fuel with
  | zero => intro i blk _; rfl
  | succ fuel ih =>
    intro i blk hall
    simp only [deactivate_dir_entry_from]
    by_cases hi : i < c.EZFS_MAX_CHILDREN
    · rw [if_pos hi]
      have hrest := ih (i + 1) blk (fun m hm1 hm2 => hall m (by omega) hm2)
      rcases hall i (le_refl _) hi with h0 | hcmp
      · rw [if_neg (by simpa using h0)]
        exact hrest
      · by_cases hact : (blk i).active ≠ 0
        · rw [if_pos hact, hcmp]
          exact hrest
        · rw [if_neg hact]
          exact hrest
    · rw [if_neg hi]

theorem release_inode_resources_apply (c : Consts) (bitmap : Bitmap) (dbn : Int) (n : Nat)
    (j : Int) :
    release_inode_resources c bitmap dbn n j =
      if dbn - c.EZFS_ROOT_DATABLOCK_NUMBER ≤ j ∧ j < dbn - c.EZFS_ROOT_DATABLOCK_NUMBER + n
      then false else bitmap j := by
  induction n with
  | zero =>
    simp only [release_inode_resources]
    rw [if_neg]; push_cast; omega
  | succ n ih =>
    simp only [release_inode_resources, CLEARBIT, ih]
    push_cast
    split_ifs <;> first | rfl | (exfalso; omega)

theorem find_first_zero_bit_eq_size_iff (bitmap : Bitmap) (n : Nat) :
    find_first_zero_bit bitmap n = n ↔ ∀ j : Nat, j < n → bitmap (j : Int) = true := by
  constructor
  · intro heq j hj
    exact find_first_zero_bit_below bitmap n j (by omega)
  · intro hall
    by_contra hne
    have hle := find_first_zero_bit_le bitmap n
    have hlt : find_first_zero_bit bitmap n < n := by omega
    have hclear := find_first_zero_bit_clear bitmap n hlt
    rw [hall _ hlt] at hclear
    exact Bool.noConfusion hclear

theorem mkdir_mode_isdir (mode : Nat) : (mode ||| S_IFDIR) &&& S_IFDIR ≠ 0 := by
  intro h
  have h1 := congrArg (fun x => Nat.testBit x 14) h
  have h14 : Nat.testBit S_IFDIR 14 = true := by decide
  simp [Nat.testBit_and, Nat.testBit_or, h14] at h1

/-- A call of `create_inode_helper` that returns no error has passed every check
and ran the commit part on the slot and the free indices it found. -/
theorem create_inode_helper_ok (c : Consts) (h : NsHost) (st : FsState) (dir : inode)
    (name : List Nat) (mode : Nat)
    (hret : (create_inode_helper c h st dir name mode false).ret = 0) :
    create_inode_helper c h st dir name mode false =
      create_commit c h st dir name mode
        (first_inactive_slot c
          (st.blocks (st.inode_store (dir.i_ino - c.EZFS_ROOT_INODE_NUMBER)).dbn)
          c.EZFS_MAX_CHILDREN 0)
        (find_free_index st.free_inodes c.EZFS_MAX_INODES)
        (find_free_index st.free_data_blocks c.EZFS_MAX_DATA_BLKS) := by
  unfold create_inode_helper at hret ⊢
  simp only [Bool.false_eq_true, if_false] at hret ⊢
  split_ifs at hret ⊢ with h1 h2 h3 h4 h5 h6
  · simp [ENAMETOOLONG] at hret
  · simp [EIO_errno] at hret
  · simp [ENOSPC] at hret
  · simp only at hret; omega
  · simp only at hret; omega
  · simp [EIO_errno] at hret
  · rfl

theorem setbit_loop_apply (n : Nat) (bitmap : Bitmap) (j : Int) :
    setbit_loop n bitmap j = if 0 ≤ j ∧ j < n then true else bitmap j := by
  induction n with
  | zero =>
    simp only [setbit_loop]
    rw [if_neg]; push_cast; omega
  | succ n ih =>
    simp only [setbit_loop, SETBIT, ih]
    push_cast
    split_ifs <;> first | rfl | (exfalso; omega)

/-- A comparison that can reach a NUL of the buffer ends inside the buffer. -/
theorem strncmp_eq_defined (s1 s2 : List Nat) :
    ∀ (n k : Nat), (∃ z, k ≤ z ∧ s1.get? z = some 0) → strncmp_eq s1 s2 n k ≠ none := by
  intro n
  induction n with
  | zero => intro k _; simp [strncmp_eq]
  | succ n ih =>
    intro k hz
    obtain ⟨z, hkz, hzero⟩ := hz
    have hzlt : z < s1.length := by
      by_contra hge
      rw [List.get?_eq_none.mpr (by omega)] at hzero
      exact Option.noConfusion hzero
    simp only [strncmp_eq]
    have hk : s1.get? k = some (s1.get ⟨k, by omega⟩) := List.get?_eq_get (by omega)
    rw [hk]
    simp only
    split_ifs with h1 h2
    · simp
    · simp
    · apply ih
      refine ⟨z, ?_, hzero⟩
      by_contra hlt
      have hzk : z = k := by omega
      subst hzk
      rw [hk] at hzero
      exact h2 (Option.some.inj hzero)

/-- The scan of `deactivate_dir_entry` zeroes slot `k` when `k` is the first
active slot from `i` on that compares equal. -/
theorem deactivate_from_found (c : Consts) (name : List Nat) :
    ∀ (fuel i : Nat) (blk : DirBlock) (k : Nat), i ≤ k → k < i + fuel →
      NameAt c blk name k →
      (∀ m, i ≤ m → m < k →
        ((blk m).active = 0 ∨ strcmp_eq (blk m).filename name = some false)) →
      deactivate_dir_entry_from c name fuel i blk = some (1, blk.store k (zero_dir_entry c)) := by
  intro fuel
  induction fuel with
  | zero => intro i blk k h1 h2; omega
  | succ fuel ih =>
    intro i blk k hik hk hat hbefore
    obtain ⟨hkmax, hkact, hkcmp⟩ := hat
    simp only [deactivate_dir_entry_from]
    rw [if_pos (by omega)]
    by_cases heq : i = k
    · subst heq
      rw [if_pos hkact, hkcmp]
    · have hrest := ih (i + 1) blk k (by omega) (by omega) ⟨hkmax, hkact, hkcmp⟩
        (fun m hm1 hm2 => hbefore m (by omega) hm2)
      rcases hbefore i (le_refl _) (by omega) with h0 | hcmp
      · rw [if_neg (by simpa using h0)]
        exact hrest
      · by_cases hact : (blk i).active ≠ 0
        · rw [if_pos hact, hcmp]
          exact hrest
        · rw [if_neg hact]
          exact hrest

theorem fsState_blocks_same (st : FsState) (d : Int) :
    ({ st with blocks := fun b => if b = d then st.blocks d else st.blocks b } : FsState) = st := by
  cases st
  simp only [FsState.mk.injEq, true_and]
  funext b
  split_ifs with hb
  · rw [hb]
  · rfl

theorem drop_nlink_pred (i : inode) (h0 : 0 < i.i_nlink) (h1 : i.i_nlink < 2 ^ 32) :
    (drop_nlink i).i_nlink + 1 = i.i_nlink := by
  simp only [drop_nlink]
  have : (i.i_nlink + 2 ^ 32 - 1) % 2 ^ 32 = i.i_nlink - 1 := by
    have h2 : i.i_nlink + 2 ^ 32 - 1 = (i.i_nlink - 1) + 2 ^ 32 := by omega
    rw [h2, Nat.add_mod_right]
    exact Nat.mod_eq_of_lt (by omega)
  rw [this]; omega

theorem ezfs_dir_empty_from_nonzero (c : Consts) (blk : DirBlock) :
    ∀ (fuel i : Nat), ezfs_dir_empty_from c blk fuel i ≠ 0 →
      ∀ k, i ≤ k → k < i + fuel → k < c.EZFS_MAX_CHILDREN → (blk k).active = 0 := by
  intro fuel
  induction fuel with
  | zero => intro i _ k h1 h2; omega
  | succ fuel ih =>
    intro i hne k hik hk hkmax
    simp only [ezfs_dir_empty_from] at hne
    rw [if_pos (by omega)] at hne
    by_cases hact : (blk i).active ≠ 0
    · rw [if_pos hact] at hne
      exact absurd rfl hne
    · rw [if_neg hact] at hne
      by_cases heq : k = i
      · subst heq; simpa using hact
      · exact ih (i + 1) hne k (by omega) (by omega) hkmax

theorem drop_nlink_twice (i : inode) (h2 : i.i_nlink = 2) :
    (drop_nlink (drop_nlink i)).i_nlink = 0 := by
  have h1 : (drop_nlink i).i_nlink + 1 = i.i_nlink :=
    drop_nlink_pred i (by omega) (by rw [h2]; norm_num)
  have h0 : (drop_nlink (drop_nlink i)).i_nlink + 1 = (drop_nlink i).i_nlink :=
    drop_nlink_pred (drop_nlink i) (by omega) (by
      have : (drop_nlink i).i_nlink = 1 := by omega
      rw [this]; norm_num)
  omega

theorem name_byte_ne_zero (name : List Nat) (hname : ∀ b ∈ name, b ≠ 0) (i : Nat)
    (hi : i < name.length) : name_byte name i ≠ 0 := by
  apply hname
  unfold name_byte
  rw [List.getD_eq_getElem name 0 hi]
  exact List.getElem_mem hi

/-- For a name without NUL bytes, `strncmp` over bytes `k .. k + n - 1` of the
name returns 0 exactly when the buffer holds those bytes of the name. -/
theorem strncmp_eq_true_iff (s1 name : List Nat) (hname : ∀ b ∈ name, b ≠ 0) :
    ∀ (n k : Nat), k + n ≤ name.length →
      (strncmp_eq s1 name n k = some true ↔
        ∀ i, k ≤ i → i < k + n → s1.get? i = some (name_byte name i)) := by
  intro n
  induction n with
  | zero =>
    intro k _
    simp only [strncmp_eq, true_iff]
    intro i h1 h2; omega
  | succ n ih =>
    intro k hk
    simp only [strncmp_eq]
    cases hget : s1.get? k with
    | none =>
      simp only
      constructor
      · intro hc; simp at hc
      · intro hall
        have := hall k (le_refl _) (by omega)
        rw [hget] at this; simp at this
    | some c1 =>
      simp only
      by_cases hc : c1 = name_byte name k
      · have hnz : c1 ≠ 0 := by rw [hc]; exact name_byte_ne_zero name hname k (by omega)
        rw [if_neg (by simpa using hc), if_neg hnz, ih (k + 1) (by omega)]
        constructor
        · intro hall i hi1 hi2
          by_cases hik : i = k
          · subst hik; rw [hget, hc]
          · exact hall i (by omega) (by omega)
        · intro hall i hi1 hi2
          exact hall i (by omega) (by omega)
      · rw [if_pos hc]
        constructor
        · intro hcon; simp at hcon
        · intro hall
          have := hall k (le_refl _) (by omega)
          rw [hget] at this
          exact absurd (Option.some.inj this) hc

/-- With a NUL in the buffer and no NUL in the name, a slot is either the one
the lookup stops at or one it passes over: no comparison leaves the
buffer. -/
theorem slot_matches_or_skipped (c : Consts) (blk : DirBlock) (name : List Nat)
    (hname : ∀ b ∈ name, b ≠ 0) (k : Nat) (hk : k < c.EZFS_MAX_CHILDREN)
    (hnul : (blk k).active ≠ 0 → 0 ∈ (blk k).filename) :
    (SlotMatches c blk name k ∧
        strncmp_eq (blk k).filename name name.length 0 = some true ∧
        (blk k).filename.get? name.length = some 0) ∨
      (¬ SlotMatches c blk name k ∧ SlotSkipped (blk k) name) := by
  by_cases hact : (blk k).active = 0
  · right
    exact ⟨fun hm => hm.2.1 hact, Or.inl hact⟩
  · obtain ⟨z, hz⟩ := List.mem_iff_get?.mp (hnul hact)
    have hdef := strncmp_eq_defined (blk k).filename name name.length 0 ⟨z, Nat.zero_le _, hz⟩
    have hiff := strncmp_eq_true_iff (blk k).filename name hname name.length 0 (by omega)
    cases hc : strncmp_eq (blk k).filename name name.length 0 with
    | none => exact absurd hc hdef
    | some b =>
      cases b with
      | false =>
        right
        refine ⟨?_, Or.inr (Or.inl hc)⟩
        intro hm
        have := hiff.mpr (fun i _ hi => hm.2.2.1 i (by omega))
        rw [hc] at this; simp at this
      | true =>
        have hall := hiff.mp hc
        -- the NUL of the buffer lies at or after byte `len(name)`
        have hzlen : name.length ≤ z := by
          by_contra hlt
          have h1 := hall z (Nat.zero_le _) (by omega)
          rw [hz] at h1
          exact name_byte_ne_zero name hname z (by omega) (Option.some.inj h1).symm
        have hzlt : z < (blk k).filename.length := by
          by_contra hge
          rw [List.get?_eq_none.mpr (by omega)] at hz
          exact Option.noConfusion hz
        have hget : (blk k).filename.get? name.length =
            some ((blk k).filename.get ⟨name.length, by omega⟩) := List.get?_eq_get (by omega)
        by_cases hb : (blk k).filename.get ⟨name.length, by omega⟩ = 0
        · left
          rw [hb] at hget
          exact ⟨⟨hk, hact, fun i hi => hall i (Nat.zero_le _) (by omega), hget⟩, rfl, hget⟩
        · right
          refine ⟨?_, Or.inr (Or.inr ⟨hc, _, hget, hb⟩)⟩
          intro hm
          rw [hm.2.2.2] at hget
          exact hb (Option.some.inj hget).symm

theorem lookup_scan_found (c : Consts) (blk : DirBlock) (name : List Nat) :
    ∀ (fuel i k : Nat), i ≤ k → k < i + fuel → k < c.EZFS_MAX_CHILDREN →
      (blk k).active ≠ 0 → strncmp_eq (blk k).filename name name.length 0 = some true →
      (blk k).filename.get? name.length = some 0 →
      (∀ m, i ≤ m → m < k → SlotSkipped (blk m) name) →
      lookup_scan c blk name fuel i = some (some (blk k).inode_no) := by
  intro fuel
  induction fuel with
  | zero => intro i k h1 h2; omega
  | succ fuel ih =>
    intro i k hik hk hkmax hact hcmp hnul hbefore
    simp only [lookup_scan]
    rw [if_pos (by omega)]
    by_cases heq : i = k
    · subst heq
      rw [if_pos hact, hcmp]
      simp only [hnul, if_true]
    · have hrest := ih (i + 1) k (by omega) (by omega) hkmax hact hcmp hnul
        (fun m hm1 hm2 => hbefore m (by omega) hm2)
      rcases hbefore i (le_refl _) (by omega) with h0 | hf | ⟨ht, b, hb, hbne⟩
      · rw [if_neg (by simpa using h0)]
        exact hrest
      · by_cases ha : (blk i).active ≠ 0
        · rw [if_pos ha, hf]
          exact hrest
        · rw [if_neg ha]
          exact hrest
      · by_cases ha : (blk i).active ≠ 0
        · rw [if_pos ha, ht]
          simp only [hb, if_neg hbne]
          exact hrest
        · rw [if_neg ha]
          exact hrest

theorem lookup_scan_miss (c : Consts) (blk : DirBlock) (name : List Nat) :
    ∀ (fuel i : Nat),
      (∀ m, i ≤ m → m < c.EZFS_MAX_CHILDREN → SlotSkipped (blk m) name) →
      lookup_scan c blk name fuel i = some none := by
  intro fuel
  induction fuel with
  | zero => intro i _; rfl
  | succ fuel ih =>
    intro i hall
    simp only [lookup_scan]
    by_cases hi : i < c.EZFS_MAX_CHILDREN
    · rw [if_pos hi]
      have hrest := ih (i + 1) (fun m hm1 hm2 => hall m (by omega) hm2)
      rcases hall i (le_refl _) hi with h0 | hf | ⟨ht, b, hb, hbne⟩
      · rw [if_neg (by simpa using h0)]
        exact hrest
      · by_cases ha : (blk i).active ≠ 0
        · rw [if_pos ha, hf]
          exact hrest
        · rw [if_neg ha]
          exact hrest
      · by_cases ha : (blk i).active ≠ 0
        · rw [if_pos ha, ht]
          simp only [hb, if_neg hbne]
          exact hrest
        · rw [if_neg ha]
          exact hrest
    · rw [if_neg hi]

theorem active_items_end (c : Consts) (blk : DirBlock) (first : Nat)
    (h : c.EZFS_MAX_CHILDREN ≤ first) : active_items c blk first = [] := by
  unfold active_items
  have : c.EZFS_MAX_CHILDREN - first = 0 := by omega
  rw [this]
  rfl

theorem active_items_step (c : Consts) (blk : DirBlock) (first : Nat)
    (h : first < c.EZFS_MAX_CHILDREN) :
    active_items c blk first =
      if (blk first).active ≠ 0 then slot_item (blk first) :: active_items c blk (first + 1)
      else active_items c blk (first + 1) := by
  unfold active_items
  have : c.EZFS_MAX_CHILDREN - first = (c.EZFS_MAX_CHILDREN - (first + 1)) + 1 := by omega
  rw [this, List.range'_succ]
  by_cases hact : (blk first).active ≠ 0
  · rw [if_pos hact, List.filter_cons_of_pos (by simpa using hact)]
    rfl
  · rw [if_neg hact, List.filter_cons_of_neg (by simpa using hact)]

/-- The loop of `ezfs_iterate`, when every active filename is NUL-terminated:
it always returns, emits the first `room` active entries from slot `pos - 2`
on, and leaves the cursor where the rest starts. -/
theorem iterate_loop_spec (c : Consts) (blk : DirBlock) (hnul : NulTerminated c blk) :
    ∀ (fuel pos room : Nat), 2 ≤ pos → c.EZFS_MAX_CHILDREN + 2 ≤ pos + fuel →
      ∃ p' l, iterate_loop c blk fuel pos room = some (p', l) ∧
        l = (active_items c blk (pos - 2)).take room ∧
        pos ≤ p' ∧
        l ++ active_items c blk (p' - 2) = active_items c blk (pos - 2) ∧
        ((active_items c blk (pos - 2)).length ≤ room →
          p' = max pos (c.EZFS_MAX_CHILDREN + 2)) ∧
        (room < (active_items c blk (pos - 2)).length →
          p' - 2 < c.EZFS_MAX_CHILDREN ∧ (blk (p' - 2)).active ≠ 0 ∧
            ∀ k, pos - 2 ≤ k → k < p' - 2 → (blk k).active ≠ 0 → slot_item (blk k) ∈ l) := by
  intro fuel
  induction fuel with
  | zero =>
    intro pos room hpos hfuel
    have hend := active_items_end c blk (pos - 2) (by omega)
    refine ⟨pos, [], rfl, by rw [hend]; simp, le_refl _, by simp, ?_, ?_⟩
    · intro _; omega
    · intro hlt; rw [hend] at hlt; simp at hlt
  | succ fuel ih =>
    intro pos room hpos hfuel
    simp only [iterate_loop]
    by_cases hin : pos - 2 < c.EZFS_MAX_CHILDREN
    · rw [if_pos hin]
      have hstep := active_items_step c blk (pos - 2) hin
      have hnext : pos + 1 - 2 = pos - 2 + 1 := by omega
      by_cases hact : (blk (pos - 2)).active ≠ 0
      · rw [if_pos hact]
        rw [if_pos hact] at hstep
        have hcs : c_string (blk (pos - 2)).filename =
            some ((blk (pos - 2)).filename.takeWhile (fun b => b ≠ 0)) := by
          unfold c_string
          rw [if_pos (hnul _ hin hact)]
        rw [hcs]
        simp only
        cases room with
        | zero =>
          refine ⟨pos, [], rfl, by simp, le_refl _, by simp, ?_, ?_⟩
          · intro hle; rw [hstep] at hle; simp at hle
          · intro _
            exact ⟨hin, hact, fun k hk1 hk2 => by omega⟩
        | succ room =>
          obtain ⟨p', l, hloop, hl, hle, happ, hfull, hstop⟩ :=
            ih (pos + 1) room (by omega) (by omega)
          rw [hnext] at hl happ hfull hstop
          refine ⟨p', slot_item (blk (pos - 2)) :: l, by simp only [hloop]; rfl, ?_, by omega,
            ?_, ?_, ?_⟩
          · rw [hstep, List.take_succ_cons, hl]
          · rw [hstep, List.cons_append, happ]
          · intro hlen
            rw [hstep, List.length_cons] at hlen
            rw [hfull (by omega)]
            omega
          · intro hlen
            rw [hstep, List.length_cons] at hlen
            obtain ⟨h1, h2, h3⟩ := hstop (by omega)
            refine ⟨h1, h2, ?_⟩
            intro k hk1 hk2 hka
            by_cases hk : k = pos - 2
            · subst hk; exact List.mem_cons_self _ _
            · exact List.mem_cons_of_mem _ (h3 k (by omega) hk2 hka)
      · rw [if_neg hact]
        rw [if_neg hact] at hstep
        obtain ⟨p', l, hloop, hl, hle, happ, hfull, hstop⟩ :=
          ih (pos + 1) room (by omega) (by omega)
        rw [hnext] at hl happ hfull hstop
        refine ⟨p', l, hloop, by rw [hstep, hl], by omega, by rw [hstep, happ], ?_, ?_⟩
        · intro hlen
          rw [hstep] at hlen
          rw [hfull hlen]
          omega
        · intro hlen
          rw [hstep] at hlen
          obtain ⟨h1, h2, h3⟩ := hstop hlen
          refine ⟨h1, h2, ?_⟩
          intro k hk1 hk2 hka
          by_cases hk : k = pos - 2
          · subst hk; exact absurd hka hact
          · exact h3 k (by omega) hk2 hka
    · rw [if_neg hin]
      have hend := active_items_end c blk (pos - 2) (by omega)
      refine ⟨pos, [], rfl, by rw [hend]; simp, le_refl _, by simp, ?_, ?_⟩
      · intro _; omega
      · intro hlt; rw [hend] at hlt; simp at hlt

/-- The call `ezfs_iterate` at a cursor `p >= 2`, on a readable directory block
with NUL-terminated names. -/
theorem ezfs_iterate_from (c : Consts) (h : NsHost) (st : FsState) (i : inode)
    (parent_ino : Int) (p room : Nat)
    (hread : h.sb_bread (st.inode_store (i.i_ino - c.EZFS_ROOT_INODE_NUMBER)).dbn = true)
    (hnul : NulTerminated c (st.blocks (st.inode_store (i.i_ino - c.EZFS_ROOT_INODE_NUMBER)).dbn)) (hp : 2 ≤ p) :
    ∃ r, ezfs_iterate c h st i parent_ino p room = some r ∧ r.ret = 0 ∧
      r.emitted = (active_items c (st.blocks (st.inode_store (i.i_ino - c.EZFS_ROOT_INODE_NUMBER)).dbn) (p - 2)).take room ∧
      p ≤ r.pos ∧
      r.emitted ++ active_items c (st.blocks (st.inode_store (i.i_ino - c.EZFS_ROOT_INODE_NUMBER)).dbn) (r.pos - 2) = active_items c (st.blocks (st.inode_store (i.i_ino - c.EZFS_ROOT_INODE_NUMBER)).dbn) (p - 2) ∧
      ((active_items c (st.blocks (st.inode_store (i.i_ino - c.EZFS_ROOT_INODE_NUMBER)).dbn) (p - 2)).length ≤ room → r.pos = max p (c.EZFS_MAX_CHILDREN + 2)) ∧
      (room < (active_items c (st.blocks (st.inode_store (i.i_ino - c.EZFS_ROOT_INODE_NUMBER)).dbn) (p - 2)).length →
        r.pos - 2 < c.EZFS_MAX_CHILDREN ∧ ((st.blocks (st.inode_store (i.i_ino - c.EZFS_ROOT_INODE_NUMBER)).dbn) (r.pos - 2)).active ≠ 0 ∧
          ∀ k, p - 2 ≤ k → k < r.pos - 2 → ((st.blocks (st.inode_store (i.i_ino - c.EZFS_ROOT_INODE_NUMBER)).dbn) k).active ≠ 0 →
            slot_item ((st.blocks (st.inode_store (i.i_ino - c.EZFS_ROOT_INODE_NUMBER)).dbn) k) ∈ r.emitted) := by
  obtain ⟨p', l, hloop, hl, hle, happ, hfull, hstop⟩ :=
    iterate_loop_spec c (st.blocks (st.inode_store (i.i_ino - c.EZFS_ROOT_INODE_NUMBER)).dbn) hnul c.EZFS_MAX_CHILDREN p room hp (by omega)
  have hdots : dir_emit_dots i.i_ino parent_ino p room = (true, p, room, []) := by
    unfold dir_emit_dots
    rw [if_neg (by omega), if_neg (by omega)]
  refine ⟨{ ret := 0, pos := p', emitted := l }, ?_, rfl, hl, hle, happ, hfull, hstop⟩
  unfold ezfs_iterate
  simp [hdots, hread, hloop]

/-- The loop of `ezfs_dir_empty` returns 0 as soon as one of the slots it
visits is active. -/
theorem ezfs_dir_empty_from_zero (c : Consts) (blk : DirBlock) :
    ∀ (fuel i k : Nat), i ≤ k → k < i + fuel → k < c.EZFS_MAX_CHILDREN →
      (blk k).active ≠ 0 → ezfs_dir_empty_from c blk fuel i = 0 := by
  intro fuel
  induction fuel with
  | zero => intro i k h1 h2; omega
  | succ fuel ih =>
    intro i k hik hk hkmax hact
    simp only [ezfs_dir_empty_from]
    rw [if_pos (by omega)]
    by_cases hi : (blk i).active ≠ 0
    · rw [if_pos hi]
    · rw [if_neg hi]
      have hne : k ≠ i := by
        intro heq
        subst heq
        exact hi hact
      exact ih (i + 1) k (by omega) (by omega) hkmax hact

theorem mem_move_steps (start r : Int) (st : RelocStep) :
    ∀ n : Nat, st ∈ move_steps start r n →
      ∃ i : Nat, i < n ∧ (st = RelocStep.move (start + i) (r + i) ∨ st = RelocStep.clear (start + i)) := by
  intro n
  induction n with
  | zero => intro hm; simp [move_steps] at hm
  | succ n ih =>
    intro hm
    simp only [move_steps, List.mem_append, List.mem_cons, List.mem_singleton,
      List.not_mem_nil, or_false] at hm
    rcases hm with hm | hm | hm
    · obtain ⟨i, hi, hst⟩ := ih hm
      exact ⟨i, by omega, hst⟩
    · exact ⟨n, by omega, Or.inl hm⟩
    · exact ⟨n, by omega, Or.inr hm⟩

theorem mem_mark_steps (r : Int) (st : RelocStep) :
    ∀ n : Nat, st ∈ mark_steps r n → ∃ i : Nat, i < n ∧ st = RelocStep.mark (r + i) := by
  intro n
  induction n with
  | zero => intro hm; simp [mark_steps] at hm
  | succ n ih =>
    intro hm
    simp only [mark_steps, List.mem_append, List.mem_singleton] at hm
    rcases hm with hm | hm
    · obtain ⟨i, hi, hst⟩ := ih hm
      exact ⟨i, by omega, hst⟩
    · exact ⟨n, by omega, hm⟩

/-- On the relocation path the guard of line 342 passed and the free-run search
succeeded, whenever the call returned 0. -/
theorem relocation_path_of_success (c : Consts) (h : Host) (bitmap : Bitmap) (dbn : Int)
    (i_blocks : Nat) (disk : Disk) (block : Nat)
    (hn : 0 < i_blocks / 8) (hb : i_blocks / 8 ≤ block)
    (hocc : test_bit (dbn + block - c.EZFS_ROOT_DATABLOCK_NUMBER) bitmap = true)
    (hok : (ezfs_get_block c h bitmap dbn i_blocks disk block true).status = 0) :
    dbn + block < c.EZFS_ROOT_DATABLOCK_NUMBER + c.EZFS_MAX_DATA_BLKS ∧
      ¬ (scan_loop c bitmap dbn ((i_blocks / 8 : Nat) : Int) c.EZFS_MAX_DATA_BLKS 0 0).2
        < ((i_blocks / 8 : Nat) : Int) + 1 := by
  obtain ⟨hiff, _⟩ := ezfs_get_block_extend_status c h bitmap dbn i_blocks disk block hn hb
  have hne : (ezfs_get_block c h bitmap dbn i_blocks disk block true).status ≠ -ENOSPC := by
    rw [hok]; simp [ENOSPC]
  have hnot := mt hiff.mpr hne
  constructor
  · by_contra hc; exact hnot (Or.inl (by omega))
  · exact fun hc => hnot (Or.inr (Or.inr ⟨hocc, hc⟩))

/-- The bytes that `strncmp` reads lie at or before the first NUL of the buffer. -/
theorem strncmp_reads_le (s1 s2 : List Nat) :
    ∀ (n k z : Nat), k ≤ z → s1.get? z = some 0 →
      ∀ i ∈ strncmp_reads s1 s2 n k, i ≤ z := by
  intro n
  induction n with
  | zero => intro k z _ _ i hi; simp [strncmp_reads] at hi
  | succ n ih =>
    intro k z hkz hz i hi
    simp only [strncmp_reads, List.mem_cons] at hi
    rcases hi with hi | hi
    · omega
    · cases hget : s1.get? k with
      | none => rw [hget] at hi; simp at hi
      | some c1 =>
        rw [hget] at hi
        simp only at hi
        split_ifs at hi with h1 h2
        · simp at hi
        · simp at hi
        · have hne : k ≠ z := by
            intro heq
            subst heq
            rw [hget] at hz
            exact h2 (Option.some.inj hz)
          exact ih (k + 1) z (by omega) hz i hi

/-- When `strncmp` over the whole name returns 0 for a name without NUL bytes,
the first NUL of the buffer lies at or after byte `len(name)`. -/
theorem nul_after_match (s1 name : List Nat) (hname : ∀ b ∈ name, b ≠ 0) (z : Nat)
    (hz : s1.get? z = some 0)
    (hcmp : strncmp_eq s1 name name.length 0 = some true) : name.length ≤ z := by
  by_contra hlt
  have hall := (strncmp_eq_true_iff s1 name hname name.length 0 (by omega)).mp hcmp z
    (Nat.zero_le _) (by omega)
  rw [hz] at hall
  exact name_byte_ne_zero name hname z (by omega) (Option.some.inj hall).symm

theorem lookup_reads_le (c : Consts) (blk : DirBlock) (name : List Nat)
    (hname : ∀ b ∈ name, b ≠ 0)
    (hnul : ∀ m, m < c.EZFS_MAX_CHILDREN → (blk m).active ≠ 0 →
      ∃ z, z ≤ c.EZFS_MAX_FILENAME_LENGTH ∧ (blk m).filename.get? z = some 0) :
    ∀ (fuel i : Nat), ∀ p ∈ lookup_reads c blk name fuel i,
      p.1 < c.EZFS_MAX_CHILDREN ∧ p.2 ≤ c.EZFS_MAX_FILENAME_LENGTH := by
  intro fuel
  induction fuel with
  | zero => intro i p hp; simp [lookup_reads] at hp
  | succ fuel ih =>
    intro i p hp
    simp only [lookup_reads] at hp
    split_ifs at hp with h1 h2
    · obtain ⟨z, hzmax, hz⟩ := hnul i h1 h2
      rcases List.mem_append.mp hp with hp | hp
      · obtain ⟨k, hk, rfl⟩ := List.mem_map.mp hp
        have := strncmp_reads_le (blk i).filename name name.length 0 z (Nat.zero_le _) hz k hk
        exact ⟨h1, by simp only []; omega⟩
      · cases hc : strncmp_eq (blk i).filename name name.length 0 with
        | none => rw [hc] at hp; simp at hp
        | some b =>
          rw [hc] at hp
          cases b with
          | false => exact ih (i + 1) p hp
          | true =>
            simp only [List.mem_cons] at hp
            rcases hp with hp | hp
            · subst hp
              have := nul_after_match (blk i).filename name hname z hz hc
              exact ⟨h1, by simp only []; omega⟩
            · cases hg : (blk i).filename.get? name.length with
              | none => rw [hg] at hp; simp at hp
              | some b =>
                rw [hg] at hp
                simp only at hp
                split_ifs at hp with h3
                · simp at hp
                · exact ih (i + 1) p hp
    · exact ih (i + 1) p hp
    · simp at hp

/-- With a NUL in every active filename buffer and none in the name, the scan of
`ezfs_lookup` never reads past the end of a buffer. -/
theorem lookup_scan_defined (c : Consts) (blk : DirBlock) (name : List Nat)
    (hname : ∀ b ∈ name, b ≠ 0) (hnul : NulTerminated c blk) :
    ∀ (fuel i : Nat), lookup_scan c blk name fuel i ≠ none := by
  intro fuel
  induction fuel with
  | zero => intro i; simp [lookup_scan]
  | succ fuel ih =>
    intro i
    simp only [lookup_scan]
    split_ifs with h1 h2
    · rcases slot_matches_or_skipped c blk name hname i h1 (hnul i h1) with
        ⟨_, ht, hg⟩ | ⟨_, h0 | hf | ⟨ht, b, hb, hbne⟩⟩
      · rw [ht]
        simp only [hg]
        simp
      · exact absurd h0 h2
      · rw [hf]
        exact ih (i + 1)
      · rw [ht]
        simp only [hb, if_neg hbne]
        exact ih (i + 1)
    · exact ih (i + 1)
    · simp

/-- The page that `ezfs_move_block` looks up for block `i` of the extent is page
`i + EZFS_ROOT_DATABLOCK_NUMBER`: when that page is cached, its contents reach
the destination block. -/
theorem ezfs_move_block_page_index (c : Consts) (h : Host) (base i dest : Int) (disk : Disk)
    (data : BlockData) (hget : h.sb_getblk (dest + c.EZFS_ROOT_DATABLOCK_NUMBER) = true)
    (hpage : h.find_get_page (i + c.EZFS_ROOT_DATABLOCK_NUMBER) = some data) :
    (ezfs_move_block c h base (base + i) dest disk).2 (dest + c.EZFS_ROOT_DATABLOCK_NUMBER) =
      data := by
  have hidx : base + i + c.EZFS_ROOT_DATABLOCK_NUMBER - base = i + c.EZFS_ROOT_DATABLOCK_NUMBER := by
    omega
  simp [ezfs_move_block, hget, hidx, hpage, Disk.write]

theorem holds_mutex_from_replicate (n : Nat) (rest : List LockEvent) :
    holds_mutex_from true false (List.replicate n LockEvent.bitmap_write ++ rest) =
      holds_mutex_from true false rest := by
  induction n with
  | zero => rfl
  | succ n ih => simp [List.replicate_succ, holds_mutex_from, ih]

/-- Every path of `create_inode_helper` mutates under the mutex only. -/
theorem create_inode_helper_events_hold_mutex (c : Consts) (h : NsHost) (st : FsState)
    (dir : inode) (name : List Nat) (mode : Nat) (isdir : Bool) :
    holds_mutex (create_inode_helper_events c h st dir name mode isdir) = true := by
  unfold create_inode_helper_events holds_mutex
  simp only []
  split_ifs <;> simp [holds_mutex_from]

/-- Every path of `ezfs_get_block` mutates under the mutex only. -/
theorem ezfs_get_block_events_hold_mutex (c : Consts) (bitmap : Bitmap) (dbn : Int)
    (i_blocks : Nat) (block : Nat) (create : Bool) :
    holds_mutex (ezfs_get_block_events c bitmap dbn i_blocks block create) = true := by
  unfold ezfs_get_block_events holds_mutex
  simp only []
  split_ifs <;>
    first
      | rfl
      | simp [holds_mutex_from, holds_mutex_from_replicate]

/-- C1: for every inode (extent start `dbn`, `i_blocks`) and every logical block
`i` below `nblocks = i_blocks / 8`, `ezfs_get_block` returns 0 for either
value of `create` and maps physical block `dbn + i`. -/
theorem get_block_in_range (c : Consts) (h : Host) (bitmap : Bitmap) (dbn : Int)
    (i_blocks : Nat) (disk : Disk) (i : Nat) (create : Bool) (hi : i < i_blocks / 8) :
    (ezfs_get_block c h bitmap dbn i_blocks disk i create).status = 0 ∧
      (ezfs_get_block c h bitmap dbn i_blocks disk i create).mapped = some (dbn + i) := by
  unfold ezfs_get_block
  generalize i_blocks / 8 = n at hi ⊢
  have h0 : (n : Int) ≠ 0 := by omega
  have h1 : (i : Int) < (n : Int) := by omega
  simp [h0, h1]

theorem get_block_in_range_witness :
    (ezfs_get_block sampleConsts okHost twoFiles 2 8 idDisk 0 false).status = 0 ∧
      (ezfs_get_block sampleConsts okHost twoFiles 2 8 idDisk 0 false).mapped =
        some (2 + (0 : Nat)) :=
  get_block_in_range sampleConsts okHost twoFiles 2 8 idDisk 0 false (by decide)

/-- C2, evaluated: on the formatter's image, one byte is written at offset
`3 * 4096` of `big_txt.txt` (live inode 6, extent bits 12 and 13).
`ezfs_get_block` succeeds, maps block `dbn + 3` and sets bit 15 only;
`ezfs_write_end` raises the block count to 4, so the extent is bits 12 to 15,
of which bit 14 is clear. -/
theorem sparse_write_leaves_extent_bit_clear :
    sampleImage.free_inodes 5 = true ∧
      (sampleImage.inode_store 5).dbn - sampleConsts.EZFS_ROOT_DATABLOCK_NUMBER = 12 ∧
      bigTxtInode.i_blocks / 8 = 2 ∧
      sparseWriteBlock.status = 0 ∧
      sparseWriteBlock.mapped = some ((sampleImage.inode_store 5).dbn + 3) ∧
      sparseWriteBlock.dbn - sampleConsts.EZFS_ROOT_DATABLOCK_NUMBER = 12 ∧
      sparseWriteEnd.i_blocks / 8 = 4 ∧
      sparseWriteEnd.bitmap 14 = false := by
  decide


/-- C3: when `ezfs_get_block` extends a file with `nblocks > 0` at logical block
`nblocks`, the block after its extent is occupied and the call succeeds, the
file is relocated to a run of bit indices `[r, r + nblocks + 1)` that lies
inside the bitmap and whose blocks were each free or the file's own: every
bit of the new run is set, every bit of the old extent outside the new run is
clear, every other bit is unchanged, `dbn` is the block of `r` and the block
mapped for the caller is the block of `r + nblocks`. -/
theorem get_block_relocation (c : Consts) (h : Host) (bitmap : Bitmap) (dbn : Int)
    (i_blocks : Nat) (disk : Disk)
    (hn : 0 < i_blocks / 8)
    (hocc : test_bit (dbn + ((i_blocks / 8 : Nat) : Int) - c.EZFS_ROOT_DATABLOCK_NUMBER) bitmap
      = true)
    (hok : (ezfs_get_block c h bitmap dbn i_blocks disk (i_blocks / 8) true).status = 0) :
    ∃ r : Int,
      OkWindow c bitmap dbn ((i_blocks / 8 : Nat) : Int) (r + ((i_blocks / 8 : Nat) : Int) + 1) ∧
      (ezfs_get_block c h bitmap dbn i_blocks disk (i_blocks / 8) true).dbn =
        r + c.EZFS_ROOT_DATABLOCK_NUMBER ∧
      (ezfs_get_block c h bitmap dbn i_blocks disk (i_blocks / 8) true).mapped =
        some (r + c.EZFS_ROOT_DATABLOCK_NUMBER + ((i_blocks / 8 : Nat) : Int)) ∧
      (∀ j : Int, r ≤ j → j < r + ((i_blocks / 8 : Nat) : Int) + 1 →
        (ezfs_get_block c h bitmap dbn i_blocks disk (i_blocks / 8) true).bitmap j = true) ∧
      (∀ j : Int, dbn - c.EZFS_ROOT_DATABLOCK_NUMBER ≤ j →
        j < dbn - c.EZFS_ROOT_DATABLOCK_NUMBER + ((i_blocks / 8 : Nat) : Int) →
        ¬ (r ≤ j ∧ j < r + ((i_blocks / 8 : Nat) : Int) + 1) →
        (ezfs_get_block c h bitmap dbn i_blocks disk (i_blocks / 8) true).bitmap j = false) ∧
      (∀ j : Int, ¬ (r ≤ j ∧ j < r + ((i_blocks / 8 : Nat) : Int) + 1) →
        ¬ (dbn - c.EZFS_ROOT_DATABLOCK_NUMBER ≤ j ∧
            j < dbn - c.EZFS_ROOT_DATABLOCK_NUMBER + ((i_blocks / 8 : Nat) : Int)) →
        (ezfs_get_block c h bitmap dbn i_blocks disk (i_blocks / 8) true).bitmap j = bitmap j) := by
  obtain ⟨hiff, _⟩ := ezfs_get_block_extend_status c h bitmap dbn i_blocks disk (i_blocks / 8)
    hn (le_refl _)
  have hne : (ezfs_get_block c h bitmap dbn i_blocks disk (i_blocks / 8) true).status ≠ -ENOSPC := by
    rw [hok]; simp [ENOSPC]
  have hnot := mt hiff.mpr hne
  have hguard : dbn + ((i_blocks / 8 : Nat) : Int) <
      c.EZFS_ROOT_DATABLOCK_NUMBER + c.EZFS_MAX_DATA_BLKS := by
    by_contra hc; exact hnot (Or.inl (by omega))
  have hscan : ¬ (scan_loop c bitmap dbn ((i_blocks / 8 : Nat) : Int) c.EZFS_MAX_DATA_BLKS 0 0).2
      < ((i_blocks / 8 : Nat) : Int) + 1 := fun hc => hnot (Or.inr (Or.inr ⟨hocc, hc⟩))
  obtain ⟨_, hw, _⟩ := scan_loop_success c bitmap dbn ((i_blocks / 8 : Nat) : Int) (by omega) hscan
  rw [ezfs_get_block_relocate c h bitmap dbn i_blocks disk (i_blocks / 8) hn (le_refl _) hguard
    hocc hscan]
  generalize (scan_loop c bitmap dbn ((i_blocks / 8 : Nat) : Int) c.EZFS_MAX_DATA_BLKS 0 0).1 = e
    at hw ⊢
  generalize i_blocks / 8 = n at *
  refine ⟨e - ((n : Int) + 1), ?_, ?_, ?_, ?_, ?_, ?_⟩
  · have : e - ((n : Int) + 1) + n + 1 = e := by omega
    rw [this]; exact hw
  · simp [allocation_success]
  · simp only [allocation_success, Option.some.injEq]; omega
  · intro j hj1 hj2
    simp only [allocation_success, set_bit_apply, mark_loop_apply, move_loop_bitmap]
    by_cases h1 : j = e - 1 + c.EZFS_ROOT_DATABLOCK_NUMBER - c.EZFS_ROOT_DATABLOCK_NUMBER
    · rw [if_pos h1]
    · rw [if_neg h1, if_pos (by omega)]
  · intro j hj1 hj2 hj3
    simp only [allocation_success, set_bit_apply, mark_loop_apply, move_loop_bitmap]
    rw [if_neg (by omega), if_neg (by omega), if_pos (by omega)]
  · intro j hj1 hj2
    simp only [allocation_success, set_bit_apply, mark_loop_apply, move_loop_bitmap]
    rw [if_neg (by omega), if_neg (by omega), if_neg (by omega)]


theorem get_block_relocation_witness :
    ∃ r : Int,
      OkWindow sampleConsts twoFiles 2 ((8 / 8 : Nat) : Int) (r + ((8 / 8 : Nat) : Int) + 1) ∧
      (ezfs_get_block sampleConsts okHost twoFiles 2 8 idDisk (8 / 8) true).dbn =
        r + sampleConsts.EZFS_ROOT_DATABLOCK_NUMBER ∧
      (ezfs_get_block sampleConsts okHost twoFiles 2 8 idDisk (8 / 8) true).mapped =
        some (r + sampleConsts.EZFS_ROOT_DATABLOCK_NUMBER + ((8 / 8 : Nat) : Int)) ∧
      (∀ j : Int, r ≤ j → j < r + ((8 / 8 : Nat) : Int) + 1 →
        (ezfs_get_block sampleConsts okHost twoFiles 2 8 idDisk (8 / 8) true).bitmap j = true) ∧
      (∀ j : Int, 2 - sampleConsts.EZFS_ROOT_DATABLOCK_NUMBER ≤ j →
        j < 2 - sampleConsts.EZFS_ROOT_DATABLOCK_NUMBER + ((8 / 8 : Nat) : Int) →
        ¬ (r ≤ j ∧ j < r + ((8 / 8 : Nat) : Int) + 1) →
        (ezfs_get_block sampleConsts okHost twoFiles 2 8 idDisk (8 / 8) true).bitmap j = false) ∧
      (∀ j : Int, ¬ (r ≤ j ∧ j < r + ((8 / 8 : Nat) : Int) + 1) →
        ¬ (2 - sampleConsts.EZFS_ROOT_DATABLOCK_NUMBER ≤ j ∧
            j < 2 - sampleConsts.EZFS_ROOT_DATABLOCK_NUMBER + ((8 / 8 : Nat) : Int)) →
        (ezfs_get_block sampleConsts okHost twoFiles 2 8 idDisk (8 / 8) true).bitmap j =
          twoFiles j) :=
  get_block_relocation sampleConsts okHost twoFiles 2 8 idDisk (by decide) (by decide) (by decide)

/-- C4: when relocation copies from disk (no page of the file is cached, every
destination buffer is obtained and every source block is read), after
`ezfs_get_block` relocates a file whose extent `[dbn, dbn + nblocks)` starts
in the data area, new block `r + i` (with `r` the new `dbn`) holds the bytes
old block `dbn + i` held before the call, for every `i < nblocks`; the chosen
run may overlap the old extent. -/
theorem relocation_copies_from_disk (c : Consts) (h : Host) (bitmap : Bitmap) (dbn : Int)
    (i_blocks : Nat) (disk : Disk) (block : Nat)
    (hpage : ∀ p, h.find_get_page p = none) (hget : ∀ b, h.sb_getblk b = true)
    (hread : ∀ b, h.sb_bread b = true)
    (hn : 0 < i_blocks / 8) (hdbn : c.EZFS_ROOT_DATABLOCK_NUMBER ≤ dbn)
    (hb : i_blocks / 8 ≤ block)
    (hbit : test_bit (dbn + block - c.EZFS_ROOT_DATABLOCK_NUMBER) bitmap = true)
    (hok : (ezfs_get_block c h bitmap dbn i_blocks disk block true).status = 0)
    (i : Nat) (hi : i < i_blocks / 8) :
    (ezfs_get_block c h bitmap dbn i_blocks disk block true).disk
        ((ezfs_get_block c h bitmap dbn i_blocks disk block true).dbn + i) = disk (dbn + i) := by
  obtain ⟨hiff, _⟩ := ezfs_get_block_extend_status c h bitmap dbn i_blocks disk block hn hb
  have hne : (ezfs_get_block c h bitmap dbn i_blocks disk block true).status ≠ -ENOSPC := by
    rw [hok]; simp [ENOSPC]
  have hnot := mt hiff.mpr hne
  have hguard : dbn + block < c.EZFS_ROOT_DATABLOCK_NUMBER + c.EZFS_MAX_DATA_BLKS := by
    by_contra hc; exact hnot (Or.inl (by omega))
  have hscan : ¬ (scan_loop c bitmap dbn ((i_blocks / 8 : Nat) : Int) c.EZFS_MAX_DATA_BLKS 0 0).2
      < ((i_blocks / 8 : Nat) : Int) + 1 := fun hc => hnot (Or.inr (Or.inr ⟨hbit, hc⟩))
  obtain ⟨_, hw, hmin⟩ :=
    scan_loop_success c bitmap dbn ((i_blocks / 8 : Nat) : Int) (by omega) hscan
  rw [ezfs_get_block_relocate c h bitmap dbn i_blocks disk block hn hb hguard hbit hscan]
  generalize (scan_loop c bitmap dbn ((i_blocks / 8 : Nat) : Int) c.EZFS_MAX_DATA_BLKS 0 0).1 = e
    at hw hmin ⊢
  generalize i_blocks / 8 = n at *
  -- the chosen run starts at or below the old extent, or past its end
  have hpos : e - ((n : Int) + 1) ≤ dbn - c.EZFS_ROOT_DATABLOCK_NUMBER ∨
      dbn - c.EZFS_ROOT_DATABLOCK_NUMBER + n ≤ e - ((n : Int) + 1) := by
    by_contra hcon
    have hw1 := hw.1
    have hw2 := hw.2.1
    have hwin : OkWindow c bitmap dbn n (dbn - c.EZFS_ROOT_DATABLOCK_NUMBER + n + 1) := by
      refine ⟨by omega, by omega, ?_⟩
      intro j hj1 hj2
      by_cases hlast : j = dbn - c.EZFS_ROOT_DATABLOCK_NUMBER + n
      · exact hw.2.2 j (by omega) (by omega)
      · intro hbad
        have := hbad.2
        omega
    have := hmin _ hwin
    omega
  simp only [allocation_success]
  rw [move_loop_disk c h _ _ n bitmap disk hpage hget hread hpos n (le_refl _)]
  rw [if_pos (by omega)]
  congr 1; omega

theorem relocation_copies_from_disk_witness :
    (ezfs_get_block sampleConsts okHost fileAfterGap 3 16 idDisk 2 true).disk
        ((ezfs_get_block sampleConsts okHost fileAfterGap 3 16 idDisk 2 true).dbn + (1 : Nat)) =
      idDisk (3 + (1 : Nat)) :=
  relocation_copies_from_disk sampleConsts okHost fileAfterGap 3 16 idDisk 2
    (fun _ => rfl) (fun _ => rfl) (fun _ => rfl) (by decide) (by decide) (by decide)
    (by decide) (by decide) 1 (by decide)

/-- C5, as stated, fails on two inputs.  A one-block file at bit index 2 whose
next block is occupied, with only bit 1 clear: the call succeeds although no
two clear bits are contiguous.  A one-block file in the last block of the data
area, every block but the first free: the call fails with `ENOSPC` although a
run of two clear bits exists. -/
theorem nospc_iff_no_free_run_counterexample :
    (0 < 8 / 8 ∧
      test_bit (4 + ((8 / 8 : Nat) : Int) - sampleConsts.EZFS_ROOT_DATABLOCK_NUMBER) allButSecond
        = true ∧
      ¬ ((ezfs_get_block sampleConsts okHost allButSecond 4 8 idDisk (8 / 8) true).status = -ENOSPC ↔
          ¬ ∃ r : Int, FreeRun sampleConsts allButSecond (((8 / 8 : Nat) : Int) + 1) r)) ∧
    (0 < 8 / 8 ∧
      sampleConsts.EZFS_ROOT_DATABLOCK_NUMBER + (sampleConsts.EZFS_MAX_DATA_BLKS : Int) ≤
        17 + ((8 / 8 : Nat) : Int) ∧
      ¬ ((ezfs_get_block sampleConsts okHost firstAndLast 17 8 idDisk (8 / 8) true).status = -ENOSPC ↔
          ¬ ∃ r : Int, FreeRun sampleConsts firstAndLast (((8 / 8 : Nat) : Int) + 1) r)) := by
  refine ⟨⟨by decide, by decide, ?_⟩, ⟨by decide, by decide, ?_⟩⟩
  · have hs : (ezfs_get_block sampleConsts okHost allButSecond 4 8 idDisk (8 / 8) true).status = 0 := by
      decide
    rw [hs]
    intro hiff
    have hno : ¬ ∃ r : Int, FreeRun sampleConsts allButSecond (((8 / 8 : Nat) : Int) + 1) r := by
      rintro ⟨r, _, _, h2⟩
      have ha := h2 r (le_refl _) (by norm_num)
      have hb := h2 (r + 1) (by omega) (by norm_num)
      simp only [allButSecond, decide_eq_false_iff_not, not_not] at ha hb
      omega
    have := hiff.mpr hno
    simp [ENOSPC] at this
  · have hs : (ezfs_get_block sampleConsts okHost firstAndLast 17 8 idDisk (8 / 8) true).status =
        -ENOSPC := by decide
    intro hiff
    apply hiff.mp hs
    refine ⟨1, by decide, by decide, ?_⟩
    intro j hj1 hj2
    simp only [firstAndLast, decide_eq_false_iff_not]
    norm_num at hj2
    omega

/-- C5, amended: for a file with `nblocks > 0` extended at logical block
`nblocks` with `create` set, when the block following its extent is occupied
or lies at or past `ROOT_DATABLOCK_NUMBER + MAX_DATA_BLKS`, `ezfs_get_block`
fails with `ENOSPC` if and only if that block lies at or past
`ROOT_DATABLOCK_NUMBER + MAX_DATA_BLKS` or the bitmap has no window of
`nblocks + 1` contiguous blocks each of which is free or one of the file's
own blocks. -/
theorem get_block_nospc_iff (c : Consts) (h : Host) (bitmap : Bitmap) (dbn : Int)
    (i_blocks : Nat) (disk : Disk)
    (hn : 0 < i_blocks / 8)
    (hprem : c.EZFS_ROOT_DATABLOCK_NUMBER + (c.EZFS_MAX_DATA_BLKS : Int) ≤
          dbn + ((i_blocks / 8 : Nat) : Int) ∨
        test_bit (dbn + ((i_blocks / 8 : Nat) : Int) - c.EZFS_ROOT_DATABLOCK_NUMBER) bitmap = true) :
    (ezfs_get_block c h bitmap dbn i_blocks disk (i_blocks / 8) true).status = -ENOSPC ↔
      (c.EZFS_ROOT_DATABLOCK_NUMBER + (c.EZFS_MAX_DATA_BLKS : Int) ≤
          dbn + ((i_blocks / 8 : Nat) : Int) ∨
        ¬ ∃ e : Int, OkWindow c bitmap dbn ((i_blocks / 8 : Nat) : Int) e) := by
  obtain ⟨hiff, _⟩ := ezfs_get_block_extend_status c h bitmap dbn i_blocks disk (i_blocks / 8)
    hn (le_refl _)
  rw [hiff]
  constructor
  · rintro (hg | hf | ⟨_, hs⟩)
    · exact Or.inl hg
    · right
      rintro ⟨e, hw⟩
      have := find_first_zero_bit_lt_of_window c bitmap dbn _ e (by omega) hw
      omega
    · right
      rintro ⟨e, hw⟩
      exact scan_loop_failure c bitmap dbn _ (by omega) hs e hw
  · rintro (hg | hno)
    · exact Or.inl hg
    · rcases hprem with hg | hbit
      · exact Or.inl hg
      · right; right
        refine ⟨hbit, ?_⟩
        by_contra hs
        exact hno ⟨_, (scan_loop_success c bitmap dbn _ (by omega) hs).2.1⟩

theorem get_block_nospc_iff_witness :
    (ezfs_get_block sampleConsts okHost allButSecond 4 8 idDisk (8 / 8) true).status = -ENOSPC ↔
      (sampleConsts.EZFS_ROOT_DATABLOCK_NUMBER + (sampleConsts.EZFS_MAX_DATA_BLKS : Int) ≤
          4 + ((8 / 8 : Nat) : Int) ∨
        ¬ ∃ e : Int, OkWindow sampleConsts allButSecond 4 ((8 / 8 : Nat) : Int) e) :=
  get_block_nospc_iff sampleConsts okHost allButSecond 4 8 idDisk (by decide)
    (Or.inr (by decide))

/-- C6, evaluated: two one-block files at blocks 2 and 3 (bits 0 and 1), every
other block free; the second file (`dbn = 3`) is written at logical block 2.
The candidate `dbn + nblocks` is block 4 (bit 2, clear, inside the data
area), yet the call maps block 5 and sets bit 3, leaving the candidate's bit
clear. -/
theorem get_block_past_end_skips_candidate :
    test_bit (3 + ((8 / 8 : Nat) : Int) - sampleConsts.EZFS_ROOT_DATABLOCK_NUMBER) twoFiles
        = false ∧
      3 + ((8 / 8 : Nat) : Int) <
        sampleConsts.EZFS_ROOT_DATABLOCK_NUMBER + (sampleConsts.EZFS_MAX_DATA_BLKS : Int) ∧
      (ezfs_get_block sampleConsts okHost twoFiles 3 8 idDisk 2 true).status = 0 ∧
      (ezfs_get_block sampleConsts okHost twoFiles 3 8 idDisk 2 true).mapped = some 5 ∧
      (ezfs_get_block sampleConsts okHost twoFiles 3 8 idDisk 2 true).bitmap 2 = false ∧
      twoFiles 3 = false ∧
      (ezfs_get_block sampleConsts okHost twoFiles 3 8 idDisk 2 true).bitmap 3 = true := by
  decide

/-- C7: if every live inode's extent bits are set, the extents of distinct live
inodes are disjoint and every set data-block bit lies in exactly one live
inode's extent, then after a successful `ezfs_get_block(inode, nblocks, 1)`
on a live inode followed by its block count growing to `nblocks + 1`, the
three conditions hold again; the proof covers first allocation, in-place
extension and relocation. -/
theorem get_block_preserves_extent_invariants (c : Consts) (h : Host) (x : Extents)
    (bitmap : Bitmap) (disk : Disk) (k : Int) (i_blocks' : Nat)
    (hlive : Live c x k)
    (h1 : ExtentBitsSet c x bitmap) (h2 : ExtentsDisjoint c x) (h3 : SetBitsOwned c x bitmap)
    (hok : (ezfs_get_block c h bitmap (x.dbn k) (x.i_blocks k) disk (x.i_blocks k / 8)
      true).status = 0)
    (hgrow : i_blocks' / 8 = x.i_blocks k / 8 + 1) :
    ExtentBitsSet c
        (x.update k
          (ezfs_get_block c h bitmap (x.dbn k) (x.i_blocks k) disk (x.i_blocks k / 8) true).dbn
          i_blocks')
        (ezfs_get_block c h bitmap (x.dbn k) (x.i_blocks k) disk (x.i_blocks k / 8) true).bitmap ∧
      ExtentsDisjoint c
        (x.update k
          (ezfs_get_block c h bitmap (x.dbn k) (x.i_blocks k) disk (x.i_blocks k / 8) true).dbn
          i_blocks') ∧
      SetBitsOwned c
        (x.update k
          (ezfs_get_block c h bitmap (x.dbn k) (x.i_blocks k) disk (x.i_blocks k / 8) true).dbn
          i_blocks')
        (ezfs_get_block c h bitmap (x.dbn k) (x.i_blocks k) disk (x.i_blocks k / 8) true).bitmap := by
  have hown : ∀ j : Int, InExtent c x k j → 0 ≤ j ∧ j < c.EZFS_MAX_DATA_BLKS ∧ bitmap j = true :=
    fun j hj => h1 k j hlive hj
  have hdbn : 0 < x.i_blocks k / 8 → c.EZFS_ROOT_DATABLOCK_NUMBER ≤ x.dbn k := by
    intro hpos
    have := (hown (x.dbn k - c.EZFS_ROOT_DATABLOCK_NUMBER) ⟨le_refl _, by omega⟩).1
    omega
  obtain ⟨r, hw, hd, _, hbm⟩ := get_block_extend_shape c h bitmap (x.dbn k) (x.i_blocks k) disk
    hdbn (fun j hj1 hj2 => (hown j ⟨hj1, hj2⟩).2.2) hok
  rw [hd]
  generalize (ezfs_get_block c h bitmap (x.dbn k) (x.i_blocks k) disk (x.i_blocks k / 8)
    true).bitmap = bitmap' at hbm
  -- the new extent of inode `k` is the window `[r, r + nblocks + 1)`
  have hself : ∀ j : Int, InExtent c (x.update k (r + c.EZFS_ROOT_DATABLOCK_NUMBER) i_blocks') k j ↔
      r ≤ j ∧ j < r + ((x.i_blocks k / 8 : Nat) : Int) + 1 := by
    intro j
    rw [inExtent_update_self, hgrow]
    push_cast
    constructor <;> intro hh <;> omega
  -- no block of the window belongs to another live inode
  have hfresh : ∀ l j : Int, Live c x l → l ≠ k → InExtent c x l j →
      ¬ (r ≤ j ∧ j < r + ((x.i_blocks k / 8 : Nat) : Int) + 1) := by
    intro l j hl hlk hin hwin
    have hbit := (h1 l j hl hin).2.2
    have hokj := hw.2.2 j (by omega) (by omega)
    have hink : InExtent c x k j := by
      unfold InExtent
      by_contra hnot
      apply hokj
      refine ⟨hbit, ?_⟩
      omega
    exact h2 k l j hlive hl (Ne.symm hlk) ⟨hink, hin⟩
  refine ⟨?_, ?_, ?_⟩
  · intro l j hl hin
    rw [live_update] at hl
    by_cases hlk : l = k
    · subst hlk
      rw [hself] at hin
      have hw1 := hw.1
      have hw2 := hw.2.1
      refine ⟨by omega, by omega, ?_⟩
      rw [hbm, if_pos hin]
    · rw [inExtent_update_other c x k l j _ _ hlk] at hin
      obtain ⟨hj0, hj1, hjb⟩ := h1 l j hl hin
      refine ⟨hj0, hj1, ?_⟩
      rw [hbm, if_neg (hfresh l j hl hlk hin), if_neg, hjb]
      intro hink
      exact h2 k l j hlive hl (Ne.symm hlk) ⟨hink, hin⟩
  · intro l m j hl hm hlm hboth
    rw [live_update] at hl hm
    by_cases hlk : l = k
    · subst hlk
      have hmk : m ≠ l := Ne.symm hlm
      rw [hself, inExtent_update_other c x l m j _ _ hmk] at hboth
      exact hfresh m j hm hmk hboth.2 hboth.1
    · by_cases hmk : m = k
      · subst hmk
        rw [hself, inExtent_update_other c x m l j _ _ hlk] at hboth
        exact hfresh l j hl hlk hboth.1 hboth.2
      · rw [inExtent_update_other c x k l j _ _ hlk,
          inExtent_update_other c x k m j _ _ hmk] at hboth
        exact h2 l m j hl hm hlm hboth
  · intro j hj0 hj1 hjb
    rw [hbm] at hjb
    by_cases hwin : r ≤ j ∧ j < r + ((x.i_blocks k / 8 : Nat) : Int) + 1
    · refine ⟨k, ⟨hlive, (hself j).mpr hwin⟩, ?_⟩
      rintro m ⟨hm, hmin⟩
      by_contra hmk
      rw [inExtent_update_other c x k m j _ _ hmk] at hmin
      exact hfresh m j hm hmk hmin hwin
    · rw [if_neg hwin] at hjb
      have hnk : ¬ InExtent c x k j := by
        intro hink
        unfold InExtent at hink
        rw [if_pos hink] at hjb
        exact Bool.false_ne_true hjb
      unfold InExtent at hnk
      rw [if_neg hnk] at hjb
      obtain ⟨l, ⟨hl, hlin⟩, huniq⟩ := h3 j hj0 hj1 hjb
      have hlk : l ≠ k := by
        rintro rfl
        exact hnk hlin
      refine ⟨l, ⟨hl, (inExtent_update_other c x k l j _ _ hlk).mpr hlin⟩, ?_⟩
      rintro m ⟨hm, hmin⟩
      by_cases hmk : m = k
      · subst hmk
        exact absurd ((hself j).mp hmin) hwin
      · rw [inExtent_update_other c x k m j _ _ hmk] at hmin
        exact huniq m ⟨hm, hmin⟩


theorem get_block_preserves_extent_invariants_witness :
    ExtentBitsSet sampleConsts
        (twoFileExtents.update 0
          (ezfs_get_block sampleConsts okHost twoFiles (twoFileExtents.dbn 0)
            (twoFileExtents.i_blocks 0) idDisk (twoFileExtents.i_blocks 0 / 8) true).dbn 16)
        (ezfs_get_block sampleConsts okHost twoFiles (twoFileExtents.dbn 0)
          (twoFileExtents.i_blocks 0) idDisk (twoFileExtents.i_blocks 0 / 8) true).bitmap ∧
      ExtentsDisjoint sampleConsts
        (twoFileExtents.update 0
          (ezfs_get_block sampleConsts okHost twoFiles (twoFileExtents.dbn 0)
            (twoFileExtents.i_blocks 0) idDisk (twoFileExtents.i_blocks 0 / 8) true).dbn 16) ∧
      SetBitsOwned sampleConsts
        (twoFileExtents.update 0
          (ezfs_get_block sampleConsts okHost twoFiles (twoFileExtents.dbn 0)
            (twoFileExtents.i_blocks 0) idDisk (twoFileExtents.i_blocks 0 / 8) true).dbn 16)
        (ezfs_get_block sampleConsts okHost twoFiles (twoFileExtents.dbn 0)
          (twoFileExtents.i_blocks 0) idDisk (twoFileExtents.i_blocks 0 / 8) true).bitmap :=
  get_block_preserves_extent_invariants sampleConsts okHost twoFileExtents twoFiles idDisk 0 16
    (by decide) twoFileExtents_bitsSet twoFileExtents_disjoint twoFileExtents_owned
    (by decide) (by decide)


/-- C8, evaluated: the root directory of the sample image has the free inode 7
and no entry `x`; its first inactive slot (slot 2) still holds the bytes of
an old name `old`.  `create(dir, "x")` succeeds and stores `x` over the first
byte only, so the slot's filename reads `xld`, not `x` followed by NUL, and
`lookup(dir, "x")` on the result misses. -/
theorem create_over_stale_slot_not_found :
    ezfs_lookup sampleConsts okNsHost staleSlotImage rootInode [120] = some LookupResult.negative ∧
      staleSlotImage.free_inodes 6 = false ∧
      (staleSlotImage.blocks 2 2).active = 0 ∧
      (ezfs_create sampleConsts okNsHost staleSlotImage rootInode [120] 0o644 false).ret = 0 ∧
      ((ezfs_create sampleConsts okNsHost staleSlotImage rootInode [120] 0o644 false).st.blocks
          2 2).active = 1 ∧
      ((ezfs_create sampleConsts okNsHost staleSlotImage rootInode [120] 0o644 false).st.blocks
          2 2).inode_no = 7 ∧
      ((ezfs_create sampleConsts okNsHost staleSlotImage rootInode [120] 0o644 false).st.blocks
          2 2).filename = [120, 108, 100, 0, 0, 0, 0, 0, 0, 0, 0, 0, 0, 0, 0, 0] ∧
      ezfs_lookup sampleConsts okNsHost
          (ezfs_create sampleConsts okNsHost staleSlotImage rootInode [120] 0o644 false).st
          (ezfs_create sampleConsts okNsHost staleSlotImage rootInode [120] 0o644 false).dir
          [120] = some LookupResult.negative := by
  decide

/-- C9: whenever `create` or `mkdir` fails (returns an error), the volume (the
directory slots of every block, both bitmaps and the inode table) and the
parent's in-memory inode, with its link count, are exactly as before the
call. -/
theorem create_failure_changes_nothing (c : Consts) (h : NsHost) (st : FsState) (dir : inode)
    (name : List Nat) (mode : Nat) (excl : Bool) (mkdir : Bool)
    (hfail : (if mkdir then ezfs_mkdir c h st dir name mode
      else ezfs_create c h st dir name mode excl).ret ≠ 0) :
    (if mkdir then ezfs_mkdir c h st dir name mode
        else ezfs_create c h st dir name mode excl).st = st ∧
      (if mkdir then ezfs_mkdir c h st dir name mode
        else ezfs_create c h st dir name mode excl).dir = dir := by
  have key : ∀ m : Nat, (create_inode_helper c h st dir name m false).ret ≠ 0 →
      (create_inode_helper c h st dir name m false).st = st ∧
        (create_inode_helper c h st dir name m false).dir = dir := by
    intro m
    unfold create_inode_helper
    simp only []
    split_ifs <;> first | (intro _; exact ⟨rfl, rfl⟩) | (intro hne; exact absurd rfl hne)
  cases mkdir
  · exact key mode hfail
  · exact key (mode ||| S_IFDIR) hfail


theorem create_failure_changes_nothing_witness :
    (if true then ezfs_mkdir sampleConsts okNsHost fullImage rootInode [100] 0o755
        else ezfs_create sampleConsts okNsHost fullImage rootInode [100] 0o755 true).st =
        fullImage ∧
      (if true then ezfs_mkdir sampleConsts okNsHost fullImage rootInode [100] 0o755
        else ezfs_create sampleConsts okNsHost fullImage rootInode [100] 0o755 true).dir =
        rootInode :=
  create_failure_changes_nothing sampleConsts okNsHost fullImage rootInode [100] 0o755 true true
    (by decide)

/-- C10, as stated, fails: in a directory whose slots 0 and 1 are both active
under the name `a`, `unlink(dir, "a")` succeeds and a second `unlink(dir, "a")`
succeeds again (returns 0) instead of returning `ENOENT`. -/
theorem unlink_twice_duplicate_name :
    unlink_twice sampleConsts okNsHost duplicateNameImage rootInode [97]
        (ezfs_iget sampleConsts duplicateNameImage 2) = some (0, 0) ∧
      (0 : Int) ≠ -ENOENT := by
  decide

/-- C10, amended: for every directory state in which at most one active slot
carries the name, after an `unlink(dir, name)` that succeeds, a second
`unlink(dir, name)` returns `ENOENT`. -/
theorem unlink_twice_not_found (c : Consts) (h : NsHost) (st : FsState) (dir : inode)
    (name : List Nat) (target : inode)
    (huniq : UniqueName c
      (st.blocks (st.inode_store (dir.i_ino - c.EZFS_ROOT_INODE_NUMBER)).dbn) name)
    (hfirst : ∃ r1, ezfs_unlink c h st dir name target = some r1 ∧ r1.ret = 0) :
    unlink_twice c h st dir name target = some (0, -ENOENT) := by
  obtain ⟨r1, h1, hret⟩ := hfirst
  unfold unlink_twice
  rw [h1]
  simp only []
  unfold ezfs_unlink at h1
  simp only [] at h1
  by_cases hread : h.sb_bread (st.inode_store (dir.i_ino - c.EZFS_ROOT_INODE_NUMBER)).dbn = true
  · simp only [hread, Bool.not_true, Bool.false_eq_true, if_false] at h1
    cases hde : deactivate_dir_entry c
        (st.blocks (st.inode_store (dir.i_ino - c.EZFS_ROOT_INODE_NUMBER)).dbn) name with
    | none => rw [hde] at h1; simp at h1
    | some res =>
      obtain ⟨result, blk⟩ := res
      rw [hde] at h1
      by_cases hres : result = 0
      · subst hres
        simp only [ne_eq, not_true_eq_false, if_false, Option.some.injEq] at h1
        rw [← h1] at hret
        simp [ENOENT] at hret
      · simp only [ne_eq, hres, not_false_eq_true, if_true, Option.some.injEq] at h1
        obtain ⟨k, _, hk2, hk3, hk4, _, hk6, hk7⟩ :=
          deactivate_from_hit c name c.EZFS_MAX_CHILDREN 0 _ blk result hde hres
        -- the second scan finds no active slot that compares equal
        have hmiss : deactivate_dir_entry c blk name = some (0, blk) := by
          apply deactivate_from_miss
          intro m _ hm
          rw [hk6]
          by_cases hmk : m = k
          · left; simp [DirBlock.store, hmk, zero_dir_entry]
          · simp only [DirBlock.store, if_neg hmk]
            by_cases hact : (st.blocks (st.inode_store
                (dir.i_ino - c.EZFS_ROOT_INODE_NUMBER)).dbn m).active = 0
            · exact Or.inl hact
            · exact Or.inr (huniq k hk2 m hm hk3 hk4 hact (Ne.symm hmk))
        subst h1
        simp only [update_inode_metadata, drop_nlink]
        unfold ezfs_unlink
        simp [hread, hmiss]
  · simp only [hread, Bool.not_false, if_true, Option.some.injEq] at h1
    rw [← h1] at hret
    simp [EIO_errno] at hret

theorem unlink_twice_not_found_witness :
    unlink_twice sampleConsts okNsHost sampleImage rootInode
        [104, 101, 108, 108, 111, 46, 116, 120, 116] (ezfs_iget sampleConsts sampleImage 2) =
      some (0, -ENOENT) :=
  unlink_twice_not_found sampleConsts okNsHost sampleImage rootInode
    [104, 101, 108, 108, 111, 46, 116, 120, 116] (ezfs_iget sampleConsts sampleImage 2)
    (by
      intro i hi j hj
      have hi4 : i < 4 := hi
      have hj4 : j < 4 := hj
      interval_cases i <;> interval_cases j <;> decide)
    ⟨_, rfl, by decide⟩


/-- C11: for every in-memory inode with `nlink > 0`: `ezfs_write_inode` stores
its mode, size, nlink, times, uid, gid and block count (`i_blocks / 8`) in
record `R`, record number `i_ino - ROOT_INODE_NUMBER`, keeps the `dbn` of
that record and changes no other record; the eviction that follows changes
nothing on the volume; `ezfs_iget` then materialises an inode whose mode,
size, nlink, times, uid, gid and block count equal those of `R`, whose record
still carries the `dbn` of `R`, and which is the inode that was written, with
`i_blocks` a whole number of blocks; and writing that inode back leaves the
record equal to `R`. -/
theorem write_evict_iget_roundtrip (c : Consts) (st : FsState) (i : inode)
    (sync_all not_uptodate sync_all' not_uptodate' : Bool) (hnlink : 0 < i.i_nlink) :
    written_and_evicted c st i sync_all not_uptodate =
        (ezfs_write_inode c st i sync_all not_uptodate).2 ∧
      (rematerialised c st i sync_all not_uptodate).i_mode =
        ((ezfs_write_inode c st i sync_all not_uptodate).2.inode_store
          (i.i_ino - c.EZFS_ROOT_INODE_NUMBER)).mode ∧
      (rematerialised c st i sync_all not_uptodate).i_size =
        ((ezfs_write_inode c st i sync_all not_uptodate).2.inode_store
          (i.i_ino - c.EZFS_ROOT_INODE_NUMBER)).file_size ∧
      (rematerialised c st i sync_all not_uptodate).i_nlink =
        ((ezfs_write_inode c st i sync_all not_uptodate).2.inode_store
          (i.i_ino - c.EZFS_ROOT_INODE_NUMBER)).nlink ∧
      (rematerialised c st i sync_all not_uptodate).i_atime =
        ((ezfs_write_inode c st i sync_all not_uptodate).2.inode_store
          (i.i_ino - c.EZFS_ROOT_INODE_NUMBER)).i_atime ∧
      (rematerialised c st i sync_all not_uptodate).i_mtime =
        ((ezfs_write_inode c st i sync_all not_uptodate).2.inode_store
          (i.i_ino - c.EZFS_ROOT_INODE_NUMBER)).i_mtime ∧
      (rematerialised c st i sync_all not_uptodate).i_ctime =
        ((ezfs_write_inode c st i sync_all not_uptodate).2.inode_store
          (i.i_ino - c.EZFS_ROOT_INODE_NUMBER)).i_ctime ∧
      (rematerialised c st i sync_all not_uptodate).i_uid =
        ((ezfs_write_inode c st i sync_all not_uptodate).2.inode_store
          (i.i_ino - c.EZFS_ROOT_INODE_NUMBER)).uid ∧
      (rematerialised c st i sync_all not_uptodate).i_gid =
        ((ezfs_write_inode c st i sync_all not_uptodate).2.inode_store
          (i.i_ino - c.EZFS_ROOT_INODE_NUMBER)).gid ∧
      (rematerialised c st i sync_all not_uptodate).i_blocks / 8 =
        ((ezfs_write_inode c st i sync_all not_uptodate).2.inode_store
          (i.i_ino - c.EZFS_ROOT_INODE_NUMBER)).nblocks ∧
      ((written_and_evicted c st i sync_all not_uptodate).inode_store
          ((rematerialised c st i sync_all not_uptodate).i_ino - c.EZFS_ROOT_INODE_NUMBER)).dbn =
        ((ezfs_write_inode c st i sync_all not_uptodate).2.inode_store
          (i.i_ino - c.EZFS_ROOT_INODE_NUMBER)).dbn ∧
      (ezfs_write_inode c (written_and_evicted c st i sync_all not_uptodate)
          (rematerialised c st i sync_all not_uptodate) sync_all' not_uptodate').2.inode_store
          (i.i_ino - c.EZFS_ROOT_INODE_NUMBER) =
        (ezfs_write_inode c st i sync_all not_uptodate).2.inode_store
          (i.i_ino - c.EZFS_ROOT_INODE_NUMBER) ∧
      ((ezfs_write_inode c st i sync_all not_uptodate).2.inode_store
          (i.i_ino - c.EZFS_ROOT_INODE_NUMBER)).mode = i.i_mode ∧
      ((ezfs_write_inode c st i sync_all not_uptodate).2.inode_store
          (i.i_ino - c.EZFS_ROOT_INODE_NUMBER)).file_size = i.i_size ∧
      ((ezfs_write_inode c st i sync_all not_uptodate).2.inode_store
          (i.i_ino - c.EZFS_ROOT_INODE_NUMBER)).nlink = i.i_nlink ∧
      ((ezfs_write_inode c st i sync_all not_uptodate).2.inode_store
          (i.i_ino - c.EZFS_ROOT_INODE_NUMBER)).i_atime = i.i_atime ∧
      ((ezfs_write_inode c st i sync_all not_uptodate).2.inode_store
          (i.i_ino - c.EZFS_ROOT_INODE_NUMBER)).i_mtime = i.i_mtime ∧
      ((ezfs_write_inode c st i sync_all not_uptodate).2.inode_store
          (i.i_ino - c.EZFS_ROOT_INODE_NUMBER)).i_ctime = i.i_ctime ∧
      ((ezfs_write_inode c st i sync_all not_uptodate).2.inode_store
          (i.i_ino - c.EZFS_ROOT_INODE_NUMBER)).uid = i.i_uid ∧
      ((ezfs_write_inode c st i sync_all not_uptodate).2.inode_store
          (i.i_ino - c.EZFS_ROOT_INODE_NUMBER)).gid = i.i_gid ∧
      ((ezfs_write_inode c st i sync_all not_uptodate).2.inode_store
          (i.i_ino - c.EZFS_ROOT_INODE_NUMBER)).nblocks = i.i_blocks / 8 ∧
      ((ezfs_write_inode c st i sync_all not_uptodate).2.inode_store
          (i.i_ino - c.EZFS_ROOT_INODE_NUMBER)).dbn =
        (st.inode_store (i.i_ino - c.EZFS_ROOT_INODE_NUMBER)).dbn ∧
      (∀ k : Int, k ≠ i.i_ino - c.EZFS_ROOT_INODE_NUMBER →
        (ezfs_write_inode c st i sync_all not_uptodate).2.inode_store k = st.inode_store k) ∧
      rematerialised c st i sync_all not_uptodate = { i with i_blocks := i.i_blocks / 8 * 8 } := by
  have hne : i.i_nlink ≠ 0 := by omega
  have hev : written_and_evicted c st i sync_all not_uptodate =
      (ezfs_write_inode c st i sync_all not_uptodate).2 := by
    simp [written_and_evicted, ezfs_evict_inode, hne]
  refine ⟨hev, ?_⟩
  simp only [rematerialised, hev]
  simp [ezfs_iget, ezfs_write_inode, ezfs_update_inode_from_vfs]
  intro k hk heq
  exact absurd heq hk

theorem write_evict_iget_roundtrip_witness :
    written_and_evicted sampleConsts sampleImage sampleFileInode true false =
        (ezfs_write_inode sampleConsts sampleImage sampleFileInode true false).2 ∧
      (rematerialised sampleConsts sampleImage sampleFileInode true false).i_mode =
        ((ezfs_write_inode sampleConsts sampleImage sampleFileInode true false).2.inode_store
          (sampleFileInode.i_ino - sampleConsts.EZFS_ROOT_INODE_NUMBER)).mode ∧
      (rematerialised sampleConsts sampleImage sampleFileInode true false).i_size =
        ((ezfs_write_inode sampleConsts sampleImage sampleFileInode true false).2.inode_store
          (sampleFileInode.i_ino - sampleConsts.EZFS_ROOT_INODE_NUMBER)).file_size ∧
      (rematerialised sampleConsts sampleImage sampleFileInode true false).i_nlink =
        ((ezfs_write_inode sampleConsts sampleImage sampleFileInode true false).2.inode_store
          (sampleFileInode.i_ino - sampleConsts.EZFS_ROOT_INODE_NUMBER)).nlink ∧
      (rematerialised sampleConsts sampleImage sampleFileInode true false).i_atime =
        ((ezfs_write_inode sampleConsts sampleImage sampleFileInode true false).2.inode_store
          (sampleFileInode.i_ino - sampleConsts.EZFS_ROOT_INODE_NUMBER)).i_atime ∧
      (rematerialised sampleConsts sampleImage sampleFileInode true false).i_mtime =
        ((ezfs_write_inode sampleConsts sampleImage sampleFileInode true false).2.inode_store
          (sampleFileInode.i_ino - sampleConsts.EZFS_ROOT_INODE_NUMBER)).i_mtime ∧
      (rematerialised sampleConsts sampleImage sampleFileInode true false).i_ctime =
        ((ezfs_write_inode sampleConsts sampleImage sampleFileInode true false).2.inode_store
          (sampleFileInode.i_ino - sampleConsts.EZFS_ROOT_INODE_NUMBER)).i_ctime ∧
      (rematerialised sampleConsts sampleImage sampleFileInode true false).i_uid =
        ((ezfs_write_inode sampleConsts sampleImage sampleFileInode true false).2.inode_store
          (sampleFileInode.i_ino - sampleConsts.EZFS_ROOT_INODE_NUMBER)).uid ∧
      (rematerialised sampleConsts sampleImage sampleFileInode true false).i_gid =
        ((ezfs_write_inode sampleConsts sampleImage sampleFileInode true false).2.inode_store
          (sampleFileInode.i_ino - sampleConsts.EZFS_ROOT_INODE_NUMBER)).gid ∧
      (rematerialised sampleConsts sampleImage sampleFileInode true false).i_blocks / 8 =
        ((ezfs_write_inode sampleConsts sampleImage sampleFileInode true false).2.inode_store
          (sampleFileInode.i_ino - sampleConsts.EZFS_ROOT_INODE_NUMBER)).nblocks ∧
      ((written_and_evicted sampleConsts sampleImage sampleFileInode true false).inode_store
          ((rematerialised sampleConsts sampleImage sampleFileInode true false).i_ino - sampleConsts.EZFS_ROOT_INODE_NUMBER)).dbn =
        ((ezfs_write_inode sampleConsts sampleImage sampleFileInode true false).2.inode_store
          (sampleFileInode.i_ino - sampleConsts.EZFS_ROOT_INODE_NUMBER)).dbn ∧
      (ezfs_write_inode sampleConsts (written_and_evicted sampleConsts sampleImage sampleFileInode true false)
          (rematerialised sampleConsts sampleImage sampleFileInode true false) false false).2.inode_store
          (sampleFileInode.i_ino - sampleConsts.EZFS_ROOT_INODE_NUMBER) =
        (ezfs_write_inode sampleConsts sampleImage sampleFileInode true false).2.inode_store
          (sampleFileInode.i_ino - sampleConsts.EZFS_ROOT_INODE_NUMBER) ∧
      ((ezfs_write_inode sampleConsts sampleImage sampleFileInode true false).2.inode_store
          (sampleFileInode.i_ino - sampleConsts.EZFS_ROOT_INODE_NUMBER)).mode = sampleFileInode.i_mode ∧
      ((ezfs_write_inode sampleConsts sampleImage sampleFileInode true false).2.inode_store
          (sampleFileInode.i_ino - sampleConsts.EZFS_ROOT_INODE_NUMBER)).file_size = sampleFileInode.i_size ∧
      ((ezfs_write_inode sampleConsts sampleImage sampleFileInode true false).2.inode_store
          (sampleFileInode.i_ino - sampleConsts.EZFS_ROOT_INODE_NUMBER)).nlink = sampleFileInode.i_nlink ∧
      ((ezfs_write_inode sampleConsts sampleImage sampleFileInode true false).2.inode_store
          (sampleFileInode.i_ino - sampleConsts.EZFS_ROOT_INODE_NUMBER)).i_atime = sampleFileInode.i_atime ∧
      ((ezfs_write_inode sampleConsts sampleImage sampleFileInode true false).2.inode_store
          (sampleFileInode.i_ino - sampleConsts.EZFS_ROOT_INODE_NUMBER)).i_mtime = sampleFileInode.i_mtime ∧
      ((ezfs_write_inode sampleConsts sampleImage sampleFileInode true false).2.inode_store
          (sampleFileInode.i_ino - sampleConsts.EZFS_ROOT_INODE_NUMBER)).i_ctime = sampleFileInode.i_ctime ∧
      ((ezfs_write_inode sampleConsts sampleImage sampleFileInode true false).2.inode_store
          (sampleFileInode.i_ino - sampleConsts.EZFS_ROOT_INODE_NUMBER)).uid = sampleFileInode.i_uid ∧
      ((ezfs_write_inode sampleConsts sampleImage sampleFileInode true false).2.inode_store
          (sampleFileInode.i_ino - sampleConsts.EZFS_ROOT_INODE_NUMBER)).gid = sampleFileInode.i_gid ∧
      ((ezfs_write_inode sampleConsts sampleImage sampleFileInode true false).2.inode_store
          (sampleFileInode.i_ino - sampleConsts.EZFS_ROOT_INODE_NUMBER)).nblocks = sampleFileInode.i_blocks / 8 ∧
      ((ezfs_write_inode sampleConsts sampleImage sampleFileInode true false).2.inode_store
          (sampleFileInode.i_ino - sampleConsts.EZFS_ROOT_INODE_NUMBER)).dbn =
        (sampleImage.inode_store (sampleFileInode.i_ino - sampleConsts.EZFS_ROOT_INODE_NUMBER)).dbn ∧
      (∀ k : Int, k ≠ sampleFileInode.i_ino - sampleConsts.EZFS_ROOT_INODE_NUMBER →
        (ezfs_write_inode sampleConsts sampleImage sampleFileInode true false).2.inode_store k =
          sampleImage.inode_store k) ∧
      rematerialised sampleConsts sampleImage sampleFileInode true false = 
        { sampleFileInode with i_blocks := sampleFileInode.i_blocks / 8 * 8 } :=
  write_evict_iget_roundtrip sampleConsts sampleImage sampleFileInode true false false false
    (by decide)

/-- C12, evaluated: two one-block files at blocks 2 and 3, the first one extended
at logical block 1 on a host where no buffer is obtained and no block is
read.  `ezfs_move_block` returns `-EIO` for the one block to copy, the new
block 4 keeps its old contents, and `ezfs_get_block` still returns 0 with the
file relocated to block 4. -/
theorem get_block_swallows_move_error :
    (ezfs_move_block sampleConsts failingHost 0 0 2 idDisk).1 = -EIO_errno ∧
      (ezfs_get_block sampleConsts failingHost twoFiles 2 8 idDisk 1 true).status = 0 ∧
      (ezfs_get_block sampleConsts failingHost twoFiles 2 8 idDisk 1 true).dbn = 4 ∧
      (ezfs_get_block sampleConsts failingHost twoFiles 2 8 idDisk 1 true).mapped = some 5 ∧
      (ezfs_get_block sampleConsts failingHost twoFiles 2 8 idDisk 1 true).disk 4 = idDisk 4 ∧
      idDisk 4 ≠ idDisk 2 := by
  decide

/-- C13: `ezfs_evict_inode` on an inode with `nlink = 0` clears the inode's bit
`i_ino - ROOT_INODE_NUMBER` of the inode bitmap and the `nblocks` data-block
bits from `dbn - ROOT_DATABLOCK_NUMBER` on, and no other bit of either
bitmap; on an inode with `nlink != 0` it changes neither bitmap. -/
theorem evict_inode_bitmaps (c : Consts) (st : FsState) (i : inode) (j : Int) :
    (ezfs_evict_inode c st i).free_inodes j =
        (if i.i_nlink = 0 ∧ j = i.i_ino - c.EZFS_ROOT_INODE_NUMBER then false
          else st.free_inodes j) ∧
      (ezfs_evict_inode c st i).free_data_blocks j =
        (if i.i_nlink = 0 ∧
            (st.inode_store (i.i_ino - c.EZFS_ROOT_INODE_NUMBER)).dbn -
                c.EZFS_ROOT_DATABLOCK_NUMBER ≤ j ∧
            j < (st.inode_store (i.i_ino - c.EZFS_ROOT_INODE_NUMBER)).dbn -
                c.EZFS_ROOT_DATABLOCK_NUMBER + ((i.i_blocks / 8 : Nat) : Int)
          then false else st.free_data_blocks j) := by
  unfold ezfs_evict_inode
  by_cases hn : i.i_nlink = 0
  · simp only [hn, if_true, true_and, CLEARBIT, release_inode_resources_apply]
  · simp [hn]

/-- C18: for a file with `nblocks = 0` and `create` set (block numbers being
non-negative): if some data block is free, `ezfs_get_block` takes the
lowest-index free bit `b`, sets it and no other bit, sets `dbn` to the block
of `b` and maps that block; if no data block is free it returns `-ENOSPC`
and changes neither the bitmap nor `dbn`. -/
theorem get_block_first_allocation (c : Consts) (h : Host) (bitmap : Bitmap) (dbn : Int)
    (i_blocks : Nat) (disk : Disk) (block : Nat) (hn : i_blocks / 8 = 0)
    (hroot : 0 ≤ c.EZFS_ROOT_DATABLOCK_NUMBER) :
    ((∃ j : Nat, j < c.EZFS_MAX_DATA_BLKS ∧ bitmap (j : Int) = false) →
      ∃ b : Nat, b < c.EZFS_MAX_DATA_BLKS ∧ bitmap (b : Int) = false ∧
        (∀ j : Nat, j < b → bitmap (j : Int) = true) ∧
        (ezfs_get_block c h bitmap dbn i_blocks disk block true).status = 0 ∧
        (ezfs_get_block c h bitmap dbn i_blocks disk block true).mapped =
          some ((b : Int) + c.EZFS_ROOT_DATABLOCK_NUMBER) ∧
        (ezfs_get_block c h bitmap dbn i_blocks disk block true).dbn =
          (b : Int) + c.EZFS_ROOT_DATABLOCK_NUMBER ∧
        ∀ j : Int, (ezfs_get_block c h bitmap dbn i_blocks disk block true).bitmap j =
          if j = (b : Int) then true else bitmap j) ∧
    ((∀ j : Nat, j < c.EZFS_MAX_DATA_BLKS → bitmap (j : Int) = true) →
      (ezfs_get_block c h bitmap dbn i_blocks disk block true).status = -ENOSPC ∧
        (ezfs_get_block c h bitmap dbn i_blocks disk block true).bitmap = bitmap ∧
        (ezfs_get_block c h bitmap dbn i_blocks disk block true).dbn = dbn) := by
  have hle := find_first_zero_bit_le bitmap c.EZFS_MAX_DATA_BLKS
  constructor
  · rintro ⟨j0, hj0, hfree⟩
    have hffz : find_first_zero_bit bitmap c.EZFS_MAX_DATA_BLKS ≠ c.EZFS_MAX_DATA_BLKS := by
      intro heq
      have := (find_first_zero_bit_eq_size_iff bitmap _).mp heq j0 hj0
      rw [hfree] at this
      exact Bool.noConfusion this
    have hlt : find_first_zero_bit bitmap c.EZFS_MAX_DATA_BLKS < c.EZFS_MAX_DATA_BLKS := by
      omega
    rw [ezfs_get_block_first c h bitmap dbn i_blocks disk block hn (by omega) hffz]
    refine ⟨find_first_zero_bit bitmap c.EZFS_MAX_DATA_BLKS, hlt,
      find_first_zero_bit_clear bitmap _ hlt,
      fun j hj => find_first_zero_bit_below bitmap _ j hj, rfl, rfl, rfl, ?_⟩
    intro j
    simp only [allocation_success, set_bit_apply]
    split_ifs <;> first | rfl | (exfalso; omega)
  · intro hall
    have heq := (find_first_zero_bit_eq_size_iff bitmap _).mpr hall
    unfold ezfs_get_block
    rw [hn]
    by_cases hg : c.EZFS_ROOT_DATABLOCK_NUMBER + (c.EZFS_MAX_DATA_BLKS : Int) ≤ 0
    · simp [hg]
    · simp [hg, heq]

theorem get_block_first_allocation_witness :
    ((∃ j : Nat, j < sampleConsts.EZFS_MAX_DATA_BLKS ∧ twoFiles (j : Int) = false) →
      ∃ b : Nat, b < sampleConsts.EZFS_MAX_DATA_BLKS ∧ twoFiles (b : Int) = false ∧
        (∀ j : Nat, j < b → twoFiles (j : Int) = true) ∧
        (ezfs_get_block sampleConsts okHost twoFiles (-1) 0 idDisk 0 true).status = 0 ∧
        (ezfs_get_block sampleConsts okHost twoFiles (-1) 0 idDisk 0 true).mapped =
          some ((b : Int) + sampleConsts.EZFS_ROOT_DATABLOCK_NUMBER) ∧
        (ezfs_get_block sampleConsts okHost twoFiles (-1) 0 idDisk 0 true).dbn =
          (b : Int) + sampleConsts.EZFS_ROOT_DATABLOCK_NUMBER ∧
        ∀ j : Int, (ezfs_get_block sampleConsts okHost twoFiles (-1) 0 idDisk 0 true).bitmap j =
          if j = (b : Int) then true else twoFiles j) ∧
    ((∀ j : Nat, j < sampleConsts.EZFS_MAX_DATA_BLKS → twoFiles (j : Int) = true) →
      (ezfs_get_block sampleConsts okHost twoFiles (-1) 0 idDisk 0 true).status = -ENOSPC ∧
        (ezfs_get_block sampleConsts okHost twoFiles (-1) 0 idDisk 0 true).bitmap = twoFiles ∧
        (ezfs_get_block sampleConsts okHost twoFiles (-1) 0 idDisk 0 true).dbn = -1) :=
  get_block_first_allocation sampleConsts okHost twoFiles (-1) 0 idDisk 0 (by decide)
    (by decide)


/-- C14: a successful `create` of a regular file (a mode without `S_IFDIR`) makes
the record of the first free inode the record of the new inode, with
`dbn = -1`, `nblocks = 0`, `nlink = 1` and size 0, and leaves the parent's
`nlink` as it was; a successful `mkdir` fills that record with `dbn` = the
first free data block, `nblocks = 1`, size `BLOCK_SIZE` and `nlink = 2`,
zeroes that block (every slot of it reads zero afterwards, the slot of the new
entry apart when the block is the parent's own) and raises the parent's
`nlink` by one. -/
theorem create_fills_inode_record (c : Consts) (h : NsHost) (st : FsState) (dir : inode)
    (name : List Nat) (mode : Nat) (excl : Bool) (hnlink : dir.i_nlink + 1 < 2 ^ 32) :
    (mode &&& S_IFDIR = 0 → (ezfs_create c h st dir name mode excl).ret = 0 →
      (∃ ni, (ezfs_create c h st dir name mode excl).new_inode = some ni ∧
        ni.i_ino = find_free_index st.free_inodes c.EZFS_MAX_INODES +
          c.EZFS_ROOT_INODE_NUMBER) ∧
      ((ezfs_create c h st dir name mode excl).st.inode_store
        (find_free_index st.free_inodes c.EZFS_MAX_INODES)).dbn = -1 ∧
      ((ezfs_create c h st dir name mode excl).st.inode_store
        (find_free_index st.free_inodes c.EZFS_MAX_INODES)).nblocks = 0 ∧
      ((ezfs_create c h st dir name mode excl).st.inode_store
        (find_free_index st.free_inodes c.EZFS_MAX_INODES)).nlink = 1 ∧
      ((ezfs_create c h st dir name mode excl).st.inode_store
        (find_free_index st.free_inodes c.EZFS_MAX_INODES)).file_size = 0 ∧
      (ezfs_create c h st dir name mode excl).dir.i_nlink = dir.i_nlink) ∧
    ((ezfs_mkdir c h st dir name mode).ret = 0 →
      (∃ ni, (ezfs_mkdir c h st dir name mode).new_inode = some ni ∧
        ni.i_ino = find_free_index st.free_inodes c.EZFS_MAX_INODES +
          c.EZFS_ROOT_INODE_NUMBER) ∧
      ((ezfs_mkdir c h st dir name mode).st.inode_store
        (find_free_index st.free_inodes c.EZFS_MAX_INODES)).dbn =
          find_free_index st.free_data_blocks c.EZFS_MAX_DATA_BLKS +
            c.EZFS_ROOT_DATABLOCK_NUMBER ∧
      ((ezfs_mkdir c h st dir name mode).st.inode_store
        (find_free_index st.free_inodes c.EZFS_MAX_INODES)).nblocks = 1 ∧
      ((ezfs_mkdir c h st dir name mode).st.inode_store
        (find_free_index st.free_inodes c.EZFS_MAX_INODES)).file_size = c.EZFS_BLOCK_SIZE ∧
      ((ezfs_mkdir c h st dir name mode).st.inode_store
        (find_free_index st.free_inodes c.EZFS_MAX_INODES)).nlink = 2 ∧
      (∀ k : Nat,
        (find_free_index st.free_data_blocks c.EZFS_MAX_DATA_BLKS +
              c.EZFS_ROOT_DATABLOCK_NUMBER ≠
            (st.inode_store (dir.i_ino - c.EZFS_ROOT_INODE_NUMBER)).dbn ∨
          k ≠ first_inactive_slot c
            (st.blocks (st.inode_store (dir.i_ino - c.EZFS_ROOT_INODE_NUMBER)).dbn)
            c.EZFS_MAX_CHILDREN 0) →
        (ezfs_mkdir c h st dir name mode).st.blocks
            (find_free_index st.free_data_blocks c.EZFS_MAX_DATA_BLKS +
              c.EZFS_ROOT_DATABLOCK_NUMBER) k = zero_dir_entry c) ∧
      (ezfs_mkdir c h st dir name mode).dir.i_nlink = dir.i_nlink + 1) := by
  constructor
  · intro hmode hret
    unfold ezfs_create at hret ⊢
    rw [create_inode_helper_ok c h st dir name mode hret]
    simp [create_commit, write_inode_helper, hmode]
  · intro hret
    unfold ezfs_mkdir ezfs_create at hret ⊢
    rw [create_inode_helper_ok c h st dir name (mode ||| S_IFDIR) hret]
    have hdir := mkdir_mode_isdir mode
    have hmod : (dir.i_nlink + 1) % 2 ^ 32 = dir.i_nlink + 1 := Nat.mod_eq_of_lt hnlink
    simp only [create_commit, write_inode_helper, hdir, ne_eq, not_false_eq_true, if_true,
      inc_nlink, hmod, DirBlock.store, zero_dir_block]
    refine ⟨⟨_, rfl, rfl⟩, by simp, by simp, by simp, by simp, ?_, trivial⟩
    intro k hk
    rcases hk with hne | hne
    · simp [hne]; rfl
    · by_cases heq : find_free_index st.free_data_blocks c.EZFS_MAX_DATA_BLKS +
          c.EZFS_ROOT_DATABLOCK_NUMBER =
          (st.inode_store (dir.i_ino - c.EZFS_ROOT_INODE_NUMBER)).dbn
      · rw [if_pos heq, if_pos heq.symm]
        simp [DirBlock.store, hne, zero_dir_block]
      · rw [if_neg heq]; rfl


theorem create_fills_inode_record_witness :
    ((∃ ni, (ezfs_create sampleConsts okNsHost sampleImage rootInode [100] 0o644 false).new_inode = some ni ∧
        ni.i_ino = (find_free_index sampleImage.free_inodes sampleConsts.EZFS_MAX_INODES) + sampleConsts.EZFS_ROOT_INODE_NUMBER) ∧
      ((ezfs_create sampleConsts okNsHost sampleImage rootInode [100] 0o644 false).st.inode_store
        (find_free_index sampleImage.free_inodes sampleConsts.EZFS_MAX_INODES)).dbn = -1 ∧
      ((ezfs_create sampleConsts okNsHost sampleImage rootInode [100] 0o644 false).st.inode_store
        (find_free_index sampleImage.free_inodes sampleConsts.EZFS_MAX_INODES)).nblocks = 0 ∧
      ((ezfs_create sampleConsts okNsHost sampleImage rootInode [100] 0o644 false).st.inode_store
        (find_free_index sampleImage.free_inodes sampleConsts.EZFS_MAX_INODES)).nlink = 1 ∧
      ((ezfs_create sampleConsts okNsHost sampleImage rootInode [100] 0o644 false).st.inode_store
        (find_free_index sampleImage.free_inodes sampleConsts.EZFS_MAX_INODES)).file_size = 0 ∧
      (ezfs_create sampleConsts okNsHost sampleImage rootInode [100] 0o644 false).dir.i_nlink = rootInode.i_nlink) ∧
    ((∃ ni, (ezfs_mkdir sampleConsts okNsHost sampleImage rootInode [100] 0o755).new_inode = some ni ∧
        ni.i_ino = (find_free_index sampleImage.free_inodes sampleConsts.EZFS_MAX_INODES) + sampleConsts.EZFS_ROOT_INODE_NUMBER) ∧
      ((ezfs_mkdir sampleConsts okNsHost sampleImage rootInode [100] 0o755).st.inode_store
        (find_free_index sampleImage.free_inodes sampleConsts.EZFS_MAX_INODES)).dbn =
          (find_free_index sampleImage.free_data_blocks sampleConsts.EZFS_MAX_DATA_BLKS) + sampleConsts.EZFS_ROOT_DATABLOCK_NUMBER ∧
      ((ezfs_mkdir sampleConsts okNsHost sampleImage rootInode [100] 0o755).st.inode_store
        (find_free_index sampleImage.free_inodes sampleConsts.EZFS_MAX_INODES)).nblocks = 1 ∧
      ((ezfs_mkdir sampleConsts okNsHost sampleImage rootInode [100] 0o755).st.inode_store
        (find_free_index sampleImage.free_inodes sampleConsts.EZFS_MAX_INODES)).file_size = sampleConsts.EZFS_BLOCK_SIZE ∧
      ((ezfs_mkdir sampleConsts okNsHost sampleImage rootInode [100] 0o755).st.inode_store
        (find_free_index sampleImage.free_inodes sampleConsts.EZFS_MAX_INODES)).nlink = 2 ∧
      (∀ k : Nat,
        ((find_free_index sampleImage.free_data_blocks sampleConsts.EZFS_MAX_DATA_BLKS) + sampleConsts.EZFS_ROOT_DATABLOCK_NUMBER ≠
            (sampleImage.inode_store (rootInode.i_ino - sampleConsts.EZFS_ROOT_INODE_NUMBER)).dbn ∨
          k ≠ first_inactive_slot sampleConsts
            (sampleImage.blocks (sampleImage.inode_store (rootInode.i_ino - sampleConsts.EZFS_ROOT_INODE_NUMBER)).dbn)
            sampleConsts.EZFS_MAX_CHILDREN 0) →
        (ezfs_mkdir sampleConsts okNsHost sampleImage rootInode [100] 0o755).st.blocks
            ((find_free_index sampleImage.free_data_blocks sampleConsts.EZFS_MAX_DATA_BLKS) + sampleConsts.EZFS_ROOT_DATABLOCK_NUMBER) k =
          zero_dir_entry sampleConsts) ∧
      (ezfs_mkdir sampleConsts okNsHost sampleImage rootInode [100] 0o755).dir.i_nlink = rootInode.i_nlink + 1) :=
  ⟨(create_fills_inode_record sampleConsts okNsHost sampleImage rootInode [100] 0o644 false (by decide)).1
      (by decide) (by decide),
    (create_fills_inode_record sampleConsts okNsHost sampleImage rootInode [100] 0o755 false (by decide)).2
      (by decide)⟩


/-- C20: in the image written by the formatter, exactly the first 6 inode-bitmap
bits and the first 14 data-block-bitmap bits are set; the extents of the six
inode records are pairwise disjoint and a data-block bit lies in one of them
exactly when it is one of the first 14; the root record's `nlink` is 3, that
is 2 plus one, and slot 1 (`subdir`) is the one slot of the root directory
that is an active entry for a directory. -/
theorem format_image_layout (c : Consts) (now pret bret : Nat) :
    (∀ j : Int, (format_image c now pret bret).free_inodes j = decide (0 ≤ j ∧ j < 6)) ∧
      (∀ j : Int, (format_image c now pret bret).free_data_blocks j = decide (0 ≤ j ∧ j < 14)) ∧
      (∀ k l j : Int, 0 ≤ k → k < 6 → 0 ≤ l → l < 6 → k ≠ l →
        ¬ (InRecordExtent c ((format_image c now pret bret).inode_store k) j ∧
            InRecordExtent c ((format_image c now pret bret).inode_store l) j)) ∧
      (∀ j : Int, (0 ≤ j ∧ j < 14) ↔
        ∃ k : Int, 0 ≤ k ∧ k < 6 ∧
          InRecordExtent c ((format_image c now pret bret).inode_store k) j) ∧
      ((format_image c now pret bret).inode_store 0).nlink = 2 + 1 ∧
      (∀ k : Nat,
        IsSubdirSlot c (format_image c now pret bret)
            ((format_image c now pret bret).blocks
              ((format_image c now pret bret).inode_store 0).dbn) k ↔ k = 1) := by
  refine ⟨?_, ?_, ?_, ?_, ?_, ?_⟩
  · intro j
    simp only [format_image, setbit_loop_apply]
    by_cases hj : 0 ≤ j ∧ j < 6
    · rw [if_pos (by push_cast; exact hj)]; simp [hj]
    · rw [if_neg (by push_cast; exact hj)]; simp [hj]
  · intro j
    simp only [format_image, setbit_loop_apply]
    by_cases hj : 0 ≤ j ∧ j < 14
    · rw [if_pos (by push_cast; exact hj)]; simp [hj]
    · rw [if_neg (by push_cast; exact hj)]; simp [hj]
  · intro k l j hk0 hk6 hl0 hl6 hkl
    simp only [format_image, InRecordExtent]
    interval_cases k <;> interval_cases l <;>
      first
      | exact absurd rfl hkl
      | (simp only [format_inode_store, inode_reset]; norm_num; intros; omega)
  · intro j
    simp only [format_image, InRecordExtent]
    constructor
    · rintro ⟨h0, h14⟩
      by_cases h1 : j < 1
      · exact ⟨0, by norm_num, by norm_num, by simp [format_inode_store, inode_reset]; omega⟩
      · by_cases h2 : j < 2
        · exact ⟨1, by norm_num, by norm_num, by simp [format_inode_store, inode_reset]; omega⟩
        · by_cases h3 : j < 3
          · exact ⟨2, by norm_num, by norm_num, by simp [format_inode_store, inode_reset]; omega⟩
          · by_cases h4 : j < 4
            · exact ⟨3, by norm_num, by norm_num,
                by simp [format_inode_store, inode_reset]; omega⟩
            · by_cases h12 : j < 12
              · exact ⟨4, by norm_num, by norm_num,
                  by simp [format_inode_store, inode_reset]; omega⟩
              · exact ⟨5, by norm_num, by norm_num,
                  by simp [format_inode_store, inode_reset]; omega⟩
    · rintro ⟨k, hk0, hk6, hin⟩
      interval_cases k <;> simp [format_inode_store, inode_reset] at hin <;> omega
  · simp [format_image, format_inode_store]
  · intro k
    simp only [format_image, IsSubdirSlot]
    have hroot : (format_inode_store c now pret bret 0).dbn = c.EZFS_ROOT_DATABLOCK_NUMBER := by
      simp [format_inode_store]
    rw [hroot]
    simp only [format_blocks, if_true]
    by_cases h0 : k = 0
    · subst h0
      simp [DirBlock.store, format_dentry, format_inode_store, inode_reset]
      decide
    · by_cases h1 : k = 1
      · subst h1
        simp [DirBlock.store, format_dentry, format_inode_store, inode_reset]
        decide
      · simp [DirBlock.store, h0, h1, zero_dir_block, zero_dir_entry]


/-- C17: `unlink(dir, name)`, when the directory block is read and every
comparison ends inside its filename buffer: if some active slot's filename
equals `name`, the first such slot is zeroed in full, every other slot of
every block is unchanged, the link count of the entry's inode (at least one
before) drops by one, the parent's link count stays and 0 is returned;
otherwise the volume and both inodes are unchanged and `-ENOENT` is
returned. -/
theorem unlink_first_match_or_not_found (c : Consts) (h : NsHost) (st : FsState) (dir : inode)
    (name : List Nat) (target : inode)
    (hread : h.sb_bread (st.inode_store (dir.i_ino - c.EZFS_ROOT_INODE_NUMBER)).dbn = true)
    (hdef : ComparesInside c
      (st.blocks (st.inode_store (dir.i_ino - c.EZFS_ROOT_INODE_NUMBER)).dbn) name)
    (hn0 : 0 < target.i_nlink) (hn1 : target.i_nlink < 2 ^ 32) :
    ((∃ k, NameAt c (st.blocks (st.inode_store (dir.i_ino - c.EZFS_ROOT_INODE_NUMBER)).dbn)
        name k) →
      ∃ k r,
        NameAt c (st.blocks (st.inode_store (dir.i_ino - c.EZFS_ROOT_INODE_NUMBER)).dbn) name k ∧
        (∀ m, m < k →
          ¬ NameAt c (st.blocks (st.inode_store (dir.i_ino - c.EZFS_ROOT_INODE_NUMBER)).dbn)
            name m) ∧
        ezfs_unlink c h st dir name target = some r ∧ r.ret = 0 ∧
        r.st.blocks (st.inode_store (dir.i_ino - c.EZFS_ROOT_INODE_NUMBER)).dbn k =
          zero_dir_entry c ∧
        (∀ (b : Int) (m : Nat),
          b ≠ (st.inode_store (dir.i_ino - c.EZFS_ROOT_INODE_NUMBER)).dbn ∨ m ≠ k →
          r.st.blocks b m = st.blocks b m) ∧
        r.st.free_inodes = st.free_inodes ∧ r.st.free_data_blocks = st.free_data_blocks ∧
        r.st.inode_store = st.inode_store ∧
        r.target.i_nlink + 1 = target.i_nlink ∧ r.dir.i_nlink = dir.i_nlink) ∧
    ((¬ ∃ k, NameAt c (st.blocks (st.inode_store (dir.i_ino - c.EZFS_ROOT_INODE_NUMBER)).dbn)
        name k) →
      ∃ r, ezfs_unlink c h st dir name target = some r ∧ r.ret = -ENOENT ∧ r.st = st ∧
        r.dir = dir ∧ r.target = target) := by
  constructor
  · intro hex
    have hk := Nat.find_spec hex
    have hmin : ∀ m, m < Nat.find hex →
        ¬ NameAt c (st.blocks (st.inode_store (dir.i_ino - c.EZFS_ROOT_INODE_NUMBER)).dbn)
          name m := fun m hm => Nat.find_min hex hm
    have hfound := deactivate_from_found c name c.EZFS_MAX_CHILDREN 0
      (st.blocks (st.inode_store (dir.i_ino - c.EZFS_ROOT_INODE_NUMBER)).dbn) (Nat.find hex)
      (Nat.zero_le _) (by have := hk.1; omega) hk
      (by
        intro m _ hm
        by_cases hact : (st.blocks (st.inode_store
            (dir.i_ino - c.EZFS_ROOT_INODE_NUMBER)).dbn m).active = 0
        · exact Or.inl hact
        · right
          have hlt : m < c.EZFS_MAX_CHILDREN := by have := hk.1; omega
          have hd := hdef m hlt hact
          have hnot := hmin m hm
          cases hc : strcmp_eq (st.blocks (st.inode_store
              (dir.i_ino - c.EZFS_ROOT_INODE_NUMBER)).dbn m).filename name with
          | none => exact absurd hc hd
          | some b =>
            cases b with
            | false => rfl
            | true => exact absurd ⟨hlt, hact, hc⟩ hnot)
    refine ⟨Nat.find hex,
      { ret := 0
        st := { st with
          blocks := fun b =>
            if b = (st.inode_store (dir.i_ino - c.EZFS_ROOT_INODE_NUMBER)).dbn then
              (st.blocks (st.inode_store (dir.i_ino - c.EZFS_ROOT_INODE_NUMBER)).dbn).store
                (Nat.find hex) (zero_dir_entry c)
            else st.blocks b }
        dir := (update_inode_metadata h target dir).2
        target := (update_inode_metadata h target dir).1 },
      hk, hmin, ?_, ?_, ?_, ?_, ?_, ?_, ?_, ?_, ?_⟩
    · unfold ezfs_unlink
      simp [hread, deactivate_dir_entry, hfound]
    · rfl
    · simp [DirBlock.store]
    · intro b m hbm
      simp only [DirBlock.store]
      by_cases hb : b = (st.inode_store (dir.i_ino - c.EZFS_ROOT_INODE_NUMBER)).dbn
      · rw [if_pos hb]
        rcases hbm with hne | hne
        · exact absurd hb hne
        · show (if m = Nat.find hex then _ else _) = _
          rw [if_neg hne, hb]
      · rw [if_neg hb]
    · rfl
    · rfl
    · rfl
    · exact drop_nlink_pred _ hn0 hn1
    · rfl
  · intro hno
    have hmiss := deactivate_from_miss c name c.EZFS_MAX_CHILDREN 0
      (st.blocks (st.inode_store (dir.i_ino - c.EZFS_ROOT_INODE_NUMBER)).dbn)
      (by
        intro m _ hm
        by_cases hact : (st.blocks (st.inode_store
            (dir.i_ino - c.EZFS_ROOT_INODE_NUMBER)).dbn m).active = 0
        · exact Or.inl hact
        · right
          have hd := hdef m hm hact
          cases hc : strcmp_eq (st.blocks (st.inode_store
              (dir.i_ino - c.EZFS_ROOT_INODE_NUMBER)).dbn m).filename name with
          | none => exact absurd hc hd
          | some b =>
            cases b with
            | false => rfl
            | true => exact absurd ⟨m, hm, hact, hc⟩ hno)
    refine ⟨
      { ret := -ENOENT
        st := { st with
          blocks := fun b =>
            if b = (st.inode_store (dir.i_ino - c.EZFS_ROOT_INODE_NUMBER)).dbn then
              st.blocks (st.inode_store (dir.i_ino - c.EZFS_ROOT_INODE_NUMBER)).dbn
            else st.blocks b }
        dir := dir
        target := target }, ?_, ?_, ?_, ?_, ?_⟩
    · unfold ezfs_unlink
      simp [hread, deactivate_dir_entry, hmiss]
    · rfl
    · exact fsState_blocks_same st _
    · rfl
    · rfl


theorem unlink_first_match_or_not_found_witness :
    ∃ k r,
      NameAt sampleConsts
        (sampleImage.blocks
          (sampleImage.inode_store (rootInode.i_ino - sampleConsts.EZFS_ROOT_INODE_NUMBER)).dbn)
        [104, 101, 108, 108, 111, 46, 116, 120, 116] k ∧
      (∀ m, m < k →
        ¬ NameAt sampleConsts
          (sampleImage.blocks
            (sampleImage.inode_store (rootInode.i_ino - sampleConsts.EZFS_ROOT_INODE_NUMBER)).dbn)
          [104, 101, 108, 108, 111, 46, 116, 120, 116] m) ∧
      ezfs_unlink sampleConsts okNsHost sampleImage rootInode
          [104, 101, 108, 108, 111, 46, 116, 120, 116] (ezfs_iget sampleConsts sampleImage 2) =
        some r ∧
      r.ret = 0 ∧
      r.st.blocks
          (sampleImage.inode_store (rootInode.i_ino - sampleConsts.EZFS_ROOT_INODE_NUMBER)).dbn k =
        zero_dir_entry sampleConsts ∧
      (∀ (b : Int) (m : Nat),
        b ≠ (sampleImage.inode_store
              (rootInode.i_ino - sampleConsts.EZFS_ROOT_INODE_NUMBER)).dbn ∨ m ≠ k →
        r.st.blocks b m = sampleImage.blocks b m) ∧
      r.st.free_inodes = sampleImage.free_inodes ∧
      r.st.free_data_blocks = sampleImage.free_data_blocks ∧
      r.st.inode_store = sampleImage.inode_store ∧
      r.target.i_nlink + 1 = (ezfs_iget sampleConsts sampleImage 2).i_nlink ∧
      r.dir.i_nlink = rootInode.i_nlink :=
  (unlink_first_match_or_not_found sampleConsts okNsHost sampleImage rootInode
    [104, 101, 108, 108, 111, 46, 116, 120, 116] (ezfs_iget sampleConsts sampleImage 2)
    (by decide)
    (by
      intro m hm
      have hm4 : m < 4 := hm
      interval_cases m <;> decide)
    (by decide) (by decide)).1 ⟨0, by decide⟩

/-- C15: when `rmdir(dir, name)` succeeds on a sub-directory whose `nlink` is 2
(the parent's link count being at least one), the sub-directory's block has
no active slot, the first active slot of the parent that carries `name` is
zeroed and no other slot changes, the target's `nlink` becomes 0, and the
parent's `nlink` decreases by exactly one. -/
theorem rmdir_success (c : Consts) (h : NsHost) (st : FsState) (dir : inode)
    (name : List Nat) (dentry_inode : inode)
    (hnl : dentry_inode.i_nlink = 2) (hd0 : 0 < dir.i_nlink) (hd1 : dir.i_nlink < 2 ^ 32)
    (hok : ∃ r, ezfs_rmdir c h st dir name dentry_inode = some r ∧ r.ret = 0) :
    ∃ r k, ezfs_rmdir c h st dir name dentry_inode = some r ∧
      (∀ m, m < c.EZFS_MAX_CHILDREN →
        (st.blocks (st.inode_store (dentry_inode.i_ino - c.EZFS_ROOT_INODE_NUMBER)).dbn
          m).active = 0) ∧
      NameAt c (st.blocks (st.inode_store (dir.i_ino - c.EZFS_ROOT_INODE_NUMBER)).dbn) name k ∧
      (∀ m, m < k → ¬ NameAt c (st.blocks (st.inode_store (dir.i_ino - c.EZFS_ROOT_INODE_NUMBER)).dbn) name m) ∧
      r.st.blocks (st.inode_store (dir.i_ino - c.EZFS_ROOT_INODE_NUMBER)).dbn k = zero_dir_entry c ∧
      (∀ (b : Int) (m : Nat), b ≠ (st.inode_store (dir.i_ino - c.EZFS_ROOT_INODE_NUMBER)).dbn ∨ m ≠ k → r.st.blocks b m = st.blocks b m) ∧
      r.target.i_nlink = 0 ∧
      r.dir.i_nlink + 1 = dir.i_nlink := by
  obtain ⟨r, hr, hret⟩ := hok
  unfold ezfs_rmdir at hr
  simp only [] at hr
  split_ifs at hr with h1 h2
  · simp only [Option.some.injEq] at hr
    rw [← hr] at hret; simp [EIO_errno] at hret
  · simp only [Option.some.injEq] at hr
    rw [← hr] at hret; simp [ENOTEMPTY] at hret
  · cases hu : ezfs_unlink c h st dir name dentry_inode with
    | none => rw [hu] at hr; simp at hr
    | some u =>
      rw [hu] at hr
      simp only [] at hr
      by_cases hur : u.ret = 0
      · rw [if_neg (by simpa using hur)] at hr
        simp only [Option.some.injEq] at hr
        -- what the successful unlink did
        unfold ezfs_unlink at hu
        simp only [] at hu
        split_ifs at hu with h3
        · simp only [Option.some.injEq] at hu
          rw [← hu] at hur; simp [EIO_errno] at hur
        · cases hde : deactivate_dir_entry c (st.blocks (st.inode_store (dir.i_ino - c.EZFS_ROOT_INODE_NUMBER)).dbn) name with
          | none => rw [hde] at hu; simp at hu
          | some res =>
            obtain ⟨result, blk⟩ := res
            rw [hde] at hu
            simp only [] at hu
            by_cases hres : result = 0
            · rw [if_neg (by simpa using hres)] at hu
              simp only [Option.some.injEq] at hu
              rw [← hu] at hur; simp [ENOENT] at hur
            · rw [if_pos hres] at hu
              simp only [Option.some.injEq] at hu
              obtain ⟨k, _, hk2, hk3, hk4, _, hk6, hk7⟩ :=
                deactivate_from_hit c name c.EZFS_MAX_CHILDREN 0 _ blk result hde hres
              refine ⟨r, k, ?_, ?_, ⟨hk2, hk3, hk4⟩, ?_, ?_, ?_, ?_, ?_⟩
              · unfold ezfs_rmdir
                simp only []
                rw [if_neg h1, if_neg h2]
                unfold ezfs_unlink
                simp only []
                rw [if_neg h3, hde]
                simp only []
                rw [if_pos hres]
                simp only []
                rw [← hr, ← hu]
                simp
              · intro m hm
                exact ezfs_dir_empty_from_nonzero c _ c.EZFS_MAX_CHILDREN 0 h2 m (Nat.zero_le _)
                  (by omega) hm
              · intro m hm hat
                rcases hk7 m (Nat.zero_le _) hm with h0 | hf
                · exact hat.2.1 h0
                · rw [hat.2.2] at hf; simp at hf
              · rw [← hr, ← hu, hk6]
                simp [DirBlock.store]
              · intro b m hbm
                rw [← hr, ← hu, hk6]
                simp only []
                by_cases hb : b = (st.inode_store (dir.i_ino - c.EZFS_ROOT_INODE_NUMBER)).dbn
                · rw [if_pos hb]
                  rcases hbm with hne | hne
                  · exact absurd hb hne
                  · show (if m = k then _ else _) = _
                    rw [if_neg hne, hb]
                · rw [if_neg hb]
              · rw [← hr, ← hu]
                exact drop_nlink_twice _ hnl
              · rw [← hr, ← hu]
                exact drop_nlink_pred _ hd0 hd1
      · rw [if_pos hur] at hr
        simp only [Option.some.injEq] at hr
        rw [← hr] at hret
        exact absurd hret hur

theorem rmdir_success_witness :
    ∃ r k, ezfs_rmdir sampleConsts okNsHost afterMkdir.st afterMkdir.dir [100]
          (ezfs_iget sampleConsts afterMkdir.st 7) = some r ∧
      (∀ m, m < sampleConsts.EZFS_MAX_CHILDREN →
        (afterMkdir.st.blocks
          (afterMkdir.st.inode_store
            ((ezfs_iget sampleConsts afterMkdir.st 7).i_ino -
              sampleConsts.EZFS_ROOT_INODE_NUMBER)).dbn m).active = 0) ∧
      NameAt sampleConsts
        (afterMkdir.st.blocks
          (afterMkdir.st.inode_store
            (afterMkdir.dir.i_ino - sampleConsts.EZFS_ROOT_INODE_NUMBER)).dbn) [100] k ∧
      (∀ m, m < k →
        ¬ NameAt sampleConsts
          (afterMkdir.st.blocks
            (afterMkdir.st.inode_store
              (afterMkdir.dir.i_ino - sampleConsts.EZFS_ROOT_INODE_NUMBER)).dbn) [100] m) ∧
      r.st.blocks
          (afterMkdir.st.inode_store
            (afterMkdir.dir.i_ino - sampleConsts.EZFS_ROOT_INODE_NUMBER)).dbn k =
        zero_dir_entry sampleConsts ∧
      (∀ (b : Int) (m : Nat),
        b ≠ (afterMkdir.st.inode_store
              (afterMkdir.dir.i_ino - sampleConsts.EZFS_ROOT_INODE_NUMBER)).dbn ∨ m ≠ k →
        r.st.blocks b m = afterMkdir.st.blocks b m) ∧
      r.target.i_nlink = 0 ∧
      r.dir.i_nlink + 1 = afterMkdir.dir.i_nlink :=
  rmdir_success sampleConsts okNsHost afterMkdir.st afterMkdir.dir [100]
    (ezfs_iget sampleConsts afterMkdir.st 7) (by decide) (by decide) (by decide)
    ⟨_, rfl, by decide⟩


/-- C19: `lookup(dir, name)`, when the directory block is read, the name holds no
NUL byte and every active slot's filename contains a NUL inside its buffer:
if some slot is active, matches `name` on its first `len(name)` bytes and has
NUL at byte `len(name)`, the lookup returns the inode numbered by the
lowest-index such slot; if there is no such slot it returns a negative
(inode-less) result, without error. -/
theorem lookup_hits_lowest_match (c : Consts) (h : NsHost) (st : FsState) (directory : inode)
    (name : List Nat)
    (hread : h.sb_bread (st.inode_store (directory.i_ino - c.EZFS_ROOT_INODE_NUMBER)).dbn = true)
    (hname : ∀ b ∈ name, b ≠ 0)
    (hnul : NulTerminated c (st.blocks (st.inode_store (directory.i_ino - c.EZFS_ROOT_INODE_NUMBER)).dbn)) :
    ((∃ k, SlotMatches c (st.blocks (st.inode_store (directory.i_ino - c.EZFS_ROOT_INODE_NUMBER)).dbn) name k) →
      ∃ k, SlotMatches c (st.blocks (st.inode_store (directory.i_ino - c.EZFS_ROOT_INODE_NUMBER)).dbn) name k ∧
        (∀ m, m < k → ¬ SlotMatches c (st.blocks (st.inode_store (directory.i_ino - c.EZFS_ROOT_INODE_NUMBER)).dbn) name m) ∧
        ezfs_lookup c h st directory name =
          some (LookupResult.found (ezfs_iget c st ((st.blocks (st.inode_store (directory.i_ino - c.EZFS_ROOT_INODE_NUMBER)).dbn) k).inode_no))) ∧
    ((¬ ∃ k, SlotMatches c (st.blocks (st.inode_store (directory.i_ino - c.EZFS_ROOT_INODE_NUMBER)).dbn) name k) →
      ezfs_lookup c h st directory name = some LookupResult.negative) := by
  have hclass := fun k (hk : k < c.EZFS_MAX_CHILDREN) =>
    slot_matches_or_skipped c (st.blocks (st.inode_store (directory.i_ino - c.EZFS_ROOT_INODE_NUMBER)).dbn) name hname k hk (hnul k hk)
  constructor
  · intro hex
    have hk := Nat.find_spec hex
    have hmin : ∀ m, m < Nat.find hex → ¬ SlotMatches c (st.blocks (st.inode_store (directory.i_ino - c.EZFS_ROOT_INODE_NUMBER)).dbn) name m :=
      fun m hm => Nat.find_min hex hm
    refine ⟨Nat.find hex, hk, hmin, ?_⟩
    rcases hclass (Nat.find hex) hk.1 with ⟨_, hcmp, hz⟩ | ⟨hnot, _⟩
    · have hscan := lookup_scan_found c (st.blocks (st.inode_store (directory.i_ino - c.EZFS_ROOT_INODE_NUMBER)).dbn) name c.EZFS_MAX_CHILDREN 0 (Nat.find hex)
        (Nat.zero_le _) (by have := hk.1; omega) hk.1 hk.2.1 hcmp hz
        (by
          intro m _ hm
          rcases hclass m (by have := hk.1; omega) with ⟨hmm, _, _⟩ | ⟨_, hskip⟩
          · exact absurd hmm (hmin m hm)
          · exact hskip)
      unfold ezfs_lookup
      simp [hread, hscan]
    · exact absurd hk hnot
  · intro hno
    have hscan := lookup_scan_miss c (st.blocks (st.inode_store (directory.i_ino - c.EZFS_ROOT_INODE_NUMBER)).dbn) name c.EZFS_MAX_CHILDREN 0
      (by
        intro m _ hm
        rcases hclass m hm with ⟨hmm, _, _⟩ | ⟨_, hskip⟩
        · exact absurd ⟨m, hmm⟩ hno
        · exact hskip)
    unfold ezfs_lookup
    simp [hread, hscan]


theorem lookup_hits_lowest_match_witness :
    ∃ k,
      SlotMatches sampleConsts
        (sampleImage.blocks
          (sampleImage.inode_store (rootInode.i_ino - sampleConsts.EZFS_ROOT_INODE_NUMBER)).dbn)
        [115, 117, 98, 100, 105, 114] k ∧
      (∀ m, m < k →
        ¬ SlotMatches sampleConsts
          (sampleImage.blocks
            (sampleImage.inode_store (rootInode.i_ino - sampleConsts.EZFS_ROOT_INODE_NUMBER)).dbn)
          [115, 117, 98, 100, 105, 114] m) ∧
      ezfs_lookup sampleConsts okNsHost sampleImage rootInode [115, 117, 98, 100, 105, 114] =
        some (LookupResult.found (ezfs_iget sampleConsts sampleImage
          ((sampleImage.blocks
            (sampleImage.inode_store
              (rootInode.i_ino - sampleConsts.EZFS_ROOT_INODE_NUMBER)).dbn) k).inode_no)) :=
  (lookup_hits_lowest_match sampleConsts okNsHost sampleImage rootInode
    [115, 117, 98, 100, 105, 114] (by decide) (by decide)
    (by
      intro m hm
      have hm4 : m < 4 := hm
      interval_cases m <;> decide)).1 ⟨1, by decide⟩

/-- C16: for every readable directory block with NUL-terminated names, every
cursor `p >= 2` and every host that accepts `room` entries before its buffer
is full: `ezfs_iterate` emits the first `room` active entries of the slots
`p - 2, p - 1, ..` in slot order; the cursor only moves forward; when nothing
was refused it has passed every slot (it ends at `MAX_CHILDREN + 2`); when an
entry was refused it stays on that slot, the first undelivered one; resuming
from the returned cursor emits exactly the entries that remain, none lost or
repeated.  Started at position 0 with room for them, it first emits `.` and
`..` and then the active entries from slot 0 on. -/
theorem iterate_emits_active_entries (c : Consts) (h : NsHost) (st : FsState) (i : inode)
    (parent_ino : Int) (p room : Nat)
    (hread : h.sb_bread (st.inode_store (i.i_ino - c.EZFS_ROOT_INODE_NUMBER)).dbn = true)
    (hnul : NulTerminated c (st.blocks (st.inode_store (i.i_ino - c.EZFS_ROOT_INODE_NUMBER)).dbn)) (hp : 2 ≤ p) :
    (∃ r, ezfs_iterate c h st i parent_ino p room = some r ∧ r.ret = 0 ∧
      r.emitted = (active_items c (st.blocks (st.inode_store (i.i_ino - c.EZFS_ROOT_INODE_NUMBER)).dbn) (p - 2)).take room ∧
      p ≤ r.pos ∧
      ((active_items c (st.blocks (st.inode_store (i.i_ino - c.EZFS_ROOT_INODE_NUMBER)).dbn) (p - 2)).length ≤ room → r.pos = max p (c.EZFS_MAX_CHILDREN + 2)) ∧
      (room < (active_items c (st.blocks (st.inode_store (i.i_ino - c.EZFS_ROOT_INODE_NUMBER)).dbn) (p - 2)).length →
        r.pos - 2 < c.EZFS_MAX_CHILDREN ∧ ((st.blocks (st.inode_store (i.i_ino - c.EZFS_ROOT_INODE_NUMBER)).dbn) (r.pos - 2)).active ≠ 0 ∧
          ∀ k, p - 2 ≤ k → k < r.pos - 2 → ((st.blocks (st.inode_store (i.i_ino - c.EZFS_ROOT_INODE_NUMBER)).dbn) k).active ≠ 0 →
            slot_item ((st.blocks (st.inode_store (i.i_ino - c.EZFS_ROOT_INODE_NUMBER)).dbn) k) ∈ r.emitted) ∧
      r.emitted ++ active_items c (st.blocks (st.inode_store (i.i_ino - c.EZFS_ROOT_INODE_NUMBER)).dbn) (r.pos - 2) = active_items c (st.blocks (st.inode_store (i.i_ino - c.EZFS_ROOT_INODE_NUMBER)).dbn) (p - 2) ∧
      ∀ room', ∃ r', ezfs_iterate c h st i parent_ino r.pos room' = some r' ∧
        r'.emitted = (active_items c (st.blocks (st.inode_store (i.i_ino - c.EZFS_ROOT_INODE_NUMBER)).dbn) (r.pos - 2)).take room' ∧
        r.emitted ++ r'.emitted = (active_items c (st.blocks (st.inode_store (i.i_ino - c.EZFS_ROOT_INODE_NUMBER)).dbn) (p - 2)).take (room + room')) ∧
    (∃ r0, ezfs_iterate c h st i parent_ino 0 (room + 2) = some r0 ∧
      r0.emitted =
        { name := [46], ino := i.i_ino } :: { name := [46, 46], ino := parent_ino } ::
          (active_items c (st.blocks (st.inode_store (i.i_ino - c.EZFS_ROOT_INODE_NUMBER)).dbn) 0).take room) := by
  constructor
  · obtain ⟨r, hr, hret, hem, hle, happ, hfull, hstop⟩ :=
      ezfs_iterate_from c h st i parent_ino p room hread hnul hp
    refine ⟨r, hr, hret, hem, hle, hfull, hstop, happ, ?_⟩
    intro room'
    obtain ⟨r', hr', _, hem', _, _, _, _⟩ :=
      ezfs_iterate_from c h st i parent_ino r.pos room' hread hnul (by omega)
    refine ⟨r', hr', hem', ?_⟩
    -- what remains after the first call is the list without its first `room` entries
    have hdrop : active_items c (st.blocks (st.inode_store (i.i_ino - c.EZFS_ROOT_INODE_NUMBER)).dbn) (r.pos - 2) = (active_items c (st.blocks (st.inode_store (i.i_ino - c.EZFS_ROOT_INODE_NUMBER)).dbn) (p - 2)).drop room := by
      have h1 : r.emitted ++ active_items c (st.blocks (st.inode_store (i.i_ino - c.EZFS_ROOT_INODE_NUMBER)).dbn) (r.pos - 2) =
          r.emitted ++ (active_items c (st.blocks (st.inode_store (i.i_ino - c.EZFS_ROOT_INODE_NUMBER)).dbn) (p - 2)).drop room := by
        rw [happ, hem, List.take_append_drop]
      exact List.append_cancel_left h1
    rw [hem', hdrop, hem, List.take_add]
  · obtain ⟨p', l, hloop, hl, _, _, _, _⟩ :=
      iterate_loop_spec c (st.blocks (st.inode_store (i.i_ino - c.EZFS_ROOT_INODE_NUMBER)).dbn) hnul c.EZFS_MAX_CHILDREN 2 room (le_refl _) (by omega)
    refine ⟨{ ret := 0, pos := p',
              emitted := { name := [46], ino := i.i_ino } ::
                { name := [46, 46], ino := parent_ino } :: l }, ?_, ?_⟩
    · unfold ezfs_iterate
      simp [dir_emit_dots, hread, hloop]
    · simp only [hl]


theorem iterate_emits_active_entries_witness :
    (∃ r, ezfs_iterate sampleConsts okNsHost iterImage rootInode 1 2 1 = some r ∧ r.ret = 0 ∧
      r.emitted = (active_items sampleConsts (iterImage.blocks (iterImage.inode_store (rootInode.i_ino - sampleConsts.EZFS_ROOT_INODE_NUMBER)).dbn) (2 - 2)).take 1 ∧
      2 ≤ r.pos ∧
      ((active_items sampleConsts (iterImage.blocks (iterImage.inode_store (rootInode.i_ino - sampleConsts.EZFS_ROOT_INODE_NUMBER)).dbn) (2 - 2)).length ≤ 1 →
        r.pos = max 2 (sampleConsts.EZFS_MAX_CHILDREN + 2)) ∧
      (1 < (active_items sampleConsts (iterImage.blocks (iterImage.inode_store (rootInode.i_ino - sampleConsts.EZFS_ROOT_INODE_NUMBER)).dbn) (2 - 2)).length →
        r.pos - 2 < sampleConsts.EZFS_MAX_CHILDREN ∧ ((iterImage.blocks (iterImage.inode_store (rootInode.i_ino - sampleConsts.EZFS_ROOT_INODE_NUMBER)).dbn) (r.pos - 2)).active ≠ 0 ∧
          ∀ k, 2 - 2 ≤ k → k < r.pos - 2 → ((iterImage.blocks (iterImage.inode_store (rootInode.i_ino - sampleConsts.EZFS_ROOT_INODE_NUMBER)).dbn) k).active ≠ 0 →
            slot_item ((iterImage.blocks (iterImage.inode_store (rootInode.i_ino - sampleConsts.EZFS_ROOT_INODE_NUMBER)).dbn) k) ∈ r.emitted) ∧
      r.emitted ++ active_items sampleConsts (iterImage.blocks (iterImage.inode_store (rootInode.i_ino - sampleConsts.EZFS_ROOT_INODE_NUMBER)).dbn) (r.pos - 2) =
        active_items sampleConsts (iterImage.blocks (iterImage.inode_store (rootInode.i_ino - sampleConsts.EZFS_ROOT_INODE_NUMBER)).dbn) (2 - 2) ∧
      ∀ room', ∃ r', ezfs_iterate sampleConsts okNsHost iterImage rootInode 1 r.pos room' = some r' ∧
        r'.emitted = (active_items sampleConsts (iterImage.blocks (iterImage.inode_store (rootInode.i_ino - sampleConsts.EZFS_ROOT_INODE_NUMBER)).dbn) (r.pos - 2)).take room' ∧
        r.emitted ++ r'.emitted = (active_items sampleConsts (iterImage.blocks (iterImage.inode_store (rootInode.i_ino - sampleConsts.EZFS_ROOT_INODE_NUMBER)).dbn) (2 - 2)).take (1 + room')) ∧
    (∃ r0, ezfs_iterate sampleConsts okNsHost iterImage rootInode 1 0 (1 + 2) = some r0 ∧
      r0.emitted =
        { name := [46], ino := rootInode.i_ino } :: { name := [46, 46], ino := 1 } ::
          (active_items sampleConsts (iterImage.blocks (iterImage.inode_store (rootInode.i_ino - sampleConsts.EZFS_ROOT_INODE_NUMBER)).dbn) 0).take 1) :=
  iterate_emits_active_entries sampleConsts okNsHost iterImage rootInode 1 2 1 (by decide)
    (by
      intro m hm
      have hm4 : m < 4 := hm
      interval_cases m <;> decide)
    (by decide)

/-- C21: `rmdir(dir, name)`, when the target directory's block can be read,
returns `-ENOTEMPTY` if and only if at least one of the target's
`EZFS_MAX_CHILDREN` slots is active, and in that case the volume (every
directory slot, both bitmaps, every inode record) and the two in-memory
inodes with their link counts are returned unchanged. -/
theorem rmdir_not_empty_iff (c : Consts) (h : NsHost) (st : FsState) (dir : inode)
    (name : List Nat) (dentry_inode : inode)
    (hread : h.sb_bread (st.inode_store (dentry_inode.i_ino - c.EZFS_ROOT_INODE_NUMBER)).dbn
      = true) :
    ((∃ r, ezfs_rmdir c h st dir name dentry_inode = some r ∧ r.ret = -ENOTEMPTY) ↔
      ∃ k, k < c.EZFS_MAX_CHILDREN ∧
        (st.blocks (st.inode_store (dentry_inode.i_ino - c.EZFS_ROOT_INODE_NUMBER)).dbn
          k).active ≠ 0) ∧
    ((∃ k, k < c.EZFS_MAX_CHILDREN ∧
        (st.blocks (st.inode_store (dentry_inode.i_ino - c.EZFS_ROOT_INODE_NUMBER)).dbn
          k).active ≠ 0) →
      ezfs_rmdir c h st dir name dentry_inode =
        some { ret := -ENOTEMPTY, st := st, dir := dir, target := dentry_inode }) := by
  have hfull : (∃ k, k < c.EZFS_MAX_CHILDREN ∧
        (st.blocks (st.inode_store (dentry_inode.i_ino - c.EZFS_ROOT_INODE_NUMBER)).dbn
          k).active ≠ 0) →
      ezfs_rmdir c h st dir name dentry_inode =
        some { ret := -ENOTEMPTY, st := st, dir := dir, target := dentry_inode } := by
    rintro ⟨k, hk, hact⟩
    have h0 : ezfs_dir_empty c
        (st.blocks (st.inode_store (dentry_inode.i_ino - c.EZFS_ROOT_INODE_NUMBER)).dbn) = 0 :=
      ezfs_dir_empty_from_zero c _ c.EZFS_MAX_CHILDREN 0 k (Nat.zero_le _) (by omega) hk hact
    unfold ezfs_rmdir
    simp only []
    rw [if_neg (by simp [hread]), if_pos h0]
  refine ⟨⟨?_, ?_⟩, hfull⟩
  · rintro ⟨r, hr, hret⟩
    by_contra hnone
    have hall : ∀ k, k < c.EZFS_MAX_CHILDREN →
        (st.blocks (st.inode_store (dentry_inode.i_ino - c.EZFS_ROOT_INODE_NUMBER)).dbn
          k).active = 0 := by
      intro k hk
      by_contra hact
      exact hnone ⟨k, hk, hact⟩
    have hne : ezfs_dir_empty c
        (st.blocks (st.inode_store (dentry_inode.i_ino - c.EZFS_ROOT_INODE_NUMBER)).dbn) ≠ 0 := by
      intro h0
      have hex : ¬ ∀ k, k < c.EZFS_MAX_CHILDREN →
          (st.blocks (st.inode_store (dentry_inode.i_ino - c.EZFS_ROOT_INODE_NUMBER)).dbn
            k).active = 0 := by
        intro _
        have key : ∀ (fuel i : Nat),
            (∀ k, k < c.EZFS_MAX_CHILDREN →
              (st.blocks (st.inode_store (dentry_inode.i_ino - c.EZFS_ROOT_INODE_NUMBER)).dbn
                k).active = 0) →
            ezfs_dir_empty_from c
              (st.blocks (st.inode_store (dentry_inode.i_ino - c.EZFS_ROOT_INODE_NUMBER)).dbn)
              fuel i = 1 := by
          intro fuel
          induction fuel with
          | zero => intro i _; rfl
          | succ fuel ih =>
            intro i hz
            simp only [ezfs_dir_empty_from]
            by_cases hi : i < c.EZFS_MAX_CHILDREN
            · rw [if_pos hi, if_neg (by simp [hz i hi])]
              exact ih (i + 1) hz
            · rw [if_neg hi]
        have := key c.EZFS_MAX_CHILDREN 0 hall
        unfold ezfs_dir_empty at h0
        rw [this] at h0
        exact absurd h0 (by decide)
      exact hex hall
    unfold ezfs_rmdir at hr
    simp only [] at hr
    rw [if_neg (by simp [hread]), if_neg hne] at hr
    cases hu : ezfs_unlink c h st dir name dentry_inode with
    | none => rw [hu] at hr; simp at hr
    | some u =>
      rw [hu] at hr
      simp only [] at hr
      have huret : u.ret = 0 ∨ u.ret = -EIO_errno ∨ u.ret = -ENOENT := by
        unfold ezfs_unlink at hu
        simp only [] at hu
        split_ifs at hu with h3
        · simp only [Option.some.injEq] at hu
          rw [← hu]; right; left; rfl
        · cases hde : deactivate_dir_entry c
            (st.blocks (st.inode_store (dir.i_ino - c.EZFS_ROOT_INODE_NUMBER)).dbn) name with
          | none => rw [hde] at hu; simp at hu
          | some res =>
            obtain ⟨result, blk⟩ := res
            rw [hde] at hu
            simp only [] at hu
            split_ifs at hu with h4
            · simp only [Option.some.injEq] at hu
              rw [← hu]; left; rfl
            · simp only [Option.some.injEq] at hu
              rw [← hu]; right; right; rfl
      split_ifs at hr with h5
      · simp only [Option.some.injEq] at hr
        rw [← hr] at hret
        simp only [] at hret
        rcases huret with h0 | h0 | h0
        · exact h5 h0
        · rw [h0] at hret; exact absurd hret (by decide)
        · rw [h0] at hret; exact absurd hret (by decide)
      · simp only [Option.some.injEq] at hr
        rw [← hr] at hret
        simp [ENOTEMPTY] at hret
  · intro hex
    exact ⟨_, hfull hex, rfl⟩

theorem rmdir_not_empty_iff_witness :
    ((∃ r, ezfs_rmdir sampleConsts okNsHost sampleImage rootInode [115, 117, 98, 100, 105, 114]
          (ezfs_iget sampleConsts sampleImage 3) = some r ∧ r.ret = -ENOTEMPTY) ↔
      ∃ k, k < sampleConsts.EZFS_MAX_CHILDREN ∧
        (sampleImage.blocks
          (sampleImage.inode_store
            ((ezfs_iget sampleConsts sampleImage 3).i_ino -
              sampleConsts.EZFS_ROOT_INODE_NUMBER)).dbn k).active ≠ 0) ∧
    ((∃ k, k < sampleConsts.EZFS_MAX_CHILDREN ∧
        (sampleImage.blocks
          (sampleImage.inode_store
            ((ezfs_iget sampleConsts sampleImage 3).i_ino -
              sampleConsts.EZFS_ROOT_INODE_NUMBER)).dbn k).active ≠ 0) →
      ezfs_rmdir sampleConsts okNsHost sampleImage rootInode [115, 117, 98, 100, 105, 114]
          (ezfs_iget sampleConsts sampleImage 3) =
        some { ret := -ENOTEMPTY, st := sampleImage, dir := rootInode,
               target := ezfs_iget sampleConsts sampleImage 3 }) :=
  rmdir_not_empty_iff sampleConsts okNsHost sampleImage rootInode [115, 117, 98, 100, 105, 114]
    (ezfs_iget sampleConsts sampleImage 3) (by decide)

/-- C22: `ezfs_get_block` leaves the data-block bitmap and the inode's `dbn`
unchanged whenever `create` is 0 (for every logical block; it then returns 0,
and maps nothing when the logical block is at or past `nblocks`) and whenever
it returns `-ENOSPC`. -/
theorem get_block_frame (c : Consts) (h : Host) (bitmap : Bitmap) (dbn : Int)
    (i_blocks : Nat) (disk : Disk) (block : Nat) :
    ((ezfs_get_block c h bitmap dbn i_blocks disk block false).status = 0 ∧
      (ezfs_get_block c h bitmap dbn i_blocks disk block false).bitmap = bitmap ∧
      (ezfs_get_block c h bitmap dbn i_blocks disk block false).dbn = dbn ∧
      (ezfs_get_block c h bitmap dbn i_blocks disk block false).disk = disk ∧
      (i_blocks / 8 ≤ block →
        (ezfs_get_block c h bitmap dbn i_blocks disk block false).mapped = none)) ∧
    ∀ create : Bool,
      (ezfs_get_block c h bitmap dbn i_blocks disk block create).status = -ENOSPC →
        (ezfs_get_block c h bitmap dbn i_blocks disk block create).bitmap = bitmap ∧
        (ezfs_get_block c h bitmap dbn i_blocks disk block create).dbn = dbn ∧
        (ezfs_get_block c h bitmap dbn i_blocks disk block create).disk = disk ∧
        (ezfs_get_block c h bitmap dbn i_blocks disk block create).mapped = none := by
  constructor
  · unfold ezfs_get_block
    generalize i_blocks / 8 = n
    simp only []
    split_ifs <;>
      first
        | exact ⟨rfl, rfl, rfl, rfl, fun _ => rfl⟩
        | (refine ⟨rfl, rfl, rfl, rfl, ?_⟩
           intro hle
           exfalso
           omega)
        | (exfalso; simp_all)
  · intro create
    unfold ezfs_get_block
    generalize i_blocks / 8 = n
    simp only []
    split_ifs <;>
      first
        | (intro _; exact ⟨rfl, rfl, rfl, rfl⟩)
        | (intro hst; exact absurd hst (by simp [allocation_success, ENOSPC]))

/-- C25, as stated, fails: a two-block file at bit indices 1 and 2 (`dbn` 3)
whose next block is occupied, bit 0 being free, is relocated to the run that
starts at bit index 0, although bits 1 and 2 were set before the call; the
lowest run of three bit-clear blocks starts at bit index 4. -/
theorem relocation_run_not_lowest_free_counterexample :
    0 < 16 / 8 ∧
    test_bit (3 + ((2 : Nat) : Int) - sampleConsts.EZFS_ROOT_DATABLOCK_NUMBER) fileAfterGap = true ∧
    (ezfs_get_block sampleConsts okHost fileAfterGap 3 16 idDisk 2 true).status = 0 ∧
    (ezfs_get_block sampleConsts okHost fileAfterGap 3 16 idDisk 2 true).dbn -
        sampleConsts.EZFS_ROOT_DATABLOCK_NUMBER = 0 ∧
    ¬ FreeRun sampleConsts fileAfterGap (((16 / 8 : Nat) : Int) + 1) 0 ∧
    FreeRun sampleConsts fileAfterGap (((16 / 8 : Nat) : Int) + 1) 4 ∧
    ∀ r : Int, FreeRun sampleConsts fileAfterGap (((16 / 8 : Nat) : Int) + 1) r → 4 ≤ r := by
  refine ⟨by decide, by decide, by decide, by decide, ?_, ⟨by decide, by decide, ?_⟩, ?_⟩
  · rintro ⟨_, _, h2⟩
    have := h2 1 (by decide) (by decide)
    simp [fileAfterGap] at this
  · intro j hj1 hj2
    simp only [fileAfterGap, decide_eq_false_iff_not]
    omega
  · rintro r ⟨h0, _, h2⟩
    by_contra hlt
    by_cases hr : r ≤ 1
    · have h3 := h2 1 hr (by norm_num; omega)
      simp [fileAfterGap] at h3
    · have h3 := h2 3 (by omega) (by norm_num; omega)
      simp [fileAfterGap] at h3

/-- C25, amended: when relocation in `ezfs_get_block` succeeds (`nblocks > 0`,
the block wanted is occupied, the call returns 0), the run start `r` it
chooses, the new `dbn` as a bit index, is the lowest index at which
`nblocks + 1` contiguous blocks begin inside the bitmap each of which was
free (bit clear before the call) or one of the file's own blocks. -/
theorem relocation_run_is_lowest_usable (c : Consts) (h : Host) (bitmap : Bitmap) (dbn : Int)
    (i_blocks : Nat) (disk : Disk) (block : Nat)
    (hn : 0 < i_blocks / 8) (hb : i_blocks / 8 ≤ block)
    (hocc : test_bit (dbn + block - c.EZFS_ROOT_DATABLOCK_NUMBER) bitmap = true)
    (hok : (ezfs_get_block c h bitmap dbn i_blocks disk block true).status = 0) :
    OkWindow c bitmap dbn ((i_blocks / 8 : Nat) : Int)
        ((ezfs_get_block c h bitmap dbn i_blocks disk block true).dbn -
          c.EZFS_ROOT_DATABLOCK_NUMBER + ((i_blocks / 8 : Nat) : Int) + 1) ∧
      ∀ r : Int, OkWindow c bitmap dbn ((i_blocks / 8 : Nat) : Int)
          (r + ((i_blocks / 8 : Nat) : Int) + 1) →
        (ezfs_get_block c h bitmap dbn i_blocks disk block true).dbn -
          c.EZFS_ROOT_DATABLOCK_NUMBER ≤ r := by
  obtain ⟨hguard, hscan⟩ := relocation_path_of_success c h bitmap dbn i_blocks disk block hn hb
    hocc hok
  obtain ⟨_, hw, hmin⟩ := scan_loop_success c bitmap dbn ((i_blocks / 8 : Nat) : Int) (by omega)
    hscan
  rw [ezfs_get_block_relocate c h bitmap dbn i_blocks disk block hn hb hguard hocc hscan]
  generalize (scan_loop c bitmap dbn ((i_blocks / 8 : Nat) : Int) c.EZFS_MAX_DATA_BLKS 0 0).1 = e
    at hw hmin ⊢
  generalize i_blocks / 8 = n at *
  simp only [allocation_success]
  constructor
  · have : e - ((n : Int) + 1) + c.EZFS_ROOT_DATABLOCK_NUMBER - c.EZFS_ROOT_DATABLOCK_NUMBER +
        (n : Int) + 1 = e := by omega
    rw [this]; exact hw
  · intro r hr
    have := hmin _ hr
    omega

theorem relocation_run_is_lowest_usable_witness :
    OkWindow sampleConsts fileAfterGap 3 ((16 / 8 : Nat) : Int)
        ((ezfs_get_block sampleConsts okHost fileAfterGap 3 16 idDisk 2 true).dbn -
          sampleConsts.EZFS_ROOT_DATABLOCK_NUMBER + ((16 / 8 : Nat) : Int) + 1) ∧
      ∀ r : Int, OkWindow sampleConsts fileAfterGap 3 ((16 / 8 : Nat) : Int)
          (r + ((16 / 8 : Nat) : Int) + 1) →
        (ezfs_get_block sampleConsts okHost fileAfterGap 3 16 idDisk 2 true).dbn -
          sampleConsts.EZFS_ROOT_DATABLOCK_NUMBER ≤ r :=
  relocation_run_is_lowest_usable sampleConsts okHost fileAfterGap 3 16 idDisk 2
    (by decide) (by decide) (by decide) (by decide)

/-- C27: whenever the free-run scan of `ezfs_get_block` succeeds for a file
whose extent `[dbn, dbn + nblocks)` lies inside the data area, the computed
`new_start_index` satisfies `0 <= new_start_index` and
`new_start_index + nblocks + 1 <= MAX_DATA_BLKS`, and every bit index that a
step of the relocation sets, clears or copies from or to lies inside the
`MAX_DATA_BLKS` bits of the data-block bitmap. -/
theorem relocation_stays_in_bitmap (c : Consts) (bitmap : Bitmap) (dbn : Int)
    (i_blocks : Nat)
    (hlo : c.EZFS_ROOT_DATABLOCK_NUMBER ≤ dbn)
    (hhi : dbn + ((i_blocks / 8 : Nat) : Int) ≤
      c.EZFS_ROOT_DATABLOCK_NUMBER + (c.EZFS_MAX_DATA_BLKS : Int))
    (hscan : ¬ (scan_loop c bitmap dbn ((i_blocks / 8 : Nat) : Int) c.EZFS_MAX_DATA_BLKS 0 0).2
        < ((i_blocks / 8 : Nat) : Int) + 1) :
    0 ≤ (scan_loop c bitmap dbn ((i_blocks / 8 : Nat) : Int) c.EZFS_MAX_DATA_BLKS 0 0).1 -
        (((i_blocks / 8 : Nat) : Int) + 1) ∧
    (scan_loop c bitmap dbn ((i_blocks / 8 : Nat) : Int) c.EZFS_MAX_DATA_BLKS 0 0).1 -
        (((i_blocks / 8 : Nat) : Int) + 1) + ((i_blocks / 8 : Nat) : Int) + 1 ≤
      (c.EZFS_MAX_DATA_BLKS : Int) ∧
    ∀ step ∈ relocation_trace c bitmap dbn i_blocks, ∀ j ∈ step.indices,
      0 ≤ j ∧ j < (c.EZFS_MAX_DATA_BLKS : Int) := by
  obtain ⟨_, hw, _⟩ := scan_loop_success c bitmap dbn ((i_blocks / 8 : Nat) : Int) (by omega)
    hscan
  unfold relocation_trace
  simp only []
  generalize (scan_loop c bitmap dbn ((i_blocks / 8 : Nat) : Int) c.EZFS_MAX_DATA_BLKS 0 0).1 = e
    at hw ⊢
  generalize i_blocks / 8 = n at *
  obtain ⟨h1, h2, _⟩ := hw
  refine ⟨by omega, by omega, ?_⟩
  intro step hstep j hj
  rcases List.mem_append.mp hstep with hm | hm
  · rcases List.mem_append.mp hm with hm | hm
    · obtain ⟨i, hi, hst | hst⟩ := mem_move_steps _ _ _ _ hm
      · subst hst
        simp only [RelocStep.indices, List.mem_cons, List.mem_singleton, List.not_mem_nil,
          or_false] at hj
        rcases hj with hj | hj <;> omega
      · subst hst
        simp only [RelocStep.indices, List.mem_singleton] at hj
        omega
    · obtain ⟨i, hi, hst⟩ := mem_mark_steps _ _ _ hm
      subst hst
      simp only [RelocStep.indices, List.mem_singleton] at hj
      omega
  · have hst := List.mem_singleton.mp hm
    subst hst
    simp only [RelocStep.indices, List.mem_singleton] at hj
    omega

theorem relocation_stays_in_bitmap_witness :
    0 ≤ (scan_loop sampleConsts twoBlockFile 2 ((16 / 8 : Nat) : Int)
          sampleConsts.EZFS_MAX_DATA_BLKS 0 0).1 - (((16 / 8 : Nat) : Int) + 1) ∧
    (scan_loop sampleConsts twoBlockFile 2 ((16 / 8 : Nat) : Int)
          sampleConsts.EZFS_MAX_DATA_BLKS 0 0).1 - (((16 / 8 : Nat) : Int) + 1) +
        ((16 / 8 : Nat) : Int) + 1 ≤ (sampleConsts.EZFS_MAX_DATA_BLKS : Int) ∧
    ∀ step ∈ relocation_trace sampleConsts twoBlockFile 2 16, ∀ j ∈ step.indices,
      0 ≤ j ∧ j < (sampleConsts.EZFS_MAX_DATA_BLKS : Int) :=
  relocation_stays_in_bitmap sampleConsts twoBlockFile 2 16 (by decide) (by decide) (by decide)

/-- C28: if every active directory entry's filename contains a NUL within its
`MAX_FILENAME_LENGTH + 1` bytes, then `ezfs_lookup` never reads a filename
byte at an index greater than `MAX_FILENAME_LENGTH` (nor outside the
`MAX_CHILDREN` slots), for requested names of every length, including names
longer than `MAX_FILENAME_LENGTH`; a name is given by its bytes, none of
which is NUL.  In particular no comparison leaves a filename buffer. -/
theorem lookup_reads_inside_filename (c : Consts) (h : NsHost) (st : FsState)
    (directory : inode) (name : List Nat)
    (hname : ∀ b ∈ name, b ≠ 0)
    (hnul : ∀ m, m < c.EZFS_MAX_CHILDREN →
      (st.blocks (st.inode_store (directory.i_ino - c.EZFS_ROOT_INODE_NUMBER)).dbn m).active ≠ 0 →
      ∃ z, z ≤ c.EZFS_MAX_FILENAME_LENGTH ∧
        (st.blocks (st.inode_store (directory.i_ino - c.EZFS_ROOT_INODE_NUMBER)).dbn
          m).filename.get? z = some 0) :
    (∀ p ∈ ezfs_lookup_reads c h st directory name,
      p.1 < c.EZFS_MAX_CHILDREN ∧ p.2 ≤ c.EZFS_MAX_FILENAME_LENGTH) ∧
    ezfs_lookup c h st directory name ≠ none := by
  constructor
  · intro p hp
    unfold ezfs_lookup_reads at hp
    simp only [] at hp
    split_ifs at hp with h1
    · simp at hp
    · exact lookup_reads_le c _ name hname hnul c.EZFS_MAX_CHILDREN 0 p hp
  · have hnt : NulTerminated c
        (st.blocks (st.inode_store (directory.i_ino - c.EZFS_ROOT_INODE_NUMBER)).dbn) := by
      intro m hm hact
      obtain ⟨z, _, hz⟩ := hnul m hm hact
      exact List.mem_iff_get?.mpr ⟨z, hz⟩
    have hdef := lookup_scan_defined c _ name hname hnt c.EZFS_MAX_CHILDREN 0
    unfold ezfs_lookup
    simp only []
    split_ifs with h1
    · simp
    · cases hs : lookup_scan c
          (st.blocks (st.inode_store (directory.i_ino - c.EZFS_ROOT_INODE_NUMBER)).dbn) name
          c.EZFS_MAX_CHILDREN 0 with
      | none => exact absurd hs hdef
      | some r =>
        cases r with
        | none => simp
        | some ino => simp

theorem lookup_reads_inside_filename_witness :
    (∀ p ∈ ezfs_lookup_reads sampleConsts okNsHost sampleImage rootInode
        ([104, 101, 108, 108, 111, 46, 116, 120, 116] ++ List.replicate 11 120),
      p.1 < sampleConsts.EZFS_MAX_CHILDREN ∧ p.2 ≤ sampleConsts.EZFS_MAX_FILENAME_LENGTH) ∧
    ezfs_lookup sampleConsts okNsHost sampleImage rootInode
      ([104, 101, 108, 108, 111, 46, 116, 120, 116] ++ List.replicate 11 120) ≠ none :=
  lookup_reads_inside_filename sampleConsts okNsHost sampleImage rootInode
    ([104, 101, 108, 108, 111, 46, 116, 120, 116] ++ List.replicate 11 120)
    (by decide)
    (by
      intro m hm hact
      have hm4 : m < 4 := hm
      interval_cases m
      · exact ⟨9, by decide, by decide⟩
      · exact ⟨6, by decide, by decide⟩
      · exact absurd (by decide) hact
      · exact absurd (by decide) hact)

/-- C24 fails on the code: `ezfs_move_block` looks up page
`i + EZFS_ROOT_DATABLOCK_NUMBER` of the file instead of page `i`.  A
one-block file at block 2 whose next block is occupied is relocated to block
4.  When the page of logical block 0 is cached with contents `[99]`, new block
4 receives the on-disk contents of old block 2 instead; when only the page
of logical block 2 is cached, with contents `[77]`, new block 4 receives
that page instead of the on-disk contents of old block 2. -/
theorem relocation_looks_up_shifted_page :
    ((ezfs_get_block sampleConsts pageZeroHost twoFiles 2 8 idDisk 1 true).status = 0 ∧
      (ezfs_get_block sampleConsts pageZeroHost twoFiles 2 8 idDisk 1 true).dbn = 4 ∧
      pageZeroHost.find_get_page 0 = some [99] ∧
      (ezfs_get_block sampleConsts pageZeroHost twoFiles 2 8 idDisk 1 true).disk 4 = idDisk 2 ∧
      idDisk 2 ≠ [99]) ∧
    ((ezfs_get_block sampleConsts pageTwoHost twoFiles 2 8 idDisk 1 true).status = 0 ∧
      (ezfs_get_block sampleConsts pageTwoHost twoFiles 2 8 idDisk 1 true).dbn = 4 ∧
      pageTwoHost.find_get_page 0 = none ∧
      (ezfs_get_block sampleConsts pageTwoHost twoFiles 2 8 idDisk 1 true).disk 4 = [77] ∧
      idDisk 2 ≠ [77]) := by
  decide

/-- C26 fails on the code for unlink, rmdir and the bitmap release of
`ezfs_evict_inode`: they mutate without ever acquiring the mount mutex.
`unlink(root, "hello.txt")` on the formatter's image and `rmdir` of a freshly
made empty directory zero a directory slot, and the eviction of an inode with
`i_nlink = 0` and two blocks clears three bitmap bits, with no `mutex_lock`
among their events, whereas `create`, `mkdir`, a relocating `ezfs_get_block`
and the release loop of `ezfs_write_end` hold the mutex around their
mutations. -/
theorem unlink_rmdir_evict_skip_mutex :
    ezfs_unlink_events sampleConsts okNsHost sampleImage rootInode
        [104, 101, 108, 108, 111, 46, 116, 120, 116] = some [LockEvent.dir_write] ∧
    ezfs_rmdir_events sampleConsts okNsHost afterMkdir.st afterMkdir.dir [100]
        (ezfs_iget sampleConsts afterMkdir.st 7) = some [LockEvent.dir_write] ∧
    holds_mutex [LockEvent.dir_write] = false ∧
    ezfs_evict_inode_events { bigTxtInode with i_nlink := 0 } =
      [LockEvent.bitmap_write, LockEvent.bitmap_write, LockEvent.bitmap_write] ∧
    holds_mutex (ezfs_evict_inode_events { bigTxtInode with i_nlink := 0 }) = false ∧
    holds_mutex (create_inode_helper_events sampleConsts okNsHost sampleImage rootInode [100]
      0o644 false) = true ∧
    holds_mutex (create_inode_helper_events sampleConsts okNsHost sampleImage rootInode [100]
      (0o755 ||| S_IFDIR) false) = true ∧
    holds_mutex (ezfs_get_block_events sampleConsts twoBlockFile 2 16 2 true) = true ∧
    holds_mutex (write_end_release_events 2 0) = true := by
  decide

end Ezfs
